import Mathlib

/-!
# Secio negotiation, secure channel and frame transport of c-libp2p

A shallow embedding of `secio/secio.c` and `net/multistream.c`: order determination,
algorithm selection, key stretching, the AES-CTR + HMAC frame codec, the framed reads
and writes on a socket, the multistream negotiation and the secio handshake, followed by
the properties proved about them.

Conventions of the embedding.

* A byte buffer (`unsigned char*` with its size) is a `List Nat`; a byte is a
  natural number below 256. Buffer sizes are unbounded naturals.
* A C string (`char*`) is a `String` holding the characters before the
  terminating NUL.
* The cryptographic primitives of mbedtls (SHA-256, HMAC-SHA256, the AES block
  encryption) are parameters: arbitrary fixed functions.
* Allocation always succeeds.
* A read past the end of a buffer, undefined in C, yields 0 and a write past the
  end is dropped; copying more bytes than a buffer holds copies what is there. Two
  places are not covered by this and have no defined behaviour in the embedding either:
  `libp2p_secio_decrypt` on a frame of fewer than 32 bytes, and `strncmp` where it reads
  past the end of the frame it is handed.
* A socket is a byte stream and a behaviour: a function that answers every
  `socket_read` or `socket_write` call, by its number and the length asked for.
* A function that loops on a socket takes a bound on the iterations of each of its
  loops and yields `Outcome.unfinished` when a bound is reached before it returns.
* The functions the handshake calls in other files (protobuf codecs, RSA, ephemeral keys,
  peer ids) are parameters: arbitrary fixed functions, `none` for a return value of 0.
  The peer-store is a list of peers kept under their ids.
-/

set_option linter.unusedVariables false

namespace Libp2p

/-! ## Data model -/

/-- A byte buffer: `unsigned char*` together with its size. -/
abbrev Bytes := List Nat

/-- A 32-byte digest: the `unsigned char[32]` that SHA-256 and HMAC-SHA256 fill. -/
abbrev Digest := { d : List Nat // d.length = 32 }

/-- The `struct Propose` fields read by the negotiation: nonce, serialized long-term
public key and the three comma-separated algorithm lists. -/
structure Propose where
  rand : Bytes
  public_key : Bytes
  exchanges : String
  ciphers : String
  hashes : String
deriving DecidableEq, Repr

/-! ## Order determination -/

/-- `libp2p_secio_hash`: SHA-256 of the key followed by the nonce. -/
def libp2p_secio_hash (sha256 : Bytes → Digest) (key nonce : Bytes) : Digest :=
  sha256 (key ++ nonce)

/-- The `for` loop of `libp2p_secio_bytes_compare`, at index `i` with `n` indices to go. -/
def libp2p_secio_bytes_compare_loop (a b : Bytes) : Nat → Nat → Int
  | _, 0 => 0
  | i, n + 1 =>
    if b.getD i 0 > a.getD i 0 then -1
    else if a.getD i 0 > b.getD i 0 then 1
    else libp2p_secio_bytes_compare_loop a b (i + 1) n

/-- `libp2p_secio_bytes_compare`: lexicographic comparison of the first `length` bytes,
returning -1, 0 or 1. -/
def libp2p_secio_bytes_compare (a b : Bytes) (length : Int) : Int :=
  libp2p_secio_bytes_compare_loop a b 0 length.toNat

/-- `libp2p_secio_determine_order`: compares `SHA256(remote key || local nonce)` with
`SHA256(local key || remote nonce)` over 32 bytes. -/
def libp2p_secio_determine_order (sha256 : Bytes → Digest) (remote loc : Propose) : Int :=
  let hash1 := libp2p_secio_hash sha256 remote.public_key loc.rand
  let hash2 := libp2p_secio_hash sha256 loc.public_key remote.rand
  libp2p_secio_bytes_compare hash1.val hash2.val 32

/-! ## Algorithm selection -/

/-- The C string held by a NUL-terminated buffer: the characters before the first NUL. -/
def c_string (buf : List Char) : List Char :=
  buf.takeWhile (fun c => c ≠ Char.ofNat 0)

/-- The tokens handed back by `strtok(copy, ",")` and the following `strtok(NULL, ",")`
calls: the maximal comma-free runs of the C string, empty runs skipped. `cur` holds the
characters of the run being read, last one first. -/
def strtok_tokens : List Char → List Char → List String
  | [], cur => if cur = [] then [] else [String.mk cur.reverse]
  | c :: cs, cur =>
    if c = ',' then
      (if cur = [] then strtok_tokens cs [] else String.mk cur.reverse :: strtok_tokens cs [])
    else strtok_tokens cs (c :: cur)

/-- `libp2p_secio_split_list`: copies `list_size` characters of `list`, terminates the
copy with NUL and collects the `strtok` tokens into a string list, in order. -/
def libp2p_secio_split_list (list : String) (list_size : Nat) : List String :=
  strtok_tokens (c_string (list.data.take list_size)) []

/-- The inner `while (follower != NULL)` loop of `libp2p_secio_select_best`: whether
`strcmp(lead->string, follower->string) == 0` for some follower entry. -/
def select_best_follower_loop (lead : String) : List String → Bool
  | [] => false
  | follower :: next => if lead = follower then true else select_best_follower_loop lead next

/-- The outer `while (lead != NULL)` loop of `libp2p_secio_select_best`: the lead entry
at which the inner loop sets `match`, if any. -/
def select_best_lead_loop (follower_head : List String) : List String → Option String
  | [] => none
  | lead :: next =>
    if select_best_follower_loop lead follower_head then some lead
    else select_best_lead_loop follower_head next

/-- `libp2p_secio_select_best`. The result is `some (match, results)`, where `results` is
the string stored through the `results` pointer (`none` when nothing is stored). The
outer `none` is the dereference of a NULL `lead_head` on the `order == 0` shortcut, when
the local list has no entry. -/
def libp2p_secio_select_best (order : Int) (local_list : String) (local_list_size : Nat)
    (remote_list : String) (remote_list_size : Nat) : Option (Int × Option String) :=
  let lead_head := libp2p_secio_split_list local_list local_list_size
  if order = 0 then
    match lead_head with
    | [] => none
    | first :: _ => some (1, some first)
  else
    let heads :=
      if order > 0 then (lead_head, libp2p_secio_split_list remote_list remote_list_size)
      else (libp2p_secio_split_list remote_list remote_list_size, lead_head)
    match select_best_lead_loop heads.2 heads.1 with
    | some s => some (1, some s)
    | none => some (0, none)

/-- The lead list of a selection with `order` other than 0: the local entries when
`order > 0`, the remote entries when `order < 0`. -/
def select_best_lead (order : Int) (local_list : String) (local_list_size : Nat)
    (remote_list : String) (remote_list_size : Nat) : List String :=
  if order > 0 then libp2p_secio_split_list local_list local_list_size
  else libp2p_secio_split_list remote_list remote_list_size

/-- The follower list of a selection with `order` other than 0: the remote entries when
`order > 0`, the local entries when `order < 0`. -/
def select_best_follower (order : Int) (local_list : String) (local_list_size : Nat)
    (remote_list : String) (remote_list_size : Nat) : List String :=
  if order > 0 then libp2p_secio_split_list remote_list remote_list_size
  else libp2p_secio_split_list local_list local_list_size

/-! ## Key stretching -/

/-- The `struct StretchedKey` of one direction: three buffers and their size fields. -/
structure StretchedKey where
  iv : Bytes
  iv_size : Nat
  cipher_key : Bytes
  cipher_size : Nat
  mac_key : Bytes
  mac_size : Nat
deriving DecidableEq, Repr

/-- The bytes of the C string `seed = "key expansion"` (`strlen(seed)` of them). -/
def seed : Bytes := "key expansion".data.map Char.toNat

/-- The cipher switch of `libp2p_secio_stretch_keys`: `(iv_size, cipher_size)` set on both
keys, or `none` on the `goto exit` of the final `else`. -/
def stretch_keys_cipher_sizes (cipherType : String) : Option (Nat × Nat) :=
  if cipherType = "AES-128" then some (16, 16)
  else if cipherType = "AES-256" then some (16, 32)
  else if cipherType = "Blowfish" then some (8, 32)
  else none

/-- The value assigned to `result_size` in `libp2p_secio_stretch_keys`, with
`hmac_size = 20`. -/
def stretch_keys_result_size (cipherType : String) : Option Nat :=
  let hmac_size := 20
  match stretch_keys_cipher_sizes cipherType with
  | none => none
  | some (iv_size, cipher_size) => some (2 * (iv_size + cipher_size * hmac_size))

/-- The `while (num_filled < result_size)` loop of `libp2p_secio_stretch_keys`. The
state is `num_filled`, the filled part of `result` and `a_hash`; the first argument
bounds the number of iterations (every iteration fills at least one byte, so
`result_size` iterations are enough). -/
def stretch_keys_fill (hmac : Bytes → Bytes → Digest) (secret : Bytes) (result_size : Nat) :
    Nat → Nat → Bytes → Digest → Bytes
  | 0, _, result, _ => result
  | fuel + 1, num_filled, result, a_hash =>
    if num_filled < result_size then
      let b_hash := hmac secret (a_hash.val ++ seed)
      let todo := if 32 + num_filled > result_size then result_size - num_filled else 32
      stretch_keys_fill hmac secret result_size fuel (num_filled + todo)
        (result ++ b_hash.val.take todo) (hmac secret a_hash.val)
    else result

/-- The `result` buffer of `libp2p_secio_stretch_keys` when the fill loop is done (`none`
when the cipher is not supported and nothing is generated). -/
def stretch_keys_result (hmac : Bytes → Bytes → Digest) (cipherType : String)
    (secret : Bytes) : Option Bytes :=
  match stretch_keys_result_size cipherType with
  | none => none
  | some result_size =>
    some (stretch_keys_fill hmac secret result_size result_size 0 [] (hmac secret seed))

/-- `libp2p_secio_stretch_keys`: returns `(retVal, *k1_ptr, *k2_ptr)`. `secret` holds the
`secret_size` bytes of the shared secret; `hashType` is not read. -/
def libp2p_secio_stretch_keys (hmac : Bytes → Bytes → Digest) (cipherType hashType : String)
    (secret : Bytes) : Int × Option StretchedKey × Option StretchedKey :=
  let hmac_size := 20
  match stretch_keys_cipher_sizes cipherType, stretch_keys_result hmac cipherType secret with
  | some (iv_size, cipher_size), some result =>
    let temp := result
    let k1_iv := temp.take iv_size
    let temp := temp.drop iv_size
    let k1_cipher_key := temp.take cipher_size
    let temp := temp.drop cipher_size
    let k1_mac_key := temp.take hmac_size
    let temp := temp.drop hmac_size
    let k2_iv := temp.take iv_size
    let temp := temp.drop iv_size
    let k2_cipher_key := temp.take cipher_size
    let temp := temp.drop cipher_size
    let k2_mac_key := temp.take hmac_size
    (1,
     some { iv := k1_iv, iv_size := iv_size, cipher_key := k1_cipher_key,
            cipher_size := cipher_size, mac_key := k1_mac_key, mac_size := hmac_size },
     some { iv := k2_iv, iv_size := iv_size, cipher_key := k2_cipher_key,
            cipher_size := cipher_size, mac_key := k2_mac_key, mac_size := hmac_size })
  | _, _ => (0, none, none)

/-- The sequence `A_0 = HMAC(secret, "key expansion")`, `A_{j+1} = HMAC(secret, A_j)` of
the key expansion, as the specification words it. -/
def expansion_A (hmac : Bytes → Bytes → Digest) (secret : Bytes) : Nat → Digest
  | 0 => hmac secret seed
  | j + 1 => hmac secret (expansion_A hmac secret j).val

/-- The block `B_j = HMAC(secret, A_j || "key expansion")` of the key expansion. -/
def expansion_B (hmac : Bytes → Bytes → Digest) (secret : Bytes) (j : Nat) : Bytes :=
  (hmac secret ((expansion_A hmac secret j).val ++ seed)).val

/-- The first `blocks` blocks of the stream `S = B_0 || B_1 || ...`. -/
def expansion_S (hmac : Bytes → Bytes → Digest) (secret : Bytes) : Nat → Bytes
  | 0 => []
  | blocks + 1 => expansion_S hmac secret blocks ++ expansion_B hmac secret blocks

/-- The slice `S[a:b]` of a buffer. -/
def slice (s : Bytes) (a b : Nat) : Bytes := (s.drop a).take (b - a)

/-! ## Secure channel -/

/-- The fields of `struct EphemeralPublicKey` that `secio.c` reads: the encoded public
key and the shared secret that key agreement leaves there. -/
structure EphemeralPublicKey where
  bytes : Bytes
  shared_key : Bytes
deriving DecidableEq, Repr

/-- The field of `struct EphemeralPrivateKey` that `secio.c` reads: the public key
record. -/
structure EphemeralPrivateKey where
  public_key : EphemeralPublicKey
deriving DecidableEq, Repr

/-- The fields of `struct SessionContext` read and written by the secure channel: the
negotiated names, the two nonces, the two directional keys (the pointers are taken to be
non-NULL, `libp2p_secio_encrypt` and `libp2p_secio_decrypt` dereference them), the
two AES-CTR streaming states and whether the `secure_stream` pointer is non-NULL; and
the fields the handshake fills on its way: the remote peer id, the local ephemeral key,
the remote ephemeral public key and the shared key. -/
structure SessionContext where
  chosen_curve : String
  chosen_cipher : String
  chosen_hash : String
  local_nonce : Bytes
  remote_nonce : Bytes
  local_stretched_key : StretchedKey
  remote_stretched_key : StretchedKey
  aes_encode_nonce_offset : Nat
  aes_decode_nonce_offset : Nat
  aes_encode_stream_block : Bytes
  aes_decode_stream_block : Bytes
  secure_stream : Bool := false
  remote_peer_id : String := ""
  ephemeral_private_key : Option EphemeralPrivateKey := none
  remote_ephemeral_public_key : Bytes := []
  shared_key : Bytes := []
deriving DecidableEq, Repr

/-- Modelled from the spec: `mbedtls_aes_setkey_enc` is not under the sources read here.
AES key setup accepts a key of 128, 192 or 256 bits (the spec's AES-128 and AES-256 key
sizes are 16 and 32 bytes) and returns an error for every other length; the value is
whether it returns 0. -/
def mbedtls_aes_setkey_enc_ok (keybits : Nat) : Bool :=
  keybits = 128 || keybits = 192 || keybits = 256

/-- The streaming state an AES-CTR call works on: the offset into the current stream
block, the 128-bit nonce counter and the stream block. -/
structure CtrState where
  nc_off : Nat
  nonce_counter : Bytes
  stream_block : Bytes
deriving DecidableEq, Repr

/-- Modelled from the spec: the counter step of AES-CTR, not under the sources read
here. The 128-bit counter is incremented as a big-endian number: from byte `i - 1`
downwards, add one modulo 256 and stop at the first byte that does not wrap to 0. -/
def ctr_increment : Nat → Bytes → Bytes
  | 0, nonce_counter => nonce_counter
  | i + 1, nonce_counter =>
    let v := (nonce_counter.getD i 0 + 1) % 256
    if v ≠ 0 then nonce_counter.set i v else ctr_increment i (nonce_counter.set i v)

/-- Modelled from the spec: `mbedtls_aes_crypt_ctr` is not under the sources read here.
AES-CTR is XOR with a keystream determined by key, counter and offset: whenever the
offset is 0 the stream block is refilled with the block encryption of the nonce counter
under the key and the counter is incremented; each input byte is XORed with the stream
block byte at the offset, and the offset advances modulo 16. The block encryption
`aes_ecb key block` is an arbitrary fixed function. Returns the updated state and the
output, which has the length of the input. -/
def mbedtls_aes_crypt_ctr (aes_ecb : Bytes → Bytes → Bytes) (key : Bytes) :
    CtrState → Bytes → CtrState × Bytes
  | st, [] => (st, [])
  | st, c :: input =>
    let st1 : CtrState :=
      if st.nc_off = 0 then
        { nc_off := st.nc_off, nonce_counter := ctr_increment 16 st.nonce_counter,
          stream_block := aes_ecb key st.nonce_counter }
      else st
    let out := c ^^^ st1.stream_block.getD st1.nc_off 0
    let r := mbedtls_aes_crypt_ctr aes_ecb key { st1 with nc_off := (st1.nc_off + 1) % 16 } input
    (r.1, out :: r.2)

/-- `libp2p_secio_encrypt`: returns `(retVal, session, *outgoing)`. The nonce counter
handed to AES-CTR is the `iv` buffer of the local stretched key, the stream block and
offset are the session's encode state; all three are updated in place. -/
def libp2p_secio_encrypt (hmac : Bytes → Bytes → Digest) (aes_ecb : Bytes → Bytes → Bytes)
    (session : SessionContext) (incoming : Bytes) : Int × SessionContext × Option Bytes :=
  let key := session.local_stretched_key
  if !mbedtls_aes_setkey_enc_ok (key.cipher_size * 8) then (0, session, none)
  else
    let original_buffer_size := incoming.length + 32
    let r := mbedtls_aes_crypt_ctr aes_ecb (key.cipher_key.take key.cipher_size)
      { nc_off := session.aes_encode_nonce_offset, nonce_counter := key.iv,
        stream_block := session.aes_encode_stream_block } incoming
    let buffer_size := incoming.length
    let buffer := r.2 ++ List.replicate (original_buffer_size - r.2.length) 0
    let mac := hmac (key.mac_key.take key.mac_size) (buffer.take buffer_size)
    let buffer := buffer.take buffer_size ++ mac.val
    let session1 : SessionContext :=
      { session with
        local_stretched_key := { key with iv := r.1.nonce_counter },
        aes_encode_nonce_offset := r.1.nc_off,
        aes_encode_stream_block := r.1.stream_block }
    (1, session1, some (buffer.take original_buffer_size))

/-- `libp2p_secio_decrypt`: returns `(retVal, session, *outgoing)`, or `none` when
`incoming_size < 32`, where `incoming_size - 32` wraps around and the reads run past the
buffer. On a MAC mismatch the raw incoming bytes are copied to `*outgoing` and 0 is
returned before any cipher call. -/
def libp2p_secio_decrypt (hmac : Bytes → Bytes → Digest) (aes_ecb : Bytes → Bytes → Bytes)
    (session : SessionContext) (incoming : Bytes) :
    Option (Int × SessionContext × Option Bytes) :=
  if incoming.length < 32 then none
  else
    let key := session.remote_stretched_key
    let data_section_size := incoming.length - 32
    let generated_mac := hmac (key.mac_key.take key.mac_size) (incoming.take data_section_size)
    if (incoming.drop data_section_size).take 32 ≠ generated_mac.val then
      some (0, session, some incoming)
    else if !mbedtls_aes_setkey_enc_ok (key.cipher_size * 8) then some (0, session, none)
    else
      let r := mbedtls_aes_crypt_ctr aes_ecb (key.cipher_key.take key.cipher_size)
        { nc_off := session.aes_decode_nonce_offset, nonce_counter := key.iv,
          stream_block := session.aes_decode_stream_block } (incoming.take data_section_size)
      let session1 : SessionContext :=
        { session with
          remote_stretched_key := { key with iv := r.1.nonce_counter },
          aes_decode_nonce_offset := r.1.nc_off,
          aes_decode_stream_block := r.1.stream_block }
      some ((r.2.length : Int), session1, some r.2)

/-- The MAC key as handed to HMAC: `mac_size` bytes at `mac_key`. -/
def StretchedKey.mac (k : StretchedKey) : Bytes := k.mac_key.take k.mac_size

/-- The AES key as handed to key setup: `cipher_size` bytes at `cipher_key`. -/
def StretchedKey.cipher (k : StretchedKey) : Bytes := k.cipher_key.take k.cipher_size

/-- The AES-CTR call of `libp2p_secio_encrypt`: the local cipher key, the local `iv` as
nonce counter and the session's encode offset and stream block. -/
def encode_ctr (aes_ecb : Bytes → Bytes → Bytes) (session : SessionContext)
    (input : Bytes) : CtrState × Bytes :=
  mbedtls_aes_crypt_ctr aes_ecb session.local_stretched_key.cipher
    { nc_off := session.aes_encode_nonce_offset,
      nonce_counter := session.local_stretched_key.iv,
      stream_block := session.aes_encode_stream_block } input

/-- The AES-CTR call of `libp2p_secio_decrypt`: the remote cipher key, the remote `iv` as
nonce counter and the session's decode offset and stream block. -/
def decode_ctr (aes_ecb : Bytes → Bytes → Bytes) (session : SessionContext)
    (input : Bytes) : CtrState × Bytes :=
  mbedtls_aes_crypt_ctr aes_ecb session.remote_stretched_key.cipher
    { nc_off := session.aes_decode_nonce_offset,
      nonce_counter := session.remote_stretched_key.iv,
      stream_block := session.aes_decode_stream_block } input

/-- The ciphertext `AES-CTR(local.cipher_key, local.iv state, P)` of a session: the output
of AES-CTR on the session's encode state. -/
def encode_ciphertext (aes_ecb : Bytes → Bytes → Bytes) (session : SessionContext)
    (plain : Bytes) : Bytes :=
  (encode_ctr aes_ecb session plain).2

/-- The session after an AES-CTR call on the encode direction left the state `st`. -/
def with_encode_state (session : SessionContext) (st : CtrState) : SessionContext :=
  { session with
    local_stretched_key := { session.local_stretched_key with iv := st.nonce_counter },
    aes_encode_nonce_offset := st.nc_off,
    aes_encode_stream_block := st.stream_block }

/-- The session after an AES-CTR call on the decode direction left the state `st`. -/
def with_decode_state (session : SessionContext) (st : CtrState) : SessionContext :=
  { session with
    remote_stretched_key := { session.remote_stretched_key with iv := st.nonce_counter },
    aes_decode_nonce_offset := st.nc_off,
    aes_decode_stream_block := st.stream_block }

/-- A loopback-wired pair: the writer's local key and encode CTR state are the reader's
remote key and decode CTR state. -/
def loopback (a b : SessionContext) : Prop :=
  a.local_stretched_key = b.remote_stretched_key ∧
  a.aes_encode_nonce_offset = b.aes_decode_nonce_offset ∧
  a.aes_encode_stream_block = b.aes_decode_stream_block

instance (a b : SessionContext) : Decidable (loopback a b) := by
  unfold loopback; infer_instance

/-! ## Sample data -/

/-- A digest of 32 equal bytes. -/
def constDigest (v : Nat) : Digest := ⟨List.replicate 32 v, by simp⟩

/-- A sample SHA-256 stand-in: the digest repeats the first input byte. -/
def sampleSha (m : Bytes) : Digest := constDigest (m.headD 0)

/-- A sample HMAC stand-in: the digest repeats the sum of the key and message lengths. -/
def sampleHmac (k m : Bytes) : Digest := constDigest (k.length + m.length)

/-- A sample block cipher stand-in: adds 7 to every byte of the block, modulo 256. -/
def sampleEcb (_ : Bytes) (block : Bytes) : Bytes := block.map (fun x => (x + 7) % 256)

/-- A sample directional key with AES-128 sizes. -/
def sampleKey : StretchedKey :=
  { iv := List.replicate 16 255, iv_size := 16, cipher_key := List.replicate 16 1,
    cipher_size := 16, mac_key := List.replicate 20 2, mac_size := 20 }

/-- A sample session whose two directions use the same key and a fresh CTR state. -/
def sampleSession : SessionContext :=
  { chosen_curve := "P-256", chosen_cipher := "AES-128", chosen_hash := "SHA256",
    local_nonce := List.replicate 16 3, remote_nonce := List.replicate 16 4,
    local_stretched_key := sampleKey, remote_stretched_key := sampleKey,
    aes_encode_nonce_offset := 0, aes_decode_nonce_offset := 0,
    aes_encode_stream_block := List.replicate 16 0,
    aes_decode_stream_block := List.replicate 16 0 }

/-- A sample session whose cipher key size (5 bytes) AES key setup refuses. -/
def shortKeySession : SessionContext :=
  { sampleSession with
    local_stretched_key := { sampleKey with cipher_key := [1, 2, 3, 4, 5], cipher_size := 5 },
    remote_stretched_key := { sampleKey with cipher_key := [1, 2, 3, 4, 5], cipher_size := 5 } }

/-! ## Handshake: key stretching step -/

/-- The key stretching step of `libp2p_secio_handshake`: the call of
`libp2p_secio_stretch_keys` on the chosen cipher, the chosen hash and the shared key, and
the assignment of `k1` and `k2` to the session by `order`. `none` is the `goto exit`
taken when stretching fails. -/
def handshake_stretch_keys (hmac : Bytes → Bytes → Digest) (order : Int)
    (session : SessionContext) (shared_key : Bytes) : Option SessionContext :=
  match libp2p_secio_stretch_keys hmac session.chosen_cipher session.chosen_hash shared_key with
  | (retVal, some k1, some k2) =>
    if retVal = 0 then none
    else if order > 0 then
      some { session with local_stretched_key := k1, remote_stretched_key := k2 }
    else
      some { session with local_stretched_key := k2, remote_stretched_key := k1 }
  | _ => none

/-- `libp2p_secio_initialize_crypto`: sets both nonce offsets to 0 and both stream blocks
to sixteen zero bytes; the handshake calls it once, before the first encrypted write. -/
def libp2p_secio_initialize_crypto (session : SessionContext) : SessionContext :=
  { session with
    aes_decode_nonce_offset := 0,
    aes_encode_nonce_offset := 0,
    aes_decode_stream_block := List.replicate 16 0,
    aes_encode_stream_block := List.replicate 16 0 }

/-- The ciphertext part of what `libp2p_secio_encrypt` handed back: the output without
its last 32 bytes, nothing when there is no output. -/
def ciphertext_part (r : Int × SessionContext × Option Bytes) : Bytes :=
  match r.2.2 with
  | some out => out.take (out.length - 32)
  | none => []

/-! ## Sockets -/

/-- The result of a call whose loops are run for a bounded number of iterations:
the call returned, or the bound was reached before it did, or the C code has no defined
behaviour on the input. -/
inductive Outcome (α : Type) where
  | returns (value : α)
  | unfinished
  | undefined
deriving DecidableEq, Repr

/-- What a socket call hands back: a return value `n >= 0`, or a negative value with
`errno` set to `EAGAIN` or `EWOULDBLOCK`, or a negative value with another `errno`. -/
inductive SocketReturn where
  | bytes (n : Nat)
  | again
  | failure
deriving DecidableEq, Repr

/-- The `int` a socket call returns. -/
def SocketReturn.toInt : SocketReturn → Int
  | .bytes n => (n : Int)
  | .again => -1
  | .failure => -1

/-- How a loop was left: by a `return` inside it, or because its condition failed. -/
inductive LoopExit (ρ σ : Type) where
  | ret (r : ρ)
  | fall (s : σ)
deriving DecidableEq, Repr

/-- The writing side of a socket: the number of `socket_write` calls made and the bytes
the socket accepted, in order. -/
structure WriteSocket where
  calls : Nat
  wire : Bytes
deriving DecidableEq, Repr

/-- The reading side of a socket: the number of `socket_read` calls made and the bytes
of the stream not yet delivered. -/
structure ReadSocket where
  calls : Nat
  pending : Bytes
deriving DecidableEq, Repr

/-- Modelled from the spec: `socket_write` is not under the sources read here (socket
I/O is an external collaborator, a blocking byte stream). `behaviour k len` is what the
socket answers to call number `k` asking for `len` bytes; it accepts at most `len` bytes,
taken from the front of `buf`. -/
def socket_write (behaviour : Nat → Nat → SocketReturn) (sock : WriteSocket) (buf : Bytes)
    (len : Nat) : SocketReturn × WriteSocket :=
  match behaviour sock.calls len with
  | .bytes n =>
    (.bytes (min n len), { calls := sock.calls + 1, wire := sock.wire ++ buf.take (min n len) })
  | .again => (.again, { sock with calls := sock.calls + 1 })
  | .failure => (.failure, { sock with calls := sock.calls + 1 })

/-- Modelled from the spec: `socket_read` is not under the sources read here. `behaviour
k len` is what the socket answers to call number `k` asking for `len` bytes; it delivers
at most `len` bytes from the front of the pending stream, and 0 bytes when nothing is
pending (peer closed, or timeout). The delivered bytes come with the return value. -/
def socket_read (behaviour : Nat → Nat → SocketReturn) (sock : ReadSocket) (len : Nat) :
    SocketReturn × Bytes × ReadSocket :=
  match behaviour sock.calls len with
  | .bytes n =>
    (.bytes (sock.pending.take (min n len)).length, sock.pending.take (min n len),
     { calls := sock.calls + 1, pending := sock.pending.drop (min n len) })
  | .again => (.again, [], { sock with calls := sock.calls + 1 })
  | .failure => (.failure, [], { sock with calls := sock.calls + 1 })

/-- The four bytes of `htonl(n)` in memory order: `n` modulo 2^32, big-endian. -/
def htonl_bytes (n : Nat) : Bytes :=
  [n / 16777216 % 256, n / 65536 % 256, n / 256 % 256, n % 256]

/-- The value `ntohl` gives for four bytes in memory order. -/
def ntohl_bytes (size : Bytes) : Nat :=
  size.getD 0 0 * 16777216 + size.getD 1 0 * 65536 + size.getD 2 0 * 256 + size.getD 3 0

/-- The loop of `varint_encode`: while the value is at least 128, emit its low seven bits
with the continuation bit set and shift right by seven; then emit what is left. -/
def varint_encode_loop : Nat → Nat → Bytes
  | 0, _ => []
  | fuel + 1, copy =>
    if copy ≥ 128 then (copy % 128 + 128) :: varint_encode_loop fuel (copy / 128)
    else [copy]

/-- Modelled from the spec: `varint_encode` is not under the sources read here. The
unsigned varint of a 64-bit value: seven bits per byte, least significant group first,
the most significant bit of a byte set when another byte follows; at most ten bytes. -/
def varint_encode (val : Nat) : Bytes := varint_encode_loop 10 (val % 18446744073709551616)

/-- Modelled from the spec: `varint_decode` is not under the sources read here. The value
of the unsigned varint at the front of `buf`: the seven-bit groups up to and including the
first byte without continuation bit, least significant group first. -/
def varint_decode : Bytes → Nat
  | [] => 0
  | b :: rest => if b / 128 % 2 = 1 then b % 128 + 128 * varint_decode rest else b % 128

/-- The number of bytes `varint_decode` processes: up to and including the first byte
without continuation bit. -/
def varint_decode_size : Bytes → Nat
  | [] => 1
  | b :: rest => if b / 128 % 2 = 1 then 1 + varint_decode_size rest else 1

/-! ## Plaintext and secure writes -/

/-- The first `do ... while (left > 0)` loop of `libp2p_secio_unencrypted_write`, which
sends the four size bytes. Every call sends from `&size_as_char[written]`; the loop
does not change `written`. The first argument bounds the number of iterations. -/
def unencrypted_write_size_loop (behaviour : Nat → Nat → SocketReturn) (size_as_char : Bytes)
    (written : Nat) : Nat → Nat → WriteSocket → Option (LoopExit WriteSocket WriteSocket)
  | 0, _, _ => none
  | fuel + 1, left, sock =>
    match socket_write behaviour sock (size_as_char.drop written) left with
    | (.failure, sock1) => some (.ret sock1)
    | (.again, sock1) =>
      if left > 0 then unencrypted_write_size_loop behaviour size_as_char written fuel left sock1
      else some (.fall sock1)
    | (.bytes written_this_time, sock1) =>
      if left - written_this_time > 0 then
        unencrypted_write_size_loop behaviour size_as_char written fuel
          (left - written_this_time) sock1
      else some (.fall sock1)

/-- The second `do ... while (left > 0)` loop of `libp2p_secio_unencrypted_write`, which
sends the data from `&bytes[written]` and advances `written`. The first argument bounds
the number of iterations; the loop falls through with `written`. -/
def unencrypted_write_data_loop (behaviour : Nat → Nat → SocketReturn) (bytes : Bytes) :
    Nat → Nat → Nat → WriteSocket → Option (LoopExit WriteSocket (Nat × WriteSocket))
  | 0, _, _, _ => none
  | fuel + 1, left, written, sock =>
    match socket_write behaviour sock (bytes.drop written) left with
    | (.failure, sock1) => some (.ret sock1)
    | (.again, sock1) =>
      if left > 0 then unencrypted_write_data_loop behaviour bytes fuel left written sock1
      else some (.fall (written, sock1))
    | (.bytes written_this_time, sock1) =>
      if left - written_this_time > 0 then
        unencrypted_write_data_loop behaviour bytes fuel (left - written_this_time)
          (written + written_this_time) sock1
      else some (.fall (written + written_this_time, sock1))

/-- `libp2p_secio_unencrypted_write` on the socket of the session's stream: returns the
return value and the socket. `fuel` bounds the iterations of each loop. Lengths are
`int` in the C code; the embedding is exact for `data_length` below 2^31. -/
def libp2p_secio_unencrypted_write (behaviour : Nat → Nat → SocketReturn) (fuel : Nat)
    (sock : WriteSocket) (bytes : Bytes) : Outcome (Int × WriteSocket) :=
  let data_length := bytes.length
  if data_length > 0 then
    let size_as_char := htonl_bytes data_length
    match unencrypted_write_size_loop behaviour size_as_char 0 fuel 4 sock with
    | none => .unfinished
    | some (.ret sock1) => .returns (0, sock1)
    | some (.fall sock1) =>
      match unencrypted_write_data_loop behaviour bytes fuel data_length 0 sock1 with
      | none => .unfinished
      | some (.ret sock2) => .returns (0, sock2)
      | some (.fall (written, sock2)) => .returns ((written : Int), sock2)
  else .returns (0, sock)

/-- `libp2p_secio_encrypted_write`: encrypts with the local key, then hands the frame to
`libp2p_secio_unencrypted_write`. Returns the return value, the session and the socket. -/
def libp2p_secio_encrypted_write (hmac : Bytes → Bytes → Digest)
    (aes_ecb : Bytes → Bytes → Bytes) (behaviour : Nat → Nat → SocketReturn) (fuel : Nat)
    (session : SessionContext) (sock : WriteSocket) (bytes : Bytes) :
    Outcome (Int × SessionContext × WriteSocket) :=
  match libp2p_secio_encrypt hmac aes_ecb session bytes with
  | (retVal, session1, some buffer) =>
    if retVal = 0 then .returns (0, session1, sock)
    else
      match libp2p_secio_unencrypted_write behaviour fuel sock buffer with
      | .returns (r, sock1) => .returns (r, session1, sock1)
      | .unfinished => .unfinished
      | .undefined => .undefined
  | (_, session1, none) => .returns (0, session1, sock)

/-- `libp2p_net_multistream_write`: for a non-empty payload, without a secure stream
one `socket_write` of the varint and one of the data; with a secure stream the varint
and the data go through the stream's `write` in one buffer, which is
`libp2p_secio_encrypted_write` once the handshake has installed it. An empty payload is
not sent. Returns the return value, the session and the socket. -/
def libp2p_net_multistream_write (hmac : Bytes → Bytes → Digest)
    (aes_ecb : Bytes → Bytes → Bytes) (behaviour : Nat → Nat → SocketReturn) (fuel : Nat)
    (session : SessionContext) (sock : WriteSocket) (data : Bytes) :
    Outcome (Int × SessionContext × WriteSocket) :=
  let data_length := data.length
  if data_length > 0 then
    let varint := varint_encode data_length
    let varint_size := varint.length
    let buffer := varint ++ data
    if session.secure_stream = false then
      let r1 := socket_write behaviour sock varint varint_size
      let num_bytes := r1.1.toInt
      if num_bytes = 0 then .returns (0, session, r1.2)
      else
        let r2 := socket_write behaviour r1.2 data data_length
        .returns (num_bytes + r2.1.toInt, session, r2.2)
    else libp2p_secio_encrypted_write hmac aes_ecb behaviour fuel session sock buffer
  else .returns (0, session, sock)

/-! ## Plaintext and secure reads -/

/-- A freshly allocated buffer of `n` bytes that nothing has written yet: byte `i` holds
`uninit i`, whatever the memory held before. -/
def fresh_buffer (uninit : Nat → Nat) (n : Nat) : Bytes := (List.range n).map uninit

/-- The buffer after `chunk` was stored at `&buf[offset]`. -/
def write_at (buf : Bytes) (offset : Nat) (chunk : Bytes) : Bytes :=
  buf.take offset ++ chunk ++ buf.drop (offset + chunk.length)

/-- The first `do ... while (left > 0)` loop of `libp2p_secio_unencrypted_read`, which
reads the four size bytes one at a time into `&size[read]`. A byte read while
`read == 0` with `size[0] == 10` is not counted. A negative return value leaves the
loop by `return 0`. The first argument bounds the number of iterations; the loop falls
through with the `size` buffer. -/
def unencrypted_read_size_loop (behaviour : Nat → Nat → SocketReturn) :
    Nat → Nat → Nat → Bytes → ReadSocket → Option (LoopExit ReadSocket (Bytes × ReadSocket))
  | 0, _, _, _, _ => none
  | fuel + 1, left, read, size, sock =>
    match socket_read behaviour sock 1 with
    | (.bytes read_this_time, got, sock1) =>
      let size1 := write_at size read got
      if read = 0 ∧ size1.getD 0 0 = 10 then
        (if left > 0 then unencrypted_read_size_loop behaviour fuel left read size1 sock1
         else some (.fall (size1, sock1)))
      else
        (if left - read_this_time > 0 then
           unencrypted_read_size_loop behaviour fuel (left - read_this_time)
             (read + read_this_time) size1 sock1
         else some (.fall (size1, sock1)))
    | (_, _, sock1) => some (.ret sock1)

/-- The second `do ... while (left > 0)` loop of `libp2p_secio_unencrypted_read`, which
reads the payload. Every call stores what it got at `&ptr[read]`; the loop does not
change `read`. The first argument bounds the number of iterations; the loop falls
through with the payload buffer. -/
def unencrypted_read_data_loop (behaviour : Nat → Nat → SocketReturn) (read : Nat) :
    Nat → Nat → Bytes → ReadSocket → Option (LoopExit (Bytes × ReadSocket) (Bytes × ReadSocket))
  | 0, _, _, _ => none
  | fuel + 1, left, ptr, sock =>
    match socket_read behaviour sock left with
    | (.failure, _, sock1) => some (.ret (ptr, sock1))
    | (.again, _, sock1) =>
      if left > 0 then unencrypted_read_data_loop behaviour read fuel left ptr sock1
      else some (.fall (ptr, sock1))
    | (.bytes read_this_time, got, sock1) =>
      if left - read_this_time > 0 then
        unencrypted_read_data_loop behaviour read fuel (left - read_this_time)
          (write_at ptr read got) sock1
      else some (.fall (write_at ptr read got, sock1))

/-- `libp2p_secio_unencrypted_read` on the socket of the session's stream: returns the
return value, `*results` (`none` while nothing was allocated) and the socket. `fuel`
bounds the iterations of each loop, `uninit` gives the contents of memory not yet
written. Lengths are `int` in the C code; the embedding is exact for declared lengths
below 2^31. -/
def libp2p_secio_unencrypted_read (behaviour : Nat → Nat → SocketReturn) (uninit : Nat → Nat)
    (fuel : Nat) (sock : ReadSocket) : Outcome (Int × Option Bytes × ReadSocket) :=
  match unencrypted_read_size_loop behaviour fuel 4 0 (fresh_buffer uninit 4) sock with
  | none => .unfinished
  | some (.ret sock1) => .returns (0, none, sock1)
  | some (.fall (size, sock1)) =>
    let buffer_size := ntohl_bytes size
    if buffer_size = 0 then .returns (0, none, sock1)
    else
      match unencrypted_read_data_loop behaviour 0 fuel buffer_size
          (fresh_buffer uninit buffer_size) sock1 with
      | none => .unfinished
      | some (.ret (ptr, sock2)) => .returns (0, some ptr, sock2)
      | some (.fall (ptr, sock2)) => .returns ((buffer_size : Int), some ptr, sock2)

/-- `libp2p_secio_encrypted_read`: reads one frame with `libp2p_secio_unencrypted_read`
and decrypts it with the remote key. Returns the return value, `*bytes`, the session
and the socket. -/
def libp2p_secio_encrypted_read (hmac : Bytes → Bytes → Digest)
    (aes_ecb : Bytes → Bytes → Bytes) (behaviour : Nat → Nat → SocketReturn)
    (uninit : Nat → Nat) (fuel : Nat) (session : SessionContext) (sock : ReadSocket) :
    Outcome (Int × Option Bytes × SessionContext × ReadSocket) :=
  match libp2p_secio_unencrypted_read behaviour uninit fuel sock with
  | .unfinished => .unfinished
  | .undefined => .undefined
  | .returns (r, none, sock1) => if r ≤ 0 then .returns (0, none, session, sock1) else .undefined
  | .returns (r, some incoming, sock1) =>
    if r ≤ 0 then .returns (0, none, session, sock1)
    else
      match libp2p_secio_decrypt hmac aes_ecb session incoming with
      | none => .undefined
      | some (retVal, session1, bytes) => .returns (retVal, bytes, session1, sock1)

/-- The `while (1)` loop of `libp2p_net_multistream_read` that reads the varint one byte
at a time. `buffer` holds the bytes stored so far. A return value `<= 0` leaves the loop
by `return 0`; the loop falls through with `num_bytes_requested`, decoded from the bytes
stored (`varint_decode` is handed `strlen(buffer)`, which it uses only as a bound). The
first argument bounds the number of iterations. -/
def multistream_read_varint_loop (behaviour : Nat → Nat → SocketReturn) :
    Nat → Bytes → ReadSocket → Option (LoopExit ReadSocket (Nat × ReadSocket))
  | 0, _, _ => none
  | fuel + 1, buffer, sock =>
    match socket_read behaviour sock 1 with
    | (.bytes bytes, got, sock1) =>
      if bytes = 0 then some (.ret sock1)
      else
        let c := got.headD 0
        if c / 128 = 0 then some (.fall (varint_decode (buffer ++ [c]), sock1))
        else multistream_read_varint_loop behaviour fuel (buffer ++ [c]) sock1
    | (_, _, sock1) => some (.ret sock1)

/-- The `do ... while (left > 0)` loop of `libp2p_net_multistream_read` that reads the
payload into `&buffer[already_read]` and advances `already_read`; `buffer` holds the
`already_read` bytes stored so far. The first argument bounds the number of iterations. -/
def multistream_read_data_loop (behaviour : Nat → Nat → SocketReturn) :
    Nat → Nat → Bytes → ReadSocket → Option (LoopExit ReadSocket (Bytes × ReadSocket))
  | 0, _, _, _ => none
  | fuel + 1, left, buffer, sock =>
    match socket_read behaviour sock left with
    | (.failure, _, sock1) => some (.ret sock1)
    | (.again, _, sock1) =>
      if left > 0 then multistream_read_data_loop behaviour fuel left buffer sock1
      else some (.fall (buffer, sock1))
    | (.bytes bytes, got, sock1) =>
      if left - bytes > 0 then
        multistream_read_data_loop behaviour fuel (left - bytes) (buffer ++ got) sock1
      else some (.fall (buffer ++ got, sock1))

/-- The `while (num_bytes_requested > buffer_size - left)` loop of the secure branch of
`libp2p_net_multistream_read`: reads further frames through the stream until the buffer
holds the declared payload. The first argument bounds the number of iterations. -/
def multistream_read_secure_loop (hmac : Bytes → Bytes → Digest)
    (aes_ecb : Bytes → Bytes → Bytes) (behaviour : Nat → Nat → SocketReturn)
    (uninit : Nat → Nat) (fuel : Nat) (num_bytes_requested left : Nat) :
    Nat → Bytes → SessionContext → ReadSocket →
      Outcome (LoopExit (SessionContext × ReadSocket) (Bytes × SessionContext × ReadSocket))
  | 0, _, _, _ => .unfinished
  | bound + 1, buffer, session, sock =>
    if num_bytes_requested > buffer.length - left then
      match libp2p_secio_encrypted_read hmac aes_ecb behaviour uninit fuel session sock with
      | .unfinished => .unfinished
      | .undefined => .undefined
      | .returns (r, read_from_stream, session1, sock1) =>
        if r = 0 then .returns (.ret (session1, sock1))
        else
          multistream_read_secure_loop hmac aes_ecb behaviour uninit fuel num_bytes_requested
            left bound (buffer ++ read_from_stream.getD []) session1 sock1
    else .returns (.fall (buffer, session, sock))

/-- `libp2p_net_multistream_read`: returns the return value, `*results` (`none` while
nothing was stored), the session and the socket. Without a secure stream the varint and
then the payload are read from the socket; with a secure stream frames are read through
the stream's `read`, which is `libp2p_secio_encrypted_read` once the handshake has
installed it. `fuel` bounds the iterations of each loop. The stack buffer of 362144
bytes is taken to be large enough for the frame; a first secure frame that ends inside
its varint has no defined behaviour. -/
def libp2p_net_multistream_read (hmac : Bytes → Bytes → Digest)
    (aes_ecb : Bytes → Bytes → Bytes) (behaviour : Nat → Nat → SocketReturn)
    (uninit : Nat → Nat) (fuel : Nat) (session : SessionContext) (sock : ReadSocket) :
    Outcome (Int × Option Bytes × SessionContext × ReadSocket) :=
  if session.secure_stream = false then
    match multistream_read_varint_loop behaviour fuel [] sock with
    | none => .unfinished
    | some (.ret sock1) => .returns (0, none, session, sock1)
    | some (.fall (num_bytes_requested, sock1)) =>
      if num_bytes_requested = 0 then .returns (0, none, session, sock1)
      else
        match multistream_read_data_loop behaviour fuel num_bytes_requested [] sock1 with
        | none => .unfinished
        | some (.ret sock2) => .returns (0, none, session, sock2)
        | some (.fall (buffer, sock2)) =>
          if buffer.length ≠ num_bytes_requested then .returns (0, none, session, sock2)
          else
            .returns ((num_bytes_requested : Int), some (buffer.take num_bytes_requested),
              session, sock2)
  else
    match libp2p_secio_encrypted_read hmac aes_ecb behaviour uninit fuel session sock with
    | .unfinished => .unfinished
    | .undefined => .undefined
    | .returns (r, read_from_stream, session1, sock1) =>
      if r = 0 then .returns (0, none, session1, sock1)
      else
        let first := read_from_stream.getD []
        let num_bytes_requested := varint_decode first
        let left := varint_decode_size first
        if left > first.length then .undefined
        else
          match multistream_read_secure_loop hmac aes_ecb behaviour uninit fuel
              num_bytes_requested left fuel first session1 sock1 with
          | .unfinished => .unfinished
          | .undefined => .undefined
          | .returns (.ret (session2, sock2)) => .returns (0, none, session2, sock2)
          | .returns (.fall (buffer, session2, sock2)) =>
            .returns ((num_bytes_requested : Int),
              some ((buffer.drop left).take num_bytes_requested), session2, sock2)

/-- A socket behaviour in which every call asking for at least one byte takes, or
delivers, at least one and at most the requested number of bytes. -/
def takes_some (behaviour : Nat → Nat → SocketReturn) : Prop :=
  ∀ k len, 0 < len → ∃ n, behaviour k len = .bytes n ∧ 0 < n ∧ n ≤ len

/-- A sample HMAC stand-in whose digest depends on the message: byte `i` is `i` plus the
sum of the message bytes plus the key length, modulo 256. -/
def mixHmac (k m : Bytes) : Digest :=
  ⟨(List.range 32).map (fun i => (i + m.sum + k.length) % 256), by simp⟩

/-! ## Sample sockets -/

/-- A socket that takes or delivers everything a call asks for. -/
def wholeSocket : Nat → Nat → SocketReturn := fun _ len => .bytes len

/-- A socket that takes or delivers one byte per call. -/
def byteSocket : Nat → Nat → SocketReturn := fun _ _ => .bytes 1

/-- Uninitialised memory that holds 170 in every byte. -/
def sampleUninit : Nat → Nat := fun _ => 170

/-! ## Protocol identifiers -/

/-- The scan of the C library's `strstr`: the offset of the first place of the C string
`haystack` at which `needle` starts, counted from `offset`. -/
def strstr_loop (needle : Bytes) : Bytes → Nat → Option Nat
  | [], offset => if needle = [] then some offset else none
  | c :: rest, offset =>
    if (c :: rest).take needle.length = needle then some offset
    else strstr_loop needle rest (offset + 1)

/-- The C library's `strstr(haystack, needle)` on a byte buffer: `none` for `NULL`,
`some k` for `haystack + k`. The C string at `haystack` is the bytes before the first 0,
and the end of the buffer when it holds no 0. -/
def strstr (haystack needle : Bytes) : Option Nat :=
  strstr_loop needle (haystack.takeWhile (fun c => c ≠ 0)) 0

/-- The bytes of the C string `"/ipfs/secio"`. -/
def secio_identifier : Bytes := "/ipfs/secio".data.map Char.toNat

/-- `libp2p_secio_can_handle`: 0 for fewer than 11 bytes, else 1 when `strstr` finds
`"/ipfs/secio"` and the place found is `incoming` itself, else 0. -/
def libp2p_secio_can_handle (incoming : Bytes) : Int :=
  if incoming.length < 11 then 0
  else
    match strstr incoming secio_identifier with
    | some result => if result = 0 then 1 else 0
    | none => 0

/-- The C library's `strncmp(s1, s2, n)` where `s1` is a buffer that holds its bytes and
no terminating NUL, and `s2` is a C string, whose end reads as its terminating NUL:
compares at most `n` characters and stops after a NUL; `some 0` when no difference was
met, else the difference of the first two characters that differ. `none` when the
comparison reads `s1` past its end, which has no defined behaviour. -/
def strncmp : Bytes → Bytes → Nat → Option Int
  | _, _, 0 => some 0
  | [], _, _ + 1 => none
  | c1 :: rest1, s2, n + 1 =>
    if c1 ≠ s2.headD 0 then some ((c1 : Int) - (s2.headD 0 : Int))
    else if c1 = 0 then some 0
    else strncmp rest1 s2.tail n

/-- The bytes of the C string `protocolID = "/multistream/1.0.0\n"` (`strlen(protocolID)`
of them). -/
def protocolID : Bytes := "/multistream/1.0.0\n".data.map Char.toNat

/-- `libp2p_net_multistream_negotiate`: writes the protocol id with
`libp2p_net_multistream_write`, reads one frame with `libp2p_net_multistream_read`, whose
return value is not looked at, and compares the frame with `strncmp` over
`strlen(protocolID)` characters. `results_length` starts at 0 and is set by a read that
hands back a buffer; the buffer holds the frame and nothing behind it, so a comparison
that runs past the frame has no defined behaviour. Returns the return value, the session
and the two sides of the socket. -/
def libp2p_net_multistream_negotiate (hmac : Bytes → Bytes → Digest)
    (aes_ecb : Bytes → Bytes → Bytes) (wbehaviour rbehaviour : Nat → Nat → SocketReturn)
    (uninit : Nat → Nat) (fuel : Nat) (session : SessionContext) (wsock : WriteSocket)
    (rsock : ReadSocket) : Outcome (Int × SessionContext × WriteSocket × ReadSocket) :=
  match libp2p_net_multistream_write hmac aes_ecb wbehaviour fuel session wsock protocolID with
  | .unfinished => .unfinished
  | .undefined => .undefined
  | .returns (written, session1, wsock1) =>
    if written = 0 then .returns (0, session1, wsock1, rsock)
    else
      match libp2p_net_multistream_read hmac aes_ecb rbehaviour uninit fuel session1 rsock with
      | .unfinished => .unfinished
      | .undefined => .undefined
      | .returns (_, results, session2, rsock1) =>
        let results_length := (results.getD []).length
        if results_length = 0 then .returns (0, session2, wsock1, rsock1)
        else
          match strncmp (results.getD []) protocolID protocolID.length with
          | none => .undefined
          | some difference =>
            if difference ≠ 0 then .returns (0, session2, wsock1, rsock1)
            else .returns (1, session2, wsock1, rsock1)

/-! ## MAC and cipher preparation -/

/-- The comparison loop of the C library's `strcmp` on the characters of two C strings:
0 when both end together, else negative or positive by the first place at which they
differ. -/
def strcmp_loop : List Char → List Char → Int
  | [], [] => 0
  | [], _ :: _ => -1
  | _ :: _, [] => 1
  | a :: s1, b :: s2 =>
    if a = b then strcmp_loop s1 s2 else if a.toNat < b.toNat then -1 else 1

/-- The C library's `strcmp` on two C strings: 0 when they are equal, else negative or
positive by their order. -/
def strcmp (a b : String) : Int := strcmp_loop a.data b.data

/-- `libp2p_secio_make_mac_and_cipher`: returns the return value and the stretched key.
The hash switch sets `mac_size` for "SHA1" and "SHA512", leaves it for "SHA256" and
returns 0 for any other name. The cipher condition is the C expression
`strcmp(chosen_cipher, "AES-128") || strcmp(chosen_cipher, "AES-256") == 0`, whose first
operand is the value of `strcmp` itself. -/
def libp2p_secio_make_mac_and_cipher (session : SessionContext) (stretched_key : StretchedKey) :
    Int × StretchedKey :=
  let hashed : Option StretchedKey :=
    if strcmp session.chosen_hash "SHA1" = 0 then some { stretched_key with mac_size := 40 }
    else if strcmp session.chosen_hash "SHA512" = 0 then
      some { stretched_key with mac_size := 64 }
    else if strcmp session.chosen_hash "SHA256" = 0 then some stretched_key
    else none
  match hashed with
  | none => (0, stretched_key)
  | some key =>
    if strcmp session.chosen_cipher "AES-128" ≠ 0 ∨ strcmp session.chosen_cipher "AES-256" = 0
    then (1, key)
    else if strcmp session.chosen_cipher "Blowfish" = 0 then (0, key)
    else (0, key)

/-- The session with the chosen hash and the chosen cipher set to the given names. -/
def SessionContext.choosing (session : SessionContext) (hash cipher : String) :
    SessionContext :=
  { session with chosen_hash := hash, chosen_cipher := cipher }

/-! ## Handshake: the signed corpus -/

/-- The C library's `memcpy(&dest[offset], src, n)`. -/
def memcpy (dest : Bytes) (offset : Nat) (src : Bytes) (n : Nat) : Bytes :=
  write_at dest offset (src.take n)

/-- The buffer `libp2p_secio_handshake` signs: `char_buffer` of `propose_in_size +
propose_out_size + bytes_size - 1` bytes, filled with the local propose bytes, the remote
propose bytes and the local ephemeral public key from `&bytes[1]` on. -/
def handshake_sign_buffer (uninit : Nat → Nat) (propose_out_bytes propose_in_bytes : Bytes)
    (ephemeral_public_key_bytes : Bytes) : Bytes :=
  let propose_out_size := propose_out_bytes.length
  let propose_in_size := propose_in_bytes.length
  let bytes_size := ephemeral_public_key_bytes.length
  let char_buffer_length := propose_in_size + propose_out_size + bytes_size - 1
  let char_buffer := fresh_buffer uninit char_buffer_length
  let char_buffer := memcpy char_buffer 0 propose_out_bytes propose_out_size
  let char_buffer := memcpy char_buffer propose_out_size propose_in_bytes propose_in_size
  memcpy char_buffer (propose_in_size + propose_out_size)
    (ephemeral_public_key_bytes.drop 1) (bytes_size - 1)

/-- The `epubkey` of the Exchange `libp2p_secio_handshake` sends: `bytes_size - 1` bytes
copied from `&bytes[1]` of the local ephemeral public key. -/
def handshake_exchange_epubkey (uninit : Nat → Nat) (ephemeral_public_key_bytes : Bytes) :
    Bytes :=
  let bytes_size := ephemeral_public_key_bytes.length
  memcpy (fresh_buffer uninit (bytes_size - 1)) 0 (ephemeral_public_key_bytes.drop 1)
    (bytes_size - 1)

/-- The `remote_ephemeral_public_key` that `libp2p_secio_handshake` stores in the session:
`epubkey_size + 1` bytes, byte 0 set to `epubkey_size` (stored in an `unsigned char`),
then the received `epubkey`. -/
def handshake_remote_ephemeral_public_key (uninit : Nat → Nat) (epubkey : Bytes) : Bytes :=
  let epubkey_size := epubkey.length
  let remote_ephemeral_public_key_size := epubkey_size + 1
  let remote_ephemeral_public_key := fresh_buffer uninit remote_ephemeral_public_key_size
  let remote_ephemeral_public_key := write_at remote_ephemeral_public_key 0 [epubkey_size % 256]
  memcpy remote_ephemeral_public_key 1 epubkey epubkey_size

/-- The buffer `libp2p_secio_handshake` verifies the remote signature on: `char_buffer` of
`propose_in_size + propose_out_size + remote_ephemeral_public_key_size - 1` bytes, filled
with the remote propose bytes, the local propose bytes and the remote ephemeral public
key from `&remote_ephemeral_public_key[1]` on. -/
def handshake_verify_buffer (uninit : Nat → Nat) (propose_in_bytes propose_out_bytes : Bytes)
    (remote_ephemeral_public_key : Bytes) : Bytes :=
  let propose_in_size := propose_in_bytes.length
  let propose_out_size := propose_out_bytes.length
  let remote_ephemeral_public_key_size := remote_ephemeral_public_key.length
  let char_buffer_length :=
    propose_in_size + propose_out_size + remote_ephemeral_public_key_size - 1
  let char_buffer := fresh_buffer uninit char_buffer_length
  let char_buffer := memcpy char_buffer 0 propose_in_bytes propose_in_size
  let char_buffer := memcpy char_buffer propose_in_size propose_out_bytes propose_out_size
  memcpy char_buffer (propose_in_size + propose_out_size)
    (remote_ephemeral_public_key.drop 1) (remote_ephemeral_public_key_size - 1)

/-! ## Handshake: data and collaborators -/

/-- The `struct PublicKey` fields: the key type tag and the encoded key. -/
structure PublicKey where
  type : Nat
  data : Bytes
deriving DecidableEq, Repr

/-- Modelled from the spec: the enumeration of key types is not under the sources read
here. In the long-term public key encoding the type tag of an RSA key is 0. -/
def KEYTYPE_RSA : Nat := 0

/-- The `struct RsaPrivateKey` fields the handshake reads: the encoded private key and
the encoded public key. -/
structure RsaPrivateKey where
  der : Bytes
  public_key_der : Bytes
deriving DecidableEq, Repr

/-- The `struct Exchange` fields: the ephemeral public key as sent and the signature. -/
structure Exchange where
  epubkey : Bytes
  signature : Bytes
deriving DecidableEq, Repr

/-- Modelled from the spec: the connection-state tag of a peer entry; its enumeration
is not under the sources read here. `CONNECTION_TYPE_CONNECTED` is the tag the handshake
sets, `CONNECTION_TYPE_NOT_CONNECTED` the tag of a peer that is not connected. -/
inductive ConnectionType where
  | CONNECTION_TYPE_NOT_CONNECTED
  | CONNECTION_TYPE_CONNECTED
deriving DecidableEq, Repr

/-- The `struct Libp2pPeer` fields the handshake sets: the id and the connection state
tag. The pointer from the peer to its session is not part of the record. -/
structure Libp2pPeer where
  id : String
  connection_type : ConnectionType
deriving DecidableEq, Repr

/-- The functions `libp2p_secio_handshake` calls that are not under the sources read
here, as arbitrary fixed functions; `none` stands for the return value 0. `random` is
what `/dev/urandom` yields. -/
structure Collaborators where
  random : Bytes
  libp2p_crypto_public_key_protobuf_encode : PublicKey → Option Bytes
  libp2p_secio_propose_protobuf_encode : Propose → Option Bytes
  libp2p_secio_propose_protobuf_decode : Bytes → Option Propose
  libp2p_crypto_public_key_protobuf_decode : Bytes → Option PublicKey
  libp2p_crypto_public_key_to_peer_id : PublicKey → Option String
  libp2p_crypto_ephemeral_keypair_generate : String → Option EphemeralPrivateKey
  libp2p_crypto_rsa_sign : Bytes → Bytes → Option Bytes
  libp2p_secio_exchange_protobuf_encode : Exchange → Bytes
  libp2p_secio_exchange_protobuf_decode : Bytes → Option Exchange
  libp2p_crypto_rsa_verify : Bytes → Bytes → Bytes → Bool
  libp2p_crypto_ephemeral_generate_shared_secret : EphemeralPrivateKey → Bytes → Option Bytes

/-- Modelled from the spec: the peer-store is not under the sources read here; it is a
simple keyed map of peers. `libp2p_peerstore_get_peer` hands back the entry kept under
the id, `none` for `NULL`. -/
def libp2p_peerstore_get_peer (peerstore : List Libp2pPeer) (id : String) : Option Libp2pPeer :=
  peerstore.find? (fun p => p.id = id)

/-- Modelled from the spec: the peer-store is not under the sources read here; it is a
simple keyed map of peers. `libp2p_peerstore_add_peer` inserts the peer. -/
def libp2p_peerstore_add_peer (peerstore : List Libp2pPeer) (peer : Libp2pPeer) :
    List Libp2pPeer :=
  peerstore ++ [peer]

/-- Modelled from the spec: `libp2p_peer_new` is not under the sources read here. A
fresh peer record has no id and is not connected. -/
def libp2p_peer_new : Libp2pPeer :=
  { id := "", connection_type := .CONNECTION_TYPE_NOT_CONNECTED }

/-- Modelled from the spec: `libp2p_peer_handle_connection_error` is not under the
sources read here. It sets the connection state tag of the peer to not connected. -/
def libp2p_peer_handle_connection_error (peer : Libp2pPeer) : Libp2pPeer :=
  { peer with connection_type := .CONNECTION_TYPE_NOT_CONNECTED }

/-- The peer-store after a store through the pointer `remote_peer`: a peer that was
handed out by `libp2p_peerstore_get_peer` is the entry of the store, which changes with
it; a peer made by `libp2p_peer_new` is not in the store. -/
def store_through (peerstore : List Libp2pPeer) (new_peer : Bool) (remote_peer : Libp2pPeer) :
    List Libp2pPeer :=
  if new_peer then peerstore
  else peerstore.map (fun p => if p.id = remote_peer.id then remote_peer else p)

/-- The C string `SupportedExchanges`. -/
def SupportedExchanges : String := "P-256,P-384,P-521"

/-- The C string `SupportedCiphers`. -/
def SupportedCiphers : String := "AES-256,AES-128,Blowfish"

/-- The C string `SupportedHashes`. -/
def SupportedHashes : String := "SHA256,SHA512"

/-- `libp2p_secio_sign`: an RSA key signs with `libp2p_crypto_rsa_sign`, any other key
type returns 0. -/
def libp2p_secio_sign (c : Collaborators) (type : Nat) (data : Bytes) (input : Bytes) :
    Option Bytes :=
  if type = KEYTYPE_RSA then c.libp2p_crypto_rsa_sign data input else none

/-- `libp2p_secio_verify_signature`: an RSA key verifies with `libp2p_crypto_rsa_verify`,
any other key type returns 0. -/
def libp2p_secio_verify_signature (c : Collaborators) (public_key : PublicKey) (input : Bytes)
    (signature : Bytes) : Bool :=
  if public_key.type = KEYTYPE_RSA then c.libp2p_crypto_rsa_verify public_key.data input signature
  else false

/-- What `libp2p_secio_handshake` reads and changes besides its local variables: the
session, the peer-store and the two sides of the socket. -/
structure HandshakeState where
  session : SessionContext
  peerstore : List Libp2pPeer
  wsock : WriteSocket
  rsock : ReadSocket
deriving DecidableEq, Repr

/-- The local variables of `libp2p_secio_handshake` that later steps read: the two
proposals, as records and as sent, the remote long-term public key, the remote peer,
whether it was made by `libp2p_peer_new`, and the order. -/
structure HandshakeLocals where
  propose_out : Propose
  propose_out_bytes : Bytes
  propose_in : Propose
  propose_in_bytes : Bytes
  public_key : PublicKey
  remote_peer : Libp2pPeer := libp2p_peer_new
  new_peer : Bool := false
  order : Int := 0
deriving DecidableEq, Repr

/-- Runs the next step of a function after a step that fell through; a `goto exit`, a
reached bound and undefined behaviour are passed on. -/
def Outcome.step {ρ σ τ : Type} (x : Outcome (LoopExit ρ σ))
    (f : σ → Outcome (LoopExit ρ τ)) : Outcome (LoopExit ρ τ) :=
  match x with
  | .returns (.fall s) => f s
  | .returns (.ret r) => .returns (.ret r)
  | .unfinished => .unfinished
  | .undefined => .undefined

/-! ## Handshake: the steps -/

/-- The proposal step of `libp2p_secio_handshake`: the local nonce, the local proposal
and its write, the read and decoding of the remote proposal, the remote nonce, the remote
public key and the remote peer id. A short write of the proposal is only logged. The
step is left by `goto exit` with the state reached, or falls through with the local
variables and the state. -/
def handshake_propose (c : Collaborators) (wbehaviour rbehaviour : Nat → Nat → SocketReturn)
    (uninit : Nat → Nat) (fuel : Nat) (private_key : RsaPrivateKey) (st : HandshakeState) :
    Outcome (LoopExit HandshakeState (HandshakeLocals × HandshakeState)) :=
  let st : HandshakeState :=
    { st with session := { st.session with
        local_nonce := memcpy st.session.local_nonce 0 c.random 16 } }
  let rand := st.session.local_nonce.take 16
  let pub_key : PublicKey := { type := KEYTYPE_RSA, data := private_key.public_key_der }
  match c.libp2p_crypto_public_key_protobuf_encode pub_key with
  | none => .returns (.ret st)
  | some results =>
    let propose_out : Propose :=
      { rand := rand, public_key := results, exchanges := SupportedExchanges,
        ciphers := SupportedCiphers, hashes := SupportedHashes }
    match c.libp2p_secio_propose_protobuf_encode propose_out with
    | none => .returns (.ret st)
    | some propose_out_bytes =>
      match libp2p_secio_unencrypted_write wbehaviour fuel st.wsock propose_out_bytes with
      | .unfinished => .unfinished
      | .undefined => .undefined
      | .returns (_, wsock1) =>
        let st : HandshakeState := { st with wsock := wsock1 }
        match libp2p_secio_unencrypted_read rbehaviour uninit fuel st.rsock with
        | .unfinished => .unfinished
        | .undefined => .undefined
        | .returns (bytes_written, propose_in_bytes, rsock1) =>
          let st : HandshakeState := { st with rsock := rsock1 }
          if bytes_written ≤ 0 then .returns (.ret st)
          else
            match c.libp2p_secio_propose_protobuf_decode (propose_in_bytes.getD []) with
            | none => .returns (.ret st)
            | some propose_in =>
              if propose_in.rand.length ≠ 16 then .returns (.ret st)
              else
                let st : HandshakeState :=
                  { st with session := { st.session with
                      remote_nonce := memcpy st.session.remote_nonce 0 propose_in.rand 16 } }
                match c.libp2p_crypto_public_key_protobuf_decode propose_in.public_key with
                | none => .returns (.ret st)
                | some public_key =>
                  match c.libp2p_crypto_public_key_to_peer_id public_key with
                  | none => .undefined
                  | some remote_peer_id =>
                    .returns (.fall
                      ({ propose_out := propose_out, propose_out_bytes := propose_out_bytes,
                         propose_in := propose_in,
                         propose_in_bytes := propose_in_bytes.getD [],
                         public_key := public_key },
                       { st with session := { st.session with
                           remote_peer_id := remote_peer_id } }))

/-- The peer step of `libp2p_secio_handshake`: looks the remote peer id up in the
peer-store; an unknown peer is made by `libp2p_peer_new`, given the id and remembered as
new, without being inserted; either peer is marked connected. -/
def handshake_peer (locals : HandshakeLocals) (st : HandshakeState) :
    HandshakeLocals × HandshakeState :=
  match libp2p_peerstore_get_peer st.peerstore st.session.remote_peer_id with
  | none =>
    let remote_peer := libp2p_peer_new
    let remote_peer : Libp2pPeer :=
      if st.session.remote_peer_id.length > 0 then
        { remote_peer with id := st.session.remote_peer_id }
      else remote_peer
    let remote_peer : Libp2pPeer :=
      { remote_peer with connection_type := .CONNECTION_TYPE_CONNECTED }
    ({ locals with remote_peer := remote_peer, new_peer := true },
     { st with peerstore := store_through st.peerstore true remote_peer })
  | some remote_peer =>
    let remote_peer : Libp2pPeer :=
      { remote_peer with connection_type := .CONNECTION_TYPE_CONNECTED }
    ({ locals with remote_peer := remote_peer, new_peer := false },
     { st with peerstore := store_through st.peerstore false remote_peer })

/-- The selection step of `libp2p_secio_handshake`: the order, then the curve, the cipher
and the hash by `libp2p_secio_select_best`, each of which leaves by `goto exit` on the
return value 0. -/
def handshake_select (sha256 : Bytes → Digest) (locals : HandshakeLocals)
    (st : HandshakeState) : Outcome (LoopExit HandshakeState (HandshakeLocals × HandshakeState)) :=
  let propose_out := locals.propose_out
  let propose_in := locals.propose_in
  let order := libp2p_secio_determine_order sha256 propose_in propose_out
  match libp2p_secio_select_best order propose_out.exchanges propose_out.exchanges.length
      propose_in.exchanges propose_in.exchanges.length with
  | none => .undefined
  | some (r, results) =>
    let st : HandshakeState :=
      { st with session := { st.session with
          chosen_curve := results.getD st.session.chosen_curve } }
    if r = 0 then .returns (.ret st)
    else
      match libp2p_secio_select_best order propose_out.ciphers propose_out.ciphers.length
          propose_in.ciphers propose_in.ciphers.length with
      | none => .undefined
      | some (r, results) =>
        let st : HandshakeState :=
          { st with session := { st.session with
              chosen_cipher := results.getD st.session.chosen_cipher } }
        if r = 0 then .returns (.ret st)
        else
          match libp2p_secio_select_best order propose_out.hashes propose_out.hashes.length
              propose_in.hashes propose_in.hashes.length with
          | none => .undefined
          | some (r, results) =>
            let st : HandshakeState :=
              { st with session := { st.session with
                  chosen_hash := results.getD st.session.chosen_hash } }
            if r = 0 then .returns (.ret st)
            else .returns (.fall ({ locals with order := order }, st))

/-- The exchange step of `libp2p_secio_handshake`: the ephemeral key pair, the signed
buffer, the Exchange and its write, the read of the remote Exchange, the remote ephemeral
public key, the signature verification and the shared secret. The return values of
signing and of decoding the remote Exchange are not looked at; an ephemeral public key
of no bytes and a remote Exchange that does not decode have no defined behaviour. -/
def handshake_exchange (c : Collaborators) (wbehaviour rbehaviour : Nat → Nat → SocketReturn)
    (uninit : Nat → Nat) (fuel : Nat) (private_key : RsaPrivateKey) (locals : HandshakeLocals)
    (st : HandshakeState) : Outcome (LoopExit HandshakeState HandshakeState) :=
  match c.libp2p_crypto_ephemeral_keypair_generate st.session.chosen_curve with
  | none => .returns (.ret st)
  | some ephemeral_private_key =>
    let st : HandshakeState :=
      { st with session := { st.session with
          ephemeral_private_key := some ephemeral_private_key } }
    let bytes := ephemeral_private_key.public_key.bytes
    if bytes.length = 0 then .undefined
    else
      let char_buffer :=
        handshake_sign_buffer uninit locals.propose_out_bytes locals.propose_in_bytes bytes
      let exchange_out : Exchange :=
        { epubkey := handshake_exchange_epubkey uninit bytes,
          signature := (libp2p_secio_sign c KEYTYPE_RSA private_key.der char_buffer).getD [] }
      let exchange_out_protobuf := c.libp2p_secio_exchange_protobuf_encode exchange_out
      match libp2p_secio_unencrypted_write wbehaviour fuel st.wsock exchange_out_protobuf with
      | .unfinished => .unfinished
      | .undefined => .undefined
      | .returns (bytes_written, wsock1) =>
        let st : HandshakeState := { st with wsock := wsock1 }
        if (exchange_out_protobuf.length : Int) ≠ bytes_written then .returns (.ret st)
        else
          match libp2p_secio_unencrypted_read rbehaviour uninit fuel st.rsock with
          | .unfinished => .unfinished
          | .undefined => .undefined
          | .returns (bytes_written, results, rsock1) =>
            let st : HandshakeState := { st with rsock := rsock1 }
            if bytes_written = 0 then
              let remote_peer := libp2p_peer_handle_connection_error locals.remote_peer
              .returns (.ret
                { st with peerstore := store_through st.peerstore locals.new_peer remote_peer })
            else
              match c.libp2p_secio_exchange_protobuf_decode (results.getD []) with
              | none => .undefined
              | some exchange_in =>
                let remote_ephemeral_public_key :=
                  handshake_remote_ephemeral_public_key uninit exchange_in.epubkey
                let st : HandshakeState :=
                  { st with session := { st.session with
                      remote_ephemeral_public_key := remote_ephemeral_public_key } }
                let char_buffer :=
                  handshake_verify_buffer uninit locals.propose_in_bytes
                    locals.propose_out_bytes remote_ephemeral_public_key
                if !libp2p_secio_verify_signature c locals.public_key char_buffer
                    exchange_in.signature then .returns (.ret st)
                else
                  match c.libp2p_crypto_ephemeral_generate_shared_secret ephemeral_private_key
                      remote_ephemeral_public_key with
                  | none => .returns (.ret st)
                  | some shared_key =>
                    let public_key : EphemeralPublicKey :=
                      { ephemeral_private_key.public_key with shared_key := shared_key }
                    let ephemeral_private_key : EphemeralPrivateKey :=
                      { ephemeral_private_key with public_key := public_key }
                    .returns (.fall
                      { st with session := { st.session with
                          ephemeral_private_key := some ephemeral_private_key,
                          shared_key := shared_key } })

/-- The key step of `libp2p_secio_handshake`: stretches the shared key and assigns the two
keys by the order, leaves by `goto exit` when no hash function is picked for the chosen
hash, calls `libp2p_secio_make_mac_and_cipher` on both keys without looking at what it
returns, and initialises the AES-CTR state. -/
def handshake_keys (hmac : Bytes → Bytes → Digest) (locals : HandshakeLocals)
    (st : HandshakeState) : Outcome (LoopExit HandshakeState HandshakeState) :=
  match handshake_stretch_keys hmac locals.order st.session st.session.shared_key with
  | none => .returns (.ret st)
  | some session =>
    let st : HandshakeState := { st with session := session }
    let picked : Bool :=
      if strcmp session.chosen_hash "SHA1" = 0 then true
      else if strcmp session.chosen_hash "SHA512" = 0 then true
      else if strcmp session.chosen_hash "SHA256" = 0 then true
      else false
    if !picked then .returns (.ret st)
    else
      let session : SessionContext :=
        { session with local_stretched_key :=
            (libp2p_secio_make_mac_and_cipher session session.local_stretched_key).2 }
      let session : SessionContext :=
        { session with remote_stretched_key :=
            (libp2p_secio_make_mac_and_cipher session session.remote_stretched_key).2 }
      .returns (.fall { st with session := libp2p_secio_initialize_crypto session })

/-- The liveness step of `libp2p_secio_handshake`: writes the 16 bytes of the remote
nonce with `libp2p_secio_encrypted_write`, reads one frame with
`libp2p_secio_encrypted_read` and leaves by `goto exit` unless the write returned more
than 0, the read returned more than 0, `results_size` is 16 and
`libp2p_secio_bytes_compare` of the result with the local nonce over 16 bytes is 0. -/
def handshake_liveness (hmac : Bytes → Bytes → Digest) (aes_ecb : Bytes → Bytes → Bytes)
    (wbehaviour rbehaviour : Nat → Nat → SocketReturn) (uninit : Nat → Nat) (fuel : Nat)
    (st : HandshakeState) : Outcome (LoopExit HandshakeState HandshakeState) :=
  match libp2p_secio_encrypted_write hmac aes_ecb wbehaviour fuel st.session st.wsock
      (st.session.remote_nonce.take 16) with
  | .unfinished => .unfinished
  | .undefined => .undefined
  | .returns (written, session1, wsock1) =>
    let st : HandshakeState := { st with session := session1, wsock := wsock1 }
    if written ≤ 0 then .returns (.ret st)
    else
      match libp2p_secio_encrypted_read hmac aes_ecb rbehaviour uninit fuel st.session
          st.rsock with
      | .unfinished => .unfinished
      | .undefined => .undefined
      | .returns (bytes_read, results, session2, rsock1) =>
        let st : HandshakeState := { st with session := session2, rsock := rsock1 }
        let results_size := (results.getD []).length
        if bytes_read ≤ 0 then .returns (.ret st)
        else if results_size ≠ 16 then .returns (.ret st)
        else if libp2p_secio_bytes_compare (results.getD []) st.session.local_nonce 16 ≠ 0 then
          .returns (.ret st)
        else .returns (.fall st)

/-- The last step of `libp2p_secio_handshake`, after the liveness check: installs the
secure stream as the default stream of the session and inserts a new peer into the
peer-store. -/
def handshake_finish (locals : HandshakeLocals) (st : HandshakeState) : HandshakeState :=
  let st : HandshakeState := { st with session := { st.session with secure_stream := true } }
  if locals.new_peer then
    { st with peerstore := libp2p_peerstore_add_peer st.peerstore locals.remote_peer }
  else st

/-- The steps of `libp2p_secio_handshake` before the liveness step, in order: proposal,
peer, selection, exchange and keys. Falls through with the local variables and the
state in which the liveness step starts. -/
def handshake_before_liveness (sha256 : Bytes → Digest) (hmac : Bytes → Bytes → Digest)
    (c : Collaborators) (wbehaviour rbehaviour : Nat → Nat → SocketReturn)
    (uninit : Nat → Nat) (fuel : Nat) (private_key : RsaPrivateKey) (st : HandshakeState) :
    Outcome (LoopExit HandshakeState (HandshakeLocals × HandshakeState)) :=
  (handshake_propose c wbehaviour rbehaviour uninit fuel private_key st).step fun r1 =>
  (handshake_select sha256 (handshake_peer r1.1 r1.2).1 (handshake_peer r1.1 r1.2).2).step
    fun r2 =>
  (handshake_exchange c wbehaviour rbehaviour uninit fuel private_key r2.1 r2.2).step
    fun st3 =>
  (handshake_keys hmac r2.1 st3).step fun st4 => .returns (.fall (r2.1, st4))

/-- `libp2p_secio_handshake` on the session, the long-term private key and the
peer-store: returns `retVal`, which is 1 when the last step was reached and 0 after a
`goto exit`, and the state left behind. -/
def libp2p_secio_handshake (sha256 : Bytes → Digest) (hmac : Bytes → Bytes → Digest)
    (aes_ecb : Bytes → Bytes → Bytes) (c : Collaborators)
    (wbehaviour rbehaviour : Nat → Nat → SocketReturn) (uninit : Nat → Nat) (fuel : Nat)
    (local_session : SessionContext) (private_key : RsaPrivateKey)
    (peerstore : List Libp2pPeer) (wsock : WriteSocket) (rsock : ReadSocket) :
    Outcome (Int × HandshakeState) :=
  let st : HandshakeState :=
    { session := local_session, peerstore := peerstore, wsock := wsock, rsock := rsock }
  let run : Outcome (LoopExit HandshakeState HandshakeState) :=
    (handshake_before_liveness sha256 hmac c wbehaviour rbehaviour uninit fuel private_key
      st).step fun r =>
    (handshake_liveness hmac aes_ecb wbehaviour rbehaviour uninit fuel r.2).step fun st5 =>
    .returns (.fall (handshake_finish r.1 st5))
  match run with
  | .returns (.fall st) => .returns (1, st)
  | .returns (.ret st) => .returns (0, st)
  | .unfinished => .unfinished
  | .undefined => .undefined

/-- What no step of `libp2p_secio_handshake` before the last one changes: whether the
secure stream is installed, the ids under which the peer-store keeps its peers, and that
the local nonce has 16 bytes. -/
def HandshakeState.keeps (st st1 : HandshakeState) : Prop :=
  st1.session.secure_stream = st.session.secure_stream ∧
  st1.peerstore.map Libp2pPeer.id = st.peerstore.map Libp2pPeer.id ∧
  (st.session.local_nonce.length = 16 → st1.session.local_nonce.length = 16)

/-! ## Sample handshake -/

/-- A sample SHA-256 stand-in: the digest repeats the sum of the input bytes, modulo 256. -/
def mixSha (m : Bytes) : Digest := constDigest (m.sum % 256)

/-- Sample collaborators. A public key is encoded as its type followed by its data, a
proposal as its nonce followed by its public key (the lists are the supported ones), an
Exchange as the size of its `epubkey` followed by the `epubkey` and the signature. A
signature is the first byte of the signing key followed by the length of the signed
buffer; the public key of a private key has the same first byte. -/
def sampleCollaborators : Collaborators :=
  { random := List.replicate 16 3,
    libp2p_crypto_public_key_protobuf_encode := fun k => some (k.type :: k.data),
    libp2p_secio_propose_protobuf_encode := fun p => some (p.rand ++ p.public_key),
    libp2p_secio_propose_protobuf_decode := fun b =>
      if b.length < 16 then none
      else some { rand := b.take 16, public_key := b.drop 16, exchanges := SupportedExchanges,
                  ciphers := SupportedCiphers, hashes := SupportedHashes },
    libp2p_crypto_public_key_protobuf_decode := fun b =>
      match b with
      | [] => none
      | t :: d => some { type := t, data := d },
    libp2p_crypto_public_key_to_peer_id := fun k =>
      some (if k.data = [1] then "QmAlice" else "QmBob"),
    libp2p_crypto_ephemeral_keypair_generate := fun _ =>
      some { public_key := { bytes := [3, 4, 21, 22], shared_key := [] } },
    libp2p_crypto_rsa_sign := fun der input => some [der.headD 0, input.length % 256],
    libp2p_secio_exchange_protobuf_encode := fun e =>
      e.epubkey.length :: (e.epubkey ++ e.signature),
    libp2p_secio_exchange_protobuf_decode := fun b =>
      match b with
      | [] => none
      | n :: rest => some { epubkey := rest.take n, signature := rest.drop n },
    libp2p_crypto_rsa_verify := fun der input signature =>
      decide (signature = [der.headD 0, input.length % 256]),
    libp2p_crypto_ephemeral_generate_shared_secret := fun key remote =>
      some [(key.public_key.bytes.sum + remote.sum) % 256, 9] }

/-- The sample collaborators of the remote side: another nonce and another ephemeral
key. -/
def remoteCollaborators : Collaborators :=
  { sampleCollaborators with
    random := List.replicate 16 4,
    libp2p_crypto_ephemeral_keypair_generate := fun _ =>
      some { public_key := { bytes := [3, 4, 31, 32], shared_key := [] } } }

/-- A sample long-term key of the local side. -/
def samplePrivateKey : RsaPrivateKey := { der := [1], public_key_der := [1] }

/-- A sample long-term key of the remote side. -/
def remotePrivateKey : RsaPrivateKey := { der := [2], public_key_der := [2] }

/-- What the remote side of the sample handshake sends: its proposal, its Exchange and
the nonce of the local side, encrypted; three frames. -/
def sampleRemoteStream : Bytes :=
  [0, 0, 0, 18, 4, 4, 4, 4, 4, 4, 4, 4, 4, 4, 4, 4, 4, 4, 4, 4, 0, 2,
   0, 0, 0, 6, 3, 4, 31, 32, 2, 39,
   0, 0, 0, 48, 52, 59, 58, 57, 56, 63, 62, 61, 60, 67, 66, 65, 64, 71, 70, 69,
   252, 253, 254, 255, 0, 1, 2, 3, 4, 5, 6, 7, 8, 9, 10, 11, 12, 13, 14, 15,
   16, 17, 18, 19, 20, 21, 22, 23, 24, 25, 26, 27]

/-- The sample handshake of the local side on what the remote side sends, with an empty
peer-store and a socket that delivers what is asked for. -/
def sampleHandshake (pending : Bytes) : Outcome (Int × HandshakeState) :=
  libp2p_secio_handshake mixSha mixHmac sampleEcb sampleCollaborators wholeSocket
    wholeSocket sampleUninit 8 sampleSession samplePrivateKey [] ⟨0, []⟩ ⟨0, pending⟩

/-- The remote stream of the sample handshake with a forged signature in the Exchange. -/
def forgedRemoteStream : Bytes := sampleRemoteStream.set 31 40

/-- The remote stream of the sample handshake with a byte of the third frame changed. -/
def tamperedRemoteStream : Bytes := sampleRemoteStream.set 40 0

/-- The remote stream of the sample handshake with a third frame that carries, well
encrypted, sixteen bytes 9 in place of the nonce of the local side. -/
def wrongNonceRemoteStream : Bytes :=
  sampleRemoteStream.take 32 ++
  [0, 0, 0, 48, 62, 49, 48, 51, 50, 53, 52, 55, 54, 73, 72, 75, 74, 77, 76, 79,
   252, 253, 254, 255, 0, 1, 2, 3, 4, 5, 6, 7, 8, 9, 10, 11, 12, 13, 14, 15,
   16, 17, 18, 19, 20, 21, 22, 23, 24, 25, 26, 27]

/-- The local variables and the state with which the liveness step of the sample
handshake starts on the stream with the wrong nonce. -/
def wrongNonceStart : HandshakeLocals × HandshakeState :=
  match handshake_before_liveness mixSha mixHmac sampleCollaborators wholeSocket wholeSocket
      sampleUninit 8 samplePrivateKey
      ⟨sampleSession, [], ⟨0, []⟩, ⟨0, wrongNonceRemoteStream⟩⟩ with
  | .returns (.fall r) => r
  | _ =>
    (⟨⟨[], [], "", "", ""⟩, [], ⟨[], [], "", "", ""⟩, [], ⟨0, []⟩, libp2p_peer_new, false, 0⟩,
     ⟨sampleSession, [], ⟨0, []⟩, ⟨0, []⟩⟩)

/-- What the encrypted write of that liveness step returns. -/
def wrongNonceWrite : Int × SessionContext × WriteSocket :=
  match libp2p_secio_encrypted_write mixHmac sampleEcb wholeSocket 8 wrongNonceStart.2.session
      wrongNonceStart.2.wsock (wrongNonceStart.2.session.remote_nonce.take 16) with
  | .returns r => r
  | _ => (0, sampleSession, ⟨0, []⟩)

/-- What the encrypted read of that liveness step returns. -/
def wrongNonceRead : Int × Option Bytes × SessionContext × ReadSocket :=
  match libp2p_secio_encrypted_read mixHmac sampleEcb wholeSocket sampleUninit 8
      wrongNonceWrite.2.1 wrongNonceStart.2.rsock with
  | .returns r => r
  | _ => (0, none, sampleSession, ⟨0, []⟩)

/-- The remote stream of the sample handshake with a third frame of five bytes. -/
def shortFrameRemoteStream : Bytes :=
  sampleRemoteStream.take 32 ++ [0, 0, 0, 5, 1, 2, 3, 4, 5]

/-- The local variables and the state with which the liveness step of the sample
handshake starts on the stream with the third frame of five bytes. -/
def shortFrameStart : HandshakeLocals × HandshakeState :=
  match handshake_before_liveness mixSha mixHmac sampleCollaborators wholeSocket wholeSocket
      sampleUninit 8 samplePrivateKey
      ⟨sampleSession, [], ⟨0, []⟩, ⟨0, shortFrameRemoteStream⟩⟩ with
  | .returns (.fall r) => r
  | _ =>
    (⟨⟨[], [], "", "", ""⟩, [], ⟨[], [], "", "", ""⟩, [], ⟨0, []⟩, libp2p_peer_new, false, 0⟩,
     ⟨sampleSession, [], ⟨0, []⟩, ⟨0, []⟩⟩)

/-- The state a handshake run left behind, for a run that returned. -/
def Outcome.state (run : Outcome (Int × HandshakeState)) : HandshakeState :=
  match run with
  | .returns (_, st) => st
  | _ => ⟨sampleSession, [], ⟨0, []⟩, ⟨0, []⟩⟩

/-! ## Order determination is antisymmetric -/

theorem bytes_compare_loop_neg (a b : Bytes) (n : Nat) :
    ∀ i, libp2p_secio_bytes_compare_loop a b i n = -libp2p_secio_bytes_compare_loop b a i n := by
  induction n with
  | zero => intro i; simp [libp2p_secio_bytes_compare_loop]
  | succ n ih =>
    intro i
    simp only [libp2p_secio_bytes_compare_loop, gt_iff_lt]
    rw [ih (i + 1)]
    split_ifs <;> first | rfl | omega

theorem bytes_compare_neg (a b : Bytes) (length : Int) :
    libp2p_secio_bytes_compare a b length = -libp2p_secio_bytes_compare b a length := by
  unfold libp2p_secio_bytes_compare
  exact bytes_compare_loop_neg a b _ 0

/-- C1: order determination is antisymmetric. For every SHA-256 stand-in (any fixed
function to 32 bytes) and every pair of Propose records `pA`, `pB`, the order side A
computes (remote `pB`, local `pA`) is the negation of the order side B computes
(remote `pA`, local `pB`). -/
theorem determine_order_antisymmetric (sha256 : Bytes → Digest) (pA pB : Propose) :
    libp2p_secio_determine_order sha256 pB pA = -libp2p_secio_determine_order sha256 pA pB := by
  unfold libp2p_secio_determine_order
  exact bytes_compare_neg _ _ 32

/-! ## Algorithm selection -/

theorem follower_loop_iff (lead : String) (follower : List String) :
    select_best_follower_loop lead follower = true ↔ lead ∈ follower := by
  induction follower with
  | nil => simp [select_best_follower_loop]
  | cons f next ih =>
    by_cases h : lead = f
    · simp [select_best_follower_loop, h]
    · simp [select_best_follower_loop, h, ih]

theorem lead_loop_some_iff (follower : List String) (e : String) (lead : List String) :
    select_best_lead_loop follower lead = some e ↔
      ∃ pre post, lead = pre ++ e :: post ∧ e ∈ follower ∧ ∀ x ∈ pre, x ∉ follower := by
  induction lead with
  | nil => simp [select_best_lead_loop]
  | cons l next ih =>
    cases h : select_best_follower_loop l follower with
    | true =>
      have hl : l ∈ follower := (follower_loop_iff l follower).1 h
      have step : select_best_lead_loop follower (l :: next) = some l := by
        simp [select_best_lead_loop, h]
      rw [step]
      constructor
      · intro he
        have hle : l = e := Option.some.inj he
        subst hle
        exact ⟨[], next, rfl, hl, by simp⟩
      · rintro ⟨pre, post, heq, _, hpre⟩
        cases pre with
        | nil =>
          have hle : l = e := (List.cons.inj heq).1
          rw [hle]
        | cons p pre =>
          have hp : l = p := (List.cons.inj heq).1
          exact absurd hl (hp ▸ hpre p (by simp))
    | false =>
      have hl : l ∉ follower := fun hm => by
        have := (follower_loop_iff l follower).2 hm
        rw [h] at this
        exact Bool.noConfusion this
      have step : select_best_lead_loop follower (l :: next) =
          select_best_lead_loop follower next := by
        simp [select_best_lead_loop, h]
      rw [step, ih]
      constructor
      · rintro ⟨pre, post, hn, he, hpre⟩
        refine ⟨l :: pre, post, by simp [hn], he, ?_⟩
        intro x hx
        rcases List.mem_cons.1 hx with hx | hx
        · exact hx ▸ hl
        · exact hpre x hx
      · rintro ⟨pre, post, hn, he, hpre⟩
        cases pre with
        | nil =>
          have hle : l = e := (List.cons.inj hn).1
          exact absurd he (hle ▸ hl)
        | cons p pre =>
          exact ⟨pre, post, (List.cons.inj hn).2, he, fun x hx => hpre x (by simp [hx])⟩

theorem lead_loop_none_iff (follower : List String) (lead : List String) :
    select_best_lead_loop follower lead = none ↔ ∀ x ∈ lead, x ∉ follower := by
  induction lead with
  | nil => simp [select_best_lead_loop]
  | cons l next ih =>
    by_cases h : select_best_follower_loop l follower = true
    · have hl : l ∈ follower := (follower_loop_iff l follower).1 h
      simp [select_best_lead_loop, h, hl]
    · have hl : l ∉ follower := fun hm => h ((follower_loop_iff l follower).2 hm)
      simp [select_best_lead_loop, h, ih, hl]

theorem select_best_of_ne_zero (order : Int) (h : order ≠ 0) (local_list : String)
    (local_list_size : Nat) (remote_list : String) (remote_list_size : Nat) :
    libp2p_secio_select_best order local_list local_list_size remote_list remote_list_size =
      match select_best_lead_loop
          (if order > 0 then libp2p_secio_split_list remote_list remote_list_size
            else libp2p_secio_split_list local_list local_list_size)
          (if order > 0 then libp2p_secio_split_list local_list local_list_size
            else libp2p_secio_split_list remote_list remote_list_size) with
      | some s => some (1, some s)
      | none => some (0, none) := by
  unfold libp2p_secio_select_best
  by_cases hp : order > 0 <;> simp [h, hp]

/-- C2 (as stated, refuted): with `order = 0`, local list `"AES-256"` against remote list
`"AES-128"`, both `select_best(0, L, R)` and `select_best(-0, R, L)` report success but
choose different algorithms. -/
theorem select_best_order_zero_not_commutative :
    libp2p_secio_select_best 0 "AES-256" 7 "AES-128" 7 = some (1, some "AES-256") ∧
    libp2p_secio_select_best (-0) "AES-128" 7 "AES-256" 7 = some (1, some "AES-128") := by
  decide

/-- C2 (amended): for every `order` other than 0 and every pair of lists, swapping the
local and remote list and negating the order gives the same return value and the same
chosen algorithm. -/
theorem select_best_commutative (order : Int) (h : order ≠ 0) (l : String) (l_size : Nat)
    (r : String) (r_size : Nat) :
    libp2p_secio_select_best order l l_size r r_size =
      libp2p_secio_select_best (-order) r r_size l l_size := by
  have hneg : -order ≠ 0 := by omega
  rw [select_best_of_ne_zero order h, select_best_of_ne_zero (-order) hneg]
  by_cases hp : order > 0
  · have hn : ¬ (-order > 0) := by omega
    simp [hp, hn]
  · have hn : -order > 0 := by omega
    simp [hp, hn]

theorem select_best_commutative_witness :
    (1 : Int) ≠ 0 ∧
    libp2p_secio_select_best 1 "AES-256,AES-128,Blowfish" 24 "AES-128,AES-256" 15 =
      libp2p_secio_select_best (-1) "AES-128,AES-256" 15 "AES-256,AES-128,Blowfish" 24 :=
  ⟨by decide, select_best_commutative 1 (by decide) _ _ _ _⟩

/-- C3: for every `order` other than 0, with the local entries as lead when `order > 0`
and the remote entries as lead when `order < 0`, `libp2p_secio_select_best` returns 1 with `e`
exactly when `e` is the first lead entry that occurs in the follower list, returns 0
(storing nothing) exactly when no lead entry occurs in the follower list, and does one
of the two; local `"AES-128"` against remote `"Blowfish"` returns 0. -/
theorem select_best_first_common (order : Int) (h : order ≠ 0) (l : String) (l_size : Nat)
    (r : String) (r_size : Nat) :
    (∀ e, libp2p_secio_select_best order l l_size r r_size = some (1, some e) ↔
      ∃ pre post, select_best_lead order l l_size r r_size = pre ++ e :: post ∧
        e ∈ select_best_follower order l l_size r r_size ∧
        ∀ x ∈ pre, x ∉ select_best_follower order l l_size r r_size) ∧
    (libp2p_secio_select_best order l l_size r r_size = some (0, none) ↔
      ∀ x ∈ select_best_lead order l l_size r r_size,
        x ∉ select_best_follower order l l_size r r_size) ∧
    (libp2p_secio_select_best order l l_size r r_size = some (0, none) ∨
      ∃ e, libp2p_secio_select_best order l l_size r r_size = some (1, some e)) ∧
    libp2p_secio_select_best order "AES-128" 7 "Blowfish" 8 = some (0, none) := by
  have key : libp2p_secio_select_best order l l_size r r_size =
      match select_best_lead_loop (select_best_follower order l l_size r r_size)
        (select_best_lead order l l_size r r_size) with
      | some s => some (1, some s)
      | none => some (0, none) := select_best_of_ne_zero order h l l_size r r_size
  refine ⟨?_, ?_, ?_, ?_⟩
  · intro e
    rw [key, ← lead_loop_some_iff]
    cases select_best_lead_loop (select_best_follower order l l_size r r_size)
      (select_best_lead order l l_size r r_size) <;> simp
  · rw [key, ← lead_loop_none_iff]
    cases select_best_lead_loop (select_best_follower order l l_size r r_size)
      (select_best_lead order l l_size r r_size) <;> simp
  · rw [key]
    cases select_best_lead_loop (select_best_follower order l l_size r r_size)
      (select_best_lead order l l_size r r_size) <;> simp
  · rw [select_best_of_ne_zero order h]
    by_cases hp : order > 0 <;> simp [hp] <;> decide

theorem select_best_first_common_witness :
    (-1 : Int) ≠ 0 ∧
    libp2p_secio_select_best (-1) "AES-256,AES-128,Blowfish" 24 "AES-128,AES-256" 15 =
      some (1, some "AES-128") :=
  ⟨by decide,
   ((select_best_first_common (-1) (by decide) "AES-256,AES-128,Blowfish" 24
      "AES-128,AES-256" 15).1 "AES-128").2
     ⟨[], ["AES-256"], by decide, by decide, by simp⟩⟩

/-- C4 (as stated, refuted): with `order = 0`, local list `"AES-128"` and remote list
`"Blowfish"`, `libp2p_secio_select_best` reports a successful selection of
`"AES-128"`. -/
theorem select_best_order_zero_succeeds :
    libp2p_secio_select_best 0 "AES-128" 7 "Blowfish" 8 = some (1, some "AES-128") := by
  decide

/-- C4 (amended): with `order = 0`, `libp2p_secio_select_best` takes its shortcut: for
every local list with at least one entry it returns 1 and selects the first local entry,
whatever the remote list is. -/
theorem select_best_order_zero_shortcut (l : String) (l_size : Nat) (r : String)
    (r_size : Nat) (first : String) (rest : List String)
    (h : libp2p_secio_split_list l l_size = first :: rest) :
    libp2p_secio_select_best 0 l l_size r r_size = some (1, some first) := by
  simp [libp2p_secio_select_best, h]

theorem select_best_order_zero_shortcut_witness :
    libp2p_secio_split_list "AES-256,AES-128,Blowfish" 24 = "AES-256" :: ["AES-128", "Blowfish"] ∧
    libp2p_secio_select_best 0 "AES-256,AES-128,Blowfish" 24 "P-256" 5 = some (1, some "AES-256") :=
  ⟨by decide,
   select_best_order_zero_shortcut "AES-256,AES-128,Blowfish" 24 "P-256" 5 "AES-256"
     ["AES-128", "Blowfish"] (by decide)⟩

/-! ## Secure channel: the frame codec -/

theorem crypt_ctr_length (aes_ecb : Bytes → Bytes → Bytes) (key : Bytes) (input : Bytes) :
    ∀ st, (mbedtls_aes_crypt_ctr aes_ecb key st input).2.length = input.length := by
  induction input with
  | nil => intro st; simp [mbedtls_aes_crypt_ctr]
  | cons c input ih => intro st; simp [mbedtls_aes_crypt_ctr, ih]

theorem xor_xor_cancel (c k : Nat) : (c ^^^ k) ^^^ k = c := by
  rw [Nat.xor_assoc, Nat.xor_self, Nat.xor_zero]

theorem crypt_ctr_involutive (aes_ecb : Bytes → Bytes → Bytes) (key : Bytes) (input : Bytes) :
    ∀ st, mbedtls_aes_crypt_ctr aes_ecb key st (mbedtls_aes_crypt_ctr aes_ecb key st input).2 =
      ((mbedtls_aes_crypt_ctr aes_ecb key st input).1, input) := by
  induction input with
  | nil => intro st; simp [mbedtls_aes_crypt_ctr]
  | cons c input ih =>
    intro st
    simp only [mbedtls_aes_crypt_ctr]
    rw [ih, xor_xor_cancel]

theorem setkey_ok_of_size (n : Nat) (h : n = 16 ∨ n = 24 ∨ n = 32) :
    mbedtls_aes_setkey_enc_ok (n * 8) = true := by
  rcases h with h | h | h <;> subst h <;> decide

theorem encrypt_eq (hmac : Bytes → Bytes → Digest) (aes_ecb : Bytes → Bytes → Bytes)
    (session : SessionContext) (plain : Bytes)
    (hk : mbedtls_aes_setkey_enc_ok (session.local_stretched_key.cipher_size * 8) = true) :
    libp2p_secio_encrypt hmac aes_ecb session plain =
      (1, with_encode_state session (encode_ctr aes_ecb session plain).1,
       some (encode_ciphertext aes_ecb session plain ++
         (hmac session.local_stretched_key.mac (encode_ciphertext aes_ecb session plain)).val)) := by
  have hlen := crypt_ctr_length aes_ecb session.local_stretched_key.cipher plain
    { nc_off := session.aes_encode_nonce_offset,
      nonce_counter := session.local_stretched_key.iv,
      stream_block := session.aes_encode_stream_block }
  simp only [StretchedKey.cipher] at hlen
  simp only [libp2p_secio_encrypt, hk, encode_ciphertext, encode_ctr, with_encode_state,
    StretchedKey.cipher, StretchedKey.mac, Bool.not_true, Bool.false_eq_true, if_false, hlen]
  have h1 : ∀ (x y : Bytes), x.length = plain.length → (x ++ y).take plain.length = x := by
    intro x y hx
    rw [← hx, List.take_left']
    rfl
  rw [h1 _ _ hlen]
  have h2 : ∀ (x : Bytes) (d : Digest), x.length = plain.length →
      (x ++ d.val).take (plain.length + 32) = x ++ d.val := by
    intro x d hx
    apply List.take_of_length_le
    simp [hx, d.property]
  rw [h2 _ _ hlen]

theorem decrypt_eq (hmac : Bytes → Bytes → Digest) (aes_ecb : Bytes → Bytes → Bytes)
    (session : SessionContext) (data : Bytes)
    (hk : mbedtls_aes_setkey_enc_ok (session.remote_stretched_key.cipher_size * 8) = true) :
    libp2p_secio_decrypt hmac aes_ecb session
        (data ++ (hmac session.remote_stretched_key.mac data).val) =
      some ((data.length : Int), with_decode_state session (decode_ctr aes_ecb session data).1,
        some (decode_ctr aes_ecb session data).2) := by
  have hfl : (data ++ (hmac session.remote_stretched_key.mac data).val).length - 32 =
      data.length := by
    simp [Subtype.property]
  have hnlt : ¬ (data ++ (hmac session.remote_stretched_key.mac data).val).length < 32 := by
    simp [Subtype.property]
  have htake : ((hmac session.remote_stretched_key.mac data).val).take 32 =
      (hmac session.remote_stretched_key.mac data).val := by
    apply List.take_of_length_le
    simp [Subtype.property]
  unfold libp2p_secio_decrypt
  rw [if_neg hnlt]
  simp only [hfl, List.take_left' rfl, List.drop_left' rfl]
  simp only [StretchedKey.mac] at htake
  simp only [StretchedKey.mac, htake, ne_eq, not_true_eq_false, if_false, hk, Bool.not_true,
    Bool.false_eq_true, decode_ctr, with_decode_state, StretchedKey.cipher, crypt_ctr_length]

/-- C7 (as stated, refuted): a session whose local cipher key size is 5 bytes. AES key
setup refuses the key, and `libp2p_secio_encrypt` returns 0 without an output. -/
theorem encrypt_fails_on_refused_key :
    libp2p_secio_encrypt sampleHmac sampleEcb shortKeySession [10, 20, 30] =
      (0, shortKeySession, none) := by
  decide

/-- C7 (amended): for every session whose local cipher key size is 16, 24 or 32 bytes and
every plaintext of length `n`, `libp2p_secio_encrypt` returns 1 with an output of exactly
`n + 32` bytes, whose first `n` bytes are the AES-CTR ciphertext of the plaintext under
the local cipher key and the local iv state, and whose last 32 bytes are HMAC-SHA256,
keyed with the `mac_size` bytes of the local MAC key, of exactly those `n` bytes. -/
theorem encrypt_output (hmac : Bytes → Bytes → Digest) (aes_ecb : Bytes → Bytes → Bytes)
    (session : SessionContext) (plain : Bytes)
    (hk : session.local_stretched_key.cipher_size = 16 ∨
      session.local_stretched_key.cipher_size = 24 ∨
      session.local_stretched_key.cipher_size = 32) :
    (libp2p_secio_encrypt hmac aes_ecb session plain).1 = 1 ∧
    ∃ out, (libp2p_secio_encrypt hmac aes_ecb session plain).2.2 = some out ∧
      out.length = plain.length + 32 ∧
      out.take plain.length = encode_ciphertext aes_ecb session plain ∧
      out.drop plain.length =
        (hmac session.local_stretched_key.mac (out.take plain.length)).val := by
  have hlen : (encode_ciphertext aes_ecb session plain).length = plain.length :=
    crypt_ctr_length _ _ _ _
  rw [encrypt_eq hmac aes_ecb session plain (setkey_ok_of_size _ hk)]
  refine ⟨rfl, _, rfl, ?_, ?_, ?_⟩
  · simp [hlen, Subtype.property]
  · rw [← hlen, List.take_left']
    rfl
  · rw [← hlen, List.take_left' rfl, List.drop_left' rfl]

theorem encrypt_output_witness :
    (sampleSession.local_stretched_key.cipher_size = 16 ∨
      sampleSession.local_stretched_key.cipher_size = 24 ∨
      sampleSession.local_stretched_key.cipher_size = 32) ∧
    (libp2p_secio_encrypt sampleHmac sampleEcb sampleSession [10, 20, 30]).1 = 1 ∧
    ∃ out, (libp2p_secio_encrypt sampleHmac sampleEcb sampleSession [10, 20, 30]).2.2 = some out ∧
      out.length = [10, 20, 30].length + 32 ∧
      out.take [10, 20, 30].length = encode_ciphertext sampleEcb sampleSession [10, 20, 30] ∧
      out.drop [10, 20, 30].length =
        (sampleHmac sampleSession.local_stretched_key.mac (out.take [10, 20, 30].length)).val :=
  ⟨by decide, encrypt_output sampleHmac sampleEcb sampleSession [10, 20, 30] (by decide)⟩

/-- C6: a MAC failure is fatal and atomic. For every session and every incoming frame of
at least 32 bytes whose last 32 bytes differ from HMAC-SHA256, keyed with the remote MAC
key, of the bytes before them, `libp2p_secio_decrypt` returns 0, hands back the raw
incoming bytes undecrypted and leaves the whole session, the decode CTR state included,
unchanged. -/
theorem decrypt_mac_failure (hmac : Bytes → Bytes → Digest) (aes_ecb : Bytes → Bytes → Bytes)
    (session : SessionContext) (frame : Bytes) (hlen : 32 ≤ frame.length)
    (hmacne : frame.drop (frame.length - 32) ≠
      (hmac session.remote_stretched_key.mac (frame.take (frame.length - 32))).val) :
    libp2p_secio_decrypt hmac aes_ecb session frame = some (0, session, some frame) := by
  have h32 : (frame.drop (frame.length - 32)).take 32 = frame.drop (frame.length - 32) := by
    apply List.take_of_length_le
    simp
    omega
  have hlt : ¬ frame.length < 32 := by omega
  simp only [StretchedKey.mac] at hmacne
  simp [libp2p_secio_decrypt, hlt, h32, hmacne]

theorem decrypt_mac_failure_witness :
    32 ≤ (List.replicate 32 0 : Bytes).length ∧
    (List.replicate 32 0 : Bytes).drop ((List.replicate 32 0 : Bytes).length - 32) ≠
      (sampleHmac sampleSession.remote_stretched_key.mac
        ((List.replicate 32 0 : Bytes).take ((List.replicate 32 0 : Bytes).length - 32))).val ∧
    libp2p_secio_decrypt sampleHmac sampleEcb sampleSession (List.replicate 32 0) =
      some (0, sampleSession, some (List.replicate 32 0)) :=
  ⟨by decide, by decide,
   decrypt_mac_failure sampleHmac sampleEcb sampleSession (List.replicate 32 0)
     (by decide) (by decide)⟩

theorem expansion_B_length (hmac : Bytes → Bytes → Digest) (secret : Bytes) (j : Nat) :
    (expansion_B hmac secret j).length = 32 :=
  (hmac secret ((expansion_A hmac secret j).val ++ seed)).property

theorem expansion_S_length (hmac : Bytes → Bytes → Digest) (secret : Bytes) (j : Nat) :
    (expansion_S hmac secret j).length = 32 * j := by
  induction j with
  | zero => simp [expansion_S]
  | succ j ih => simp [expansion_S, ih, expansion_B_length]; omega

theorem expansion_S_append (hmac : Bytes → Bytes → Digest) (secret : Bytes) (j d : Nat) :
    ∃ rest, expansion_S hmac secret (j + d) = expansion_S hmac secret j ++ rest := by
  induction d with
  | zero => exact ⟨[], by simp⟩
  | succ d ih =>
    obtain ⟨rest, hrest⟩ := ih
    refine ⟨rest ++ expansion_B hmac secret (j + d), ?_⟩
    rw [← Nat.add_assoc, expansion_S, hrest, List.append_assoc]

theorem expansion_S_take_le (hmac : Bytes → Bytes → Digest) (secret : Bytes) (j k m : Nat)
    (hjk : j ≤ k) (hm : m ≤ 32 * j) :
    (expansion_S hmac secret k).take m = (expansion_S hmac secret j).take m := by
  obtain ⟨rest, hrest⟩ := expansion_S_append hmac secret j (k - j)
  have hk : j + (k - j) = k := by omega
  rw [hk] at hrest
  rw [hrest, List.take_append_of_le_length]
  rw [expansion_S_length]
  exact hm

theorem expansion_S_take_eq (hmac : Bytes → Bytes → Digest) (secret : Bytes) (j k m : Nat)
    (hj : m ≤ 32 * j) (hk : m ≤ 32 * k) :
    (expansion_S hmac secret j).take m = (expansion_S hmac secret k).take m := by
  rcases Nat.le_total j k with h | h
  · exact (expansion_S_take_le hmac secret j k m h hj).symm
  · exact expansion_S_take_le hmac secret k j m h hk

theorem stretch_keys_fill_inv (hmac : Bytes → Bytes → Digest) (secret : Bytes)
    (result_size : Nat) (fuel : Nat) :
    ∀ (j num_filled : Nat) (result : Bytes), result_size - num_filled ≤ fuel →
      result = (expansion_S hmac secret j).take result_size →
      num_filled = result.length →
      (num_filled < result_size → num_filled = 32 * j) →
      ∃ k, stretch_keys_fill hmac secret result_size fuel num_filled result
          (expansion_A hmac secret j) = (expansion_S hmac secret k).take result_size ∧
        ((expansion_S hmac secret k).take result_size).length = result_size := by
  induction fuel with
  | zero =>
    intro j num_filled result hfuel hres hnf _
    refine ⟨j, by simp [stretch_keys_fill, hres], ?_⟩
    have hle : result.length ≤ result_size := by
      rw [hres, List.length_take]; exact Nat.min_le_left _ _
    rw [← hres]
    omega
  | succ fuel ih =>
    intro j num_filled result hfuel hres hnf hj
    have hle : result.length ≤ result_size := by
      rw [hres, List.length_take]; exact Nat.min_le_left _ _
    by_cases hlt : num_filled < result_size
    · have hnj := hj hlt
      have hSlen := expansion_S_length hmac secret j
      have hresS : result = expansion_S hmac secret j := by
        rw [hres]
        apply List.take_of_length_le
        omega
      have hB := expansion_B_length hmac secret j
      have hstep : ∀ todo, todo = (if 32 + num_filled > result_size then result_size - num_filled
          else 32) →
          result ++ (expansion_B hmac secret j).take todo =
            (expansion_S hmac secret (j + 1)).take result_size ∧
          (result ++ (expansion_B hmac secret j).take todo).length = num_filled + todo ∧
          0 < todo ∧ (num_filled + todo < result_size → todo = 32) := by
        intro todo htodo
        have htake : (expansion_S hmac secret (j + 1)).take result_size =
            expansion_S hmac secret j ++
              (expansion_B hmac secret j).take (result_size - 32 * j) := by
          rw [expansion_S, List.take_append_eq_append_take, hSlen]
          congr 1
          apply List.take_of_length_le
          omega
        by_cases hbig : 32 + num_filled > result_size
        · rw [if_pos hbig] at htodo
          refine ⟨?_, ?_, by omega, by omega⟩
          · rw [htake, ← hresS, htodo, hnj]
          · rw [List.length_append, List.length_take, hB, ← hnf]
            omega
        · rw [if_neg hbig] at htodo
          refine ⟨?_, ?_, by omega, fun _ => htodo⟩
          · rw [htake, ← hresS, htodo]
            congr 1
            rw [List.take_of_length_le (by omega), List.take_of_length_le (by omega)]
          · rw [List.length_append, List.length_take, hB, ← hnf]
            omega
      obtain ⟨h1, h2, h3, h4⟩ := hstep _ rfl
      have hrun := ih (j + 1) _ _ (by omega) h1 h2.symm (fun hlt2 => by
        have := h4 hlt2
        omega)
      obtain ⟨k, hk1, hk2⟩ := hrun
      refine ⟨k, ?_, hk2⟩
      rw [← hk1]
      simp only [stretch_keys_fill, hlt, if_true, expansion_A, expansion_B]
    · refine ⟨j, by simp [stretch_keys_fill, hlt, hres], ?_⟩
      rw [← hres]
      omega

theorem stretch_keys_fill_spec (hmac : Bytes → Bytes → Digest) (secret : Bytes)
    (result_size : Nat) :
    ∃ k, stretch_keys_fill hmac secret result_size result_size 0 [] (hmac secret seed) =
        (expansion_S hmac secret k).take result_size ∧
      result_size ≤ 32 * k := by
  obtain ⟨k, hk1, hk2⟩ := stretch_keys_fill_inv hmac secret result_size result_size 0 0 []
    (by omega) (by simp [expansion_S]) (by simp) (by intro _; rfl)
  refine ⟨k, hk1, ?_⟩
  rw [List.length_take, expansion_S_length] at hk2
  omega

theorem stretch_keys_fill_length (hmac : Bytes → Bytes → Digest) (secret : Bytes)
    (result_size : Nat) :
    (stretch_keys_fill hmac secret result_size result_size 0 [] (hmac secret seed)).length =
      result_size := by
  obtain ⟨k, hk1, hk2⟩ := stretch_keys_fill_spec hmac secret result_size
  rw [hk1, List.length_take, expansion_S_length]
  omega

theorem cipher_sizes_cases (cipherType : String) (i c : Nat)
    (h : stretch_keys_cipher_sizes cipherType = some (i, c)) :
    (cipherType = "AES-128" ∧ i = 16 ∧ c = 16) ∨ (cipherType = "AES-256" ∧ i = 16 ∧ c = 32) ∨
      (cipherType = "Blowfish" ∧ i = 8 ∧ c = 32) := by
  unfold stretch_keys_cipher_sizes at h
  split_ifs at h with h1 h2 h3 <;> simp only [Option.some.injEq, Prod.mk.injEq] at h
  · exact Or.inl ⟨h1, h.1.symm, h.2.symm⟩
  · exact Or.inr (Or.inl ⟨h2, h.1.symm, h.2.symm⟩)
  · exact Or.inr (Or.inr ⟨h3, h.1.symm, h.2.symm⟩)

theorem cipher_sizes_none_iff (cipherType : String) :
    stretch_keys_cipher_sizes cipherType = none ↔
      ¬ (cipherType = "AES-128" ∨ cipherType = "AES-256" ∨ cipherType = "Blowfish") := by
  unfold stretch_keys_cipher_sizes
  split_ifs with h1 h2 h3 <;> simp [*]

theorem stretch_keys_eq (hmac : Bytes → Bytes → Digest) (cipherType hashType : String)
    (secret : Bytes) (i c : Nat) (h : stretch_keys_cipher_sizes cipherType = some (i, c)) :
    libp2p_secio_stretch_keys hmac cipherType hashType secret =
      (1,
       some { iv := (stretch_keys_fill hmac secret (2 * (i + c * 20)) (2 * (i + c * 20)) 0 []
                (hmac secret seed)).take i,
              iv_size := i,
              cipher_key := ((stretch_keys_fill hmac secret (2 * (i + c * 20))
                (2 * (i + c * 20)) 0 [] (hmac secret seed)).drop i).take c,
              cipher_size := c,
              mac_key := ((stretch_keys_fill hmac secret (2 * (i + c * 20))
                (2 * (i + c * 20)) 0 [] (hmac secret seed)).drop (i + c)).take 20,
              mac_size := 20 },
       some { iv := ((stretch_keys_fill hmac secret (2 * (i + c * 20)) (2 * (i + c * 20)) 0 []
                (hmac secret seed)).drop (i + c + 20)).take i,
              iv_size := i,
              cipher_key := ((stretch_keys_fill hmac secret (2 * (i + c * 20))
                (2 * (i + c * 20)) 0 [] (hmac secret seed)).drop (i + c + 20 + i)).take c,
              cipher_size := c,
              mac_key := ((stretch_keys_fill hmac secret (2 * (i + c * 20))
                (2 * (i + c * 20)) 0 [] (hmac secret seed)).drop (i + c + 20 + i + c)).take 20,
              mac_size := 20 }) := by
  simp only [libp2p_secio_stretch_keys, stretch_keys_result, stretch_keys_result_size, h,
    List.drop_drop]

theorem stretch_keys_fill_piece (hmac : Bytes → Bytes → Digest) (secret : Bytes)
    (result_size blocks a len : Nat) (h1 : a + len ≤ result_size) (h2 : a + len ≤ 32 * blocks) :
    ((stretch_keys_fill hmac secret result_size result_size 0 [] (hmac secret seed)).drop a).take
        len = slice (expansion_S hmac secret blocks) a (a + len) := by
  have hfact : ∀ (l : Bytes) (m : Nat), a + len ≤ m →
      ((l.take m).drop a).take len = (l.drop a).take len := by
    intro l m hm
    rw [List.drop_take, List.take_take]
    congr 1
    omega
  obtain ⟨k, hk1, hk2⟩ := stretch_keys_fill_spec hmac secret result_size
  rw [hk1, hfact _ _ h1, ← hfact _ (a + len) (Nat.le_refl _),
    expansion_S_take_eq hmac secret k blocks (a + len) (by omega) h2, hfact _ _ (Nat.le_refl _)]
  unfold slice
  congr 1
  omega

/-- C8: the number of key-material bytes `libp2p_secio_stretch_keys` generates. The value
of `result_size`, and the length of the filled `result` buffer, is
`2 * (iv_size + cipher_size * 20)`: 672 for AES-128, 1312 for AES-256 and 1296 for
Blowfish, against `2 * (iv_size + cipher_size + 20)`, which is 104, 136 and 120. -/
theorem stretch_keys_result_size_values (hmac : Bytes → Bytes → Digest) (secret : Bytes) :
    (stretch_keys_result_size "AES-128" = some 672 ∧
      (stretch_keys_result hmac "AES-128" secret).map List.length = some 672 ∧
      2 * (16 + 16 + 20) = 104) ∧
    (stretch_keys_result_size "AES-256" = some 1312 ∧
      (stretch_keys_result hmac "AES-256" secret).map List.length = some 1312 ∧
      2 * (16 + 32 + 20) = 136) ∧
    (stretch_keys_result_size "Blowfish" = some 1296 ∧
      (stretch_keys_result hmac "Blowfish" secret).map List.length = some 1296 ∧
      2 * (8 + 32 + 20) = 120) := by
  have h1 : stretch_keys_result_size "AES-128" = some 672 := by decide
  have h2 : stretch_keys_result_size "AES-256" = some 1312 := by decide
  have h3 : stretch_keys_result_size "Blowfish" = some 1296 := by decide
  refine ⟨⟨h1, ?_, rfl⟩, ⟨h2, ?_, rfl⟩, ⟨h3, ?_, rfl⟩⟩
  · simp only [stretch_keys_result, h1, Option.map_some', stretch_keys_fill_length]
  · simp only [stretch_keys_result, h2, Option.map_some', stretch_keys_fill_length]
  · simp only [stretch_keys_result, h3, Option.map_some', stretch_keys_fill_length]

theorem stretch_keys_sizes (hmac : Bytes → Bytes → Digest) (cipherType hashType : String)
    (secret : Bytes) (i c : Nat) (h : stretch_keys_cipher_sizes cipherType = some (i, c)) :
    ∃ k1 k2, libp2p_secio_stretch_keys hmac cipherType hashType secret = (1, some k1, some k2) ∧
      (k1.iv_size, k1.cipher_size, k1.mac_size) = (i, c, 20) ∧
      (k2.iv_size, k2.cipher_size, k2.mac_size) = (i, c, 20) ∧
      (k1.iv.length, k1.cipher_key.length, k1.mac_key.length) = (i, c, 20) ∧
      (k2.iv.length, k2.cipher_key.length, k2.mac_key.length) = (i, c, 20) := by
  have hc := cipher_sizes_cases cipherType i c h
  have hlen := stretch_keys_fill_length hmac secret (2 * (i + c * 20))
  refine ⟨_, _, stretch_keys_eq hmac cipherType hashType secret i c h, rfl, rfl, ?_, ?_⟩ <;>
    simp only [List.length_take, List.length_drop, hlen, Prod.mk.injEq] <;>
    omega

/-- C9: `libp2p_secio_stretch_keys` returns 1 exactly when the cipher name is
`"AES-128"`, `"AES-256"` or `"Blowfish"`. For these names both returned keys carry
`(iv_size, cipher_size, mac_size)` equal to (16,16,20), (16,32,20) and (8,32,20), with
`iv`, `cipher_key` and `mac_key` buffers of exactly those lengths; for every other name it
returns 0 with both output keys NULL. -/
theorem stretch_keys_supported (hmac : Bytes → Bytes → Digest) (cipherType hashType : String)
    (secret : Bytes) :
    ((libp2p_secio_stretch_keys hmac cipherType hashType secret).1 = 1 ↔
      (cipherType = "AES-128" ∨ cipherType = "AES-256" ∨ cipherType = "Blowfish")) ∧
    (libp2p_secio_stretch_keys hmac cipherType hashType secret = (0, none, none) ↔
      ¬ (cipherType = "AES-128" ∨ cipherType = "AES-256" ∨ cipherType = "Blowfish")) ∧
    (∃ k1 k2, libp2p_secio_stretch_keys hmac "AES-128" hashType secret = (1, some k1, some k2) ∧
      (k1.iv_size, k1.cipher_size, k1.mac_size) = (16, 16, 20) ∧
      (k2.iv_size, k2.cipher_size, k2.mac_size) = (16, 16, 20) ∧
      (k1.iv.length, k1.cipher_key.length, k1.mac_key.length) = (16, 16, 20) ∧
      (k2.iv.length, k2.cipher_key.length, k2.mac_key.length) = (16, 16, 20)) ∧
    (∃ k1 k2, libp2p_secio_stretch_keys hmac "AES-256" hashType secret = (1, some k1, some k2) ∧
      (k1.iv_size, k1.cipher_size, k1.mac_size) = (16, 32, 20) ∧
      (k2.iv_size, k2.cipher_size, k2.mac_size) = (16, 32, 20) ∧
      (k1.iv.length, k1.cipher_key.length, k1.mac_key.length) = (16, 32, 20) ∧
      (k2.iv.length, k2.cipher_key.length, k2.mac_key.length) = (16, 32, 20)) ∧
    (∃ k1 k2, libp2p_secio_stretch_keys hmac "Blowfish" hashType secret = (1, some k1, some k2) ∧
      (k1.iv_size, k1.cipher_size, k1.mac_size) = (8, 32, 20) ∧
      (k2.iv_size, k2.cipher_size, k2.mac_size) = (8, 32, 20) ∧
      (k1.iv.length, k1.cipher_key.length, k1.mac_key.length) = (8, 32, 20) ∧
      (k2.iv.length, k2.cipher_key.length, k2.mac_key.length) = (8, 32, 20)) := by
  have hcase : (∃ i c, stretch_keys_cipher_sizes cipherType = some (i, c)) ∨
      stretch_keys_cipher_sizes cipherType = none := by
    cases hs : stretch_keys_cipher_sizes cipherType with
    | none => exact Or.inr rfl
    | some p => exact Or.inl ⟨p.1, p.2, rfl⟩
  have hnone : stretch_keys_cipher_sizes cipherType = none →
      libp2p_secio_stretch_keys hmac cipherType hashType secret = (0, none, none) := by
    intro hn
    simp [libp2p_secio_stretch_keys, hn]
  refine ⟨?_, ?_, ?_, ?_, ?_⟩
  · rcases hcase with ⟨i, c, hs⟩ | hn
    · rw [stretch_keys_eq hmac cipherType hashType secret i c hs]
      rcases cipher_sizes_cases cipherType i c hs with h | h | h <;> simp [h.1]
    · rw [hnone hn]
      have := (cipher_sizes_none_iff cipherType).1 hn
      simp [this]
  · rcases hcase with ⟨i, c, hs⟩ | hn
    · rw [stretch_keys_eq hmac cipherType hashType secret i c hs]
      rcases cipher_sizes_cases cipherType i c hs with h | h | h <;> simp [h.1]
    · rw [hnone hn]
      have := (cipher_sizes_none_iff cipherType).1 hn
      simp [this]
  · exact stretch_keys_sizes hmac "AES-128" hashType secret 16 16 (by decide)
  · exact stretch_keys_sizes hmac "AES-256" hashType secret 16 32 (by decide)
  · exact stretch_keys_sizes hmac "Blowfish" hashType secret 8 32 (by decide)

/-- C10: key expansion. For every secret and supported cipher with sizes `(i, c)`, with
`n = i + c + 20` and `S` any run of blocks `B_0 || B_1 || ...` of at least `2 * n` bytes,
`libp2p_secio_stretch_keys` returns 1 with `k1 = (S[0:i], S[i:i+c], S[i+c:n])` and `k2`
carved the same way from `S[n:2n]`; the result does not depend on the `hashType`
argument. -/
theorem stretch_keys_expansion (hmac : Bytes → Bytes → Digest) (cipherType hashType : String)
    (secret : Bytes) (i c : Nat) (hsz : stretch_keys_cipher_sizes cipherType = some (i, c))
    (blocks : Nat) (hblocks : 2 * (i + c + 20) ≤ 32 * blocks) :
    libp2p_secio_stretch_keys hmac cipherType hashType secret =
      (1,
       some { iv := slice (expansion_S hmac secret blocks) 0 i,
              iv_size := i,
              cipher_key := slice (expansion_S hmac secret blocks) i (i + c),
              cipher_size := c,
              mac_key := slice (expansion_S hmac secret blocks) (i + c) (i + c + 20),
              mac_size := 20 },
       some { iv := slice (expansion_S hmac secret blocks) (i + c + 20) (i + c + 20 + i),
              iv_size := i,
              cipher_key := slice (expansion_S hmac secret blocks) (i + c + 20 + i)
                (i + c + 20 + i + c),
              cipher_size := c,
              mac_key := slice (expansion_S hmac secret blocks) (i + c + 20 + i + c)
                (2 * (i + c + 20)),
              mac_size := 20 }) ∧
    ∀ otherHash, libp2p_secio_stretch_keys hmac cipherType otherHash secret =
      libp2p_secio_stretch_keys hmac cipherType hashType secret := by
  have hc := cipher_sizes_cases cipherType i c hsz
  have hrs : 2 * (i + c + 20) ≤ 2 * (i + c * 20) := by
    rcases hc with h | h | h <;> omega
  constructor
  · rw [stretch_keys_eq hmac cipherType hashType secret i c hsz]
    have p0 := stretch_keys_fill_piece hmac secret (2 * (i + c * 20)) blocks 0 i (by omega)
      (by omega)
    have p1 := stretch_keys_fill_piece hmac secret (2 * (i + c * 20)) blocks i c (by omega)
      (by omega)
    have p2 := stretch_keys_fill_piece hmac secret (2 * (i + c * 20)) blocks (i + c) 20
      (by omega) (by omega)
    have p3 := stretch_keys_fill_piece hmac secret (2 * (i + c * 20)) blocks (i + c + 20) i
      (by omega) (by omega)
    have p4 := stretch_keys_fill_piece hmac secret (2 * (i + c * 20)) blocks (i + c + 20 + i) c
      (by omega) (by omega)
    have p5 := stretch_keys_fill_piece hmac secret (2 * (i + c * 20)) blocks
      (i + c + 20 + i + c) 20 (by omega) (by omega)
    have e5 : i + c + 20 + i + c + 20 = 2 * (i + c + 20) := by omega
    rw [List.drop_zero, Nat.zero_add] at p0
    rw [e5] at p5
    rw [p0, p1, p2, p3, p4, p5]
  · intro otherHash
    rw [stretch_keys_eq hmac cipherType hashType secret i c hsz,
      stretch_keys_eq hmac cipherType otherHash secret i c hsz]

theorem stretch_keys_expansion_witness :
    stretch_keys_cipher_sizes "AES-128" = some (16, 16) ∧
    2 * (16 + 16 + 20) ≤ 32 * 4 ∧
    (libp2p_secio_stretch_keys sampleHmac "AES-128" "SHA256" [1, 2, 3] =
      (1,
       some { iv := slice (expansion_S sampleHmac [1, 2, 3] 4) 0 16,
              iv_size := 16,
              cipher_key := slice (expansion_S sampleHmac [1, 2, 3] 4) 16 (16 + 16),
              cipher_size := 16,
              mac_key := slice (expansion_S sampleHmac [1, 2, 3] 4) (16 + 16) (16 + 16 + 20),
              mac_size := 20 },
       some { iv := slice (expansion_S sampleHmac [1, 2, 3] 4) (16 + 16 + 20) (16 + 16 + 20 + 16),
              iv_size := 16,
              cipher_key := slice (expansion_S sampleHmac [1, 2, 3] 4) (16 + 16 + 20 + 16)
                (16 + 16 + 20 + 16 + 16),
              cipher_size := 16,
              mac_key := slice (expansion_S sampleHmac [1, 2, 3] 4) (16 + 16 + 20 + 16 + 16)
                (2 * (16 + 16 + 20)),
              mac_size := 20 }) ∧
    ∀ otherHash, libp2p_secio_stretch_keys sampleHmac "AES-128" otherHash [1, 2, 3] =
      libp2p_secio_stretch_keys sampleHmac "AES-128" "SHA256" [1, 2, 3]) :=
  ⟨by decide, by decide,
   stretch_keys_expansion sampleHmac "AES-128" "SHA256" [1, 2, 3] 16 16 (by decide) 4
     (by decide)⟩

/-! ## Handshake: which half is the local key -/

/-- C11: after key stretching in the handshake, for every supported cipher, the step
succeeds, and with `order > 0` the session's local stretched key is the first half `k1`
and its remote stretched key the second half `k2`; with `order <= 0` the local key is
`k2` and the remote key is `k1`. -/
theorem handshake_key_assignment (hmac : Bytes → Bytes → Digest) (order : Int)
    (session : SessionContext) (shared_key : Bytes) (i c : Nat)
    (h : stretch_keys_cipher_sizes session.chosen_cipher = some (i, c)) :
    ∃ k1 k2 session1,
      libp2p_secio_stretch_keys hmac session.chosen_cipher session.chosen_hash shared_key =
        (1, some k1, some k2) ∧
      handshake_stretch_keys hmac order session shared_key = some session1 ∧
      (order > 0 → session1.local_stretched_key = k1 ∧ session1.remote_stretched_key = k2) ∧
      (order ≤ 0 → session1.local_stretched_key = k2 ∧ session1.remote_stretched_key = k1) := by
  obtain ⟨k1, k2, hk⟩ : ∃ k1 k2,
      libp2p_secio_stretch_keys hmac session.chosen_cipher session.chosen_hash shared_key =
        (1, some k1, some k2) :=
    ⟨_, _, stretch_keys_eq hmac session.chosen_cipher session.chosen_hash shared_key i c h⟩
  by_cases hp : order > 0
  · refine ⟨k1, k2, { session with local_stretched_key := k1, remote_stretched_key := k2 },
      hk, ?_, fun _ => ⟨rfl, rfl⟩, fun hn => absurd hp (by omega)⟩
    simp [handshake_stretch_keys, hk, hp]
  · refine ⟨k1, k2, { session with local_stretched_key := k2, remote_stretched_key := k1 },
      hk, ?_, fun hn => absurd hn hp, fun _ => ⟨rfl, rfl⟩⟩
    simp [handshake_stretch_keys, hk, hp]

theorem handshake_key_assignment_witness :
    stretch_keys_cipher_sizes sampleSession.chosen_cipher = some (16, 16) ∧
    ∃ k1 k2 session1,
      libp2p_secio_stretch_keys sampleHmac sampleSession.chosen_cipher sampleSession.chosen_hash
        [1, 2, 3] = (1, some k1, some k2) ∧
      handshake_stretch_keys sampleHmac (-1) sampleSession [1, 2, 3] = some session1 ∧
      ((-1 : Int) > 0 →
        session1.local_stretched_key = k1 ∧ session1.remote_stretched_key = k2) ∧
      ((-1 : Int) ≤ 0 →
        session1.local_stretched_key = k2 ∧ session1.remote_stretched_key = k1) :=
  ⟨by decide, handshake_key_assignment sampleHmac (-1) sampleSession [1, 2, 3] 16 16 (by decide)⟩

/-! ## Secure channel: what a call changes -/

theorem crypt_ctr_append (aes_ecb : Bytes → Bytes → Bytes) (key : Bytes) (p1 p2 : Bytes) :
    ∀ st, mbedtls_aes_crypt_ctr aes_ecb key st (p1 ++ p2) =
      ((mbedtls_aes_crypt_ctr aes_ecb key (mbedtls_aes_crypt_ctr aes_ecb key st p1).1 p2).1,
       (mbedtls_aes_crypt_ctr aes_ecb key st p1).2 ++
         (mbedtls_aes_crypt_ctr aes_ecb key (mbedtls_aes_crypt_ctr aes_ecb key st p1).1 p2).2) := by
  induction p1 with
  | nil => intro st; simp [mbedtls_aes_crypt_ctr]
  | cons c p1 ih =>
    intro st
    rw [List.cons_append]
    simp only [mbedtls_aes_crypt_ctr]
    rw [ih]
    simp only [List.cons_append]

theorem encrypt_of_refused_key (hmac : Bytes → Bytes → Digest) (aes_ecb : Bytes → Bytes → Bytes)
    (session : SessionContext) (plain : Bytes)
    (hk : mbedtls_aes_setkey_enc_ok (session.local_stretched_key.cipher_size * 8) = false) :
    libp2p_secio_encrypt hmac aes_ecb session plain = (0, session, none) := by
  simp [libp2p_secio_encrypt, hk]

theorem encode_ctr_with_encode_state (aes_ecb : Bytes → Bytes → Bytes) (session : SessionContext)
    (st : CtrState) (input : Bytes) :
    encode_ctr aes_ecb (with_encode_state session st) input =
      mbedtls_aes_crypt_ctr aes_ecb session.local_stretched_key.cipher st input := by
  simp [encode_ctr, with_encode_state, StretchedKey.cipher]

theorem ciphertext_part_encrypt (hmac : Bytes → Bytes → Digest)
    (aes_ecb : Bytes → Bytes → Bytes) (session : SessionContext) (plain : Bytes)
    (hk : mbedtls_aes_setkey_enc_ok (session.local_stretched_key.cipher_size * 8) = true) :
    ciphertext_part (libp2p_secio_encrypt hmac aes_ecb session plain) =
      encode_ciphertext aes_ecb session plain := by
  have hT := (hmac session.local_stretched_key.mac
    (encode_ciphertext aes_ecb session plain)).property
  rw [encrypt_eq hmac aes_ecb session plain hk]
  simp only [ciphertext_part, List.length_append, hT, Nat.add_sub_cancel]
  exact List.take_left' rfl

/-- C12 (as stated, refuted): encrypting three bytes with the sample session. The `iv`
of the local stretched key, sixteen bytes 255 before the call, is sixteen bytes 0 after
it; decrypting the frame does the same to the `iv` of the remote stretched key. -/
theorem encrypt_changes_iv :
    sampleSession.local_stretched_key.iv = List.replicate 16 255 ∧
    (libp2p_secio_encrypt sampleHmac sampleEcb sampleSession
      [10, 20, 30]).2.1.local_stretched_key.iv = List.replicate 16 0 ∧
    (libp2p_secio_decrypt sampleHmac sampleEcb sampleSession
      ([12, 18, 24] ++ List.replicate 32 23)).map
        (fun r => (r.1, r.2.1.remote_stretched_key.iv, r.2.2)) =
      some (3, List.replicate 16 0, some [10, 20, 30]) := by
  decide

/-- C12 (amended): `libp2p_secio_encrypt` leaves the `cipher_key`, the `mac_key` and the
three size fields of the local stretched key, and the whole remote stretched key,
unchanged; `libp2p_secio_decrypt`, whenever it returns, leaves the `cipher_key`, the
`mac_key` and the size fields of the remote stretched key, and the whole local stretched
key, unchanged. The `iv` buffer is the nonce counter handed to AES-CTR: after a call
that runs the cipher it holds the counter as the cipher left it. -/
theorem stretched_key_frame (hmac : Bytes → Bytes → Digest) (aes_ecb : Bytes → Bytes → Bytes)
    (session : SessionContext) (plain frame : Bytes) (r : Int × SessionContext × Option Bytes)
    (hr : libp2p_secio_decrypt hmac aes_ecb session frame = some r) :
    ((libp2p_secio_encrypt hmac aes_ecb session plain).2.1.local_stretched_key.cipher_key =
        session.local_stretched_key.cipher_key ∧
      (libp2p_secio_encrypt hmac aes_ecb session plain).2.1.local_stretched_key.mac_key =
        session.local_stretched_key.mac_key ∧
      (libp2p_secio_encrypt hmac aes_ecb session plain).2.1.local_stretched_key.iv_size =
        session.local_stretched_key.iv_size ∧
      (libp2p_secio_encrypt hmac aes_ecb session plain).2.1.local_stretched_key.cipher_size =
        session.local_stretched_key.cipher_size ∧
      (libp2p_secio_encrypt hmac aes_ecb session plain).2.1.local_stretched_key.mac_size =
        session.local_stretched_key.mac_size ∧
      (libp2p_secio_encrypt hmac aes_ecb session plain).2.1.remote_stretched_key =
        session.remote_stretched_key ∧
      ((libp2p_secio_encrypt hmac aes_ecb session plain).1 = 1 →
        (libp2p_secio_encrypt hmac aes_ecb session plain).2.1.local_stretched_key.iv =
          (encode_ctr aes_ecb session plain).1.nonce_counter)) ∧
    (r.2.1.remote_stretched_key.cipher_key = session.remote_stretched_key.cipher_key ∧
      r.2.1.remote_stretched_key.mac_key = session.remote_stretched_key.mac_key ∧
      r.2.1.remote_stretched_key.iv_size = session.remote_stretched_key.iv_size ∧
      r.2.1.remote_stretched_key.cipher_size = session.remote_stretched_key.cipher_size ∧
      r.2.1.remote_stretched_key.mac_size = session.remote_stretched_key.mac_size ∧
      r.2.1.local_stretched_key = session.local_stretched_key ∧
      (r.1 ≠ 0 → r.2.1.remote_stretched_key.iv =
        (decode_ctr aes_ecb session (frame.take (frame.length - 32))).1.nonce_counter)) := by
  constructor
  · cases hk : mbedtls_aes_setkey_enc_ok (session.local_stretched_key.cipher_size * 8) with
    | true =>
      rw [encrypt_eq hmac aes_ecb session plain hk]
      simp [with_encode_state]
    | false =>
      rw [encrypt_of_refused_key hmac aes_ecb session plain hk]
      simp
  · simp only [libp2p_secio_decrypt] at hr
    split_ifs at hr <;>
      simp only [Option.some.injEq, reduceCtorEq] at hr <;>
      subst hr <;>
      simp [decode_ctr, StretchedKey.cipher]

theorem stretched_key_frame_witness :
    libp2p_secio_decrypt sampleHmac sampleEcb sampleSession ([12, 18, 24] ++ List.replicate 32 23) =
      some (3, with_decode_state sampleSession
        { nc_off := 3, nonce_counter := List.replicate 16 0,
          stream_block := List.replicate 16 6 }, some [10, 20, 30]) ∧
    (with_decode_state sampleSession
        { nc_off := 3, nonce_counter := List.replicate 16 0,
          stream_block := List.replicate 16 6 }).remote_stretched_key.cipher_key =
      sampleSession.remote_stretched_key.cipher_key ∧
    (libp2p_secio_encrypt sampleHmac sampleEcb sampleSession
      [10, 20, 30]).2.1.local_stretched_key.mac_key = sampleSession.local_stretched_key.mac_key :=
  ⟨by decide,
   (stretched_key_frame sampleHmac sampleEcb sampleSession [10, 20, 30]
      ([12, 18, 24] ++ List.replicate 32 23)
      (3, with_decode_state sampleSession
        { nc_off := 3, nonce_counter := List.replicate 16 0,
          stream_block := List.replicate 16 6 }, some [10, 20, 30]) (by decide)).2.1,
   (stretched_key_frame sampleHmac sampleEcb sampleSession [10, 20, 30]
      ([12, 18, 24] ++ List.replicate 32 23)
      (3, with_decode_state sampleSession
        { nc_off := 3, nonce_counter := List.replicate 16 0,
          stream_block := List.replicate 16 6 }, some [10, 20, 30]) (by decide)).1.2.1⟩

/-- C13: the CTR state is continuous session state. For every session and plaintexts
`p1`, `p2`, the ciphertext part of `libp2p_secio_encrypt(p1)` followed by the ciphertext
part of `libp2p_secio_encrypt(p2)` on the resulting session is the ciphertext part of
one `libp2p_secio_encrypt(p1 ++ p2)` from the starting session, and both ways end in the
same session: counter, offset and stream block are carried over, never reset. A
`libp2p_secio_decrypt` in between leaves the encode state as it was, and
`libp2p_secio_initialize_crypto` leaves the two counters as they were. -/
theorem encrypt_continuous (hmac : Bytes → Bytes → Digest) (aes_ecb : Bytes → Bytes → Bytes)
    (session : SessionContext) (p1 p2 : Bytes) :
    ciphertext_part (libp2p_secio_encrypt hmac aes_ecb session p1) ++
        ciphertext_part (libp2p_secio_encrypt hmac aes_ecb
          (libp2p_secio_encrypt hmac aes_ecb session p1).2.1 p2) =
      ciphertext_part (libp2p_secio_encrypt hmac aes_ecb session (p1 ++ p2)) ∧
    (libp2p_secio_encrypt hmac aes_ecb
        (libp2p_secio_encrypt hmac aes_ecb session p1).2.1 p2).2.1 =
      (libp2p_secio_encrypt hmac aes_ecb session (p1 ++ p2)).2.1 ∧
    (∀ frame r, libp2p_secio_decrypt hmac aes_ecb session frame = some r →
      r.2.1.local_stretched_key = session.local_stretched_key ∧
      r.2.1.aes_encode_nonce_offset = session.aes_encode_nonce_offset ∧
      r.2.1.aes_encode_stream_block = session.aes_encode_stream_block) ∧
    (libp2p_secio_initialize_crypto session).local_stretched_key =
      session.local_stretched_key ∧
    (libp2p_secio_initialize_crypto session).remote_stretched_key =
      session.remote_stretched_key := by
  refine ⟨?_, ?_, ?_, rfl, rfl⟩
  · cases hk : mbedtls_aes_setkey_enc_ok (session.local_stretched_key.cipher_size * 8) with
    | false =>
      rw [encrypt_of_refused_key hmac aes_ecb session p1 hk,
        encrypt_of_refused_key hmac aes_ecb session p2 hk,
        encrypt_of_refused_key hmac aes_ecb session (p1 ++ p2) hk]
      simp [ciphertext_part]
    | true =>
      have hk1 : mbedtls_aes_setkey_enc_ok
          ((with_encode_state session
            (encode_ctr aes_ecb session p1).1).local_stretched_key.cipher_size * 8) = true := hk
      have happ := crypt_ctr_append aes_ecb session.local_stretched_key.cipher p1 p2
        { nc_off := session.aes_encode_nonce_offset,
          nonce_counter := session.local_stretched_key.iv,
          stream_block := session.aes_encode_stream_block }
      rw [ciphertext_part_encrypt hmac aes_ecb session p1 hk,
        ciphertext_part_encrypt hmac aes_ecb session (p1 ++ p2) hk,
        encrypt_eq hmac aes_ecb session p1 hk,
        ciphertext_part_encrypt hmac aes_ecb _ p2 hk1]
      simp only [encode_ciphertext, encode_ctr_with_encode_state]
      simp only [encode_ctr, happ]
  · cases hk : mbedtls_aes_setkey_enc_ok (session.local_stretched_key.cipher_size * 8) with
    | false =>
      rw [encrypt_of_refused_key hmac aes_ecb session p1 hk,
        encrypt_of_refused_key hmac aes_ecb session p2 hk,
        encrypt_of_refused_key hmac aes_ecb session (p1 ++ p2) hk]
    | true =>
      have hk1 : mbedtls_aes_setkey_enc_ok
          ((with_encode_state session
            (encode_ctr aes_ecb session p1).1).local_stretched_key.cipher_size * 8) = true := hk
      have happ := crypt_ctr_append aes_ecb session.local_stretched_key.cipher p1 p2
        { nc_off := session.aes_encode_nonce_offset,
          nonce_counter := session.local_stretched_key.iv,
          stream_block := session.aes_encode_stream_block }
      rw [encrypt_eq hmac aes_ecb session p1 hk, encrypt_eq hmac aes_ecb _ p2 hk1,
        encrypt_eq hmac aes_ecb session (p1 ++ p2) hk]
      simp only [encode_ctr_with_encode_state]
      simp only [encode_ctr, happ, with_encode_state]
  · intro frame r hr
    simp only [libp2p_secio_decrypt] at hr
    split_ifs at hr <;>
      simp only [Option.some.injEq, reduceCtorEq] at hr <;>
      subst hr <;>
      simp

/-! ## Writes on the wire -/

theorem data_loop_wire (behaviour : Nat → Nat → SocketReturn) (hb : takes_some behaviour)
    (bytes : Bytes) (fuel : Nat) :
    ∀ (left written : Nat) (sock : WriteSocket), 0 < left → left ≤ fuel →
      written + left = bytes.length →
      ∃ calls, unencrypted_write_data_loop behaviour bytes fuel left written sock =
        some (.fall (bytes.length, { calls := calls, wire := sock.wire ++ bytes.drop written })) := by
  induction fuel with
  | zero => intro left written sock h0 hle; omega
  | succ fuel ih =>
    intro left written sock h0 hle hsum
    obtain ⟨n, hn, hpos, hnle⟩ := hb sock.calls left h0
    have hmin : min n left = n := Nat.min_eq_left hnle
    have hsw : socket_write behaviour sock (bytes.drop written) left =
        (.bytes n, { calls := sock.calls + 1, wire := sock.wire ++ (bytes.drop written).take n }) := by
      simp [socket_write, hn, hmin]
    by_cases hmore : left - n > 0
    · obtain ⟨calls, hcalls⟩ := ih (left - n) (written + n)
        { calls := sock.calls + 1, wire := sock.wire ++ (bytes.drop written).take n }
        hmore (by omega) (by omega)
      refine ⟨calls, ?_⟩
      simp only [unencrypted_write_data_loop, hsw, hmore, if_true]
      rw [hcalls]
      have hsplit : (bytes.drop written).take n ++ bytes.drop (written + n) =
          bytes.drop written := by
        rw [← List.drop_drop, List.take_append_drop]
      simp only [List.append_assoc, hsplit]
    · refine ⟨sock.calls + 1, ?_⟩
      have hn_eq : n = left := by omega
      have htake : (bytes.drop written).take n = bytes.drop written := by
        apply List.take_of_length_le
        rw [List.length_drop]
        omega
      simp only [unencrypted_write_data_loop, hsw, hmore, if_false, htake]
      have : written + n = bytes.length := by omega
      rw [this]

theorem size_loop_whole (behaviour : Nat → Nat → SocketReturn) (size_as_char : Bytes)
    (fuel n : Nat) (sock : WriteSocket) (hn : behaviour sock.calls 4 = .bytes n) (h4 : 4 ≤ n) :
    unencrypted_write_size_loop behaviour size_as_char 0 (fuel + 1) 4 sock =
      some (.fall { calls := sock.calls + 1, wire := sock.wire ++ size_as_char.take 4 }) := by
  have hmin : min n 4 = 4 := Nat.min_eq_right h4
  simp [unencrypted_write_size_loop, socket_write, hn, hmin]

theorem ntohl_htonl (n : Nat) (h : n < 4294967296) : ntohl_bytes (htonl_bytes n) = n := by
  simp only [ntohl_bytes, htonl_bytes, List.getD_cons_zero, List.getD_cons_succ]
  omega

theorem unencrypted_write_wire (behaviour : Nat → Nat → SocketReturn) (fuel : Nat)
    (sock : WriteSocket) (bytes : Bytes) (hb : takes_some behaviour)
    (hfirst : ∃ n, behaviour sock.calls 4 = .bytes n ∧ 4 ≤ n)
    (hpos : 0 < bytes.length) (hfuel : bytes.length ≤ fuel) :
    ∃ calls, libp2p_secio_unencrypted_write behaviour fuel sock bytes =
      .returns ((bytes.length : Int),
        { calls := calls, wire := sock.wire ++ htonl_bytes bytes.length ++ bytes }) := by
  obtain ⟨n, hn, h4⟩ := hfirst
  obtain ⟨fuel1, rfl⟩ : ∃ f, fuel = f + 1 := ⟨fuel - 1, by omega⟩
  obtain ⟨calls, hcalls⟩ := data_loop_wire behaviour hb bytes (fuel1 + 1) bytes.length 0
    { calls := sock.calls + 1, wire := sock.wire ++ (htonl_bytes bytes.length).take 4 }
    hpos hfuel (by omega)
  refine ⟨calls, ?_⟩
  simp only [libp2p_secio_unencrypted_write, hpos, if_true,
    size_loop_whole behaviour _ fuel1 n sock hn h4, hcalls]
  simp [htonl_bytes]

/-- C14 (as stated, refuted): three bytes written through the secure channel of the
sample session. The frame `C || T` has 35 bytes; the wire carries the four bytes
`00 00 00 23` before it, where the unsigned varint of 35 is the single byte `23`. -/
theorem encrypted_write_length_is_not_varint :
    libp2p_secio_encrypt sampleHmac sampleEcb sampleSession [10, 20, 30] =
      (1, with_encode_state sampleSession
        { nc_off := 3, nonce_counter := List.replicate 16 0,
          stream_block := List.replicate 16 6 },
        some ([12, 18, 24] ++ List.replicate 32 23)) ∧
    libp2p_secio_encrypted_write sampleHmac sampleEcb wholeSocket 40 sampleSession
        { calls := 0, wire := [] } [10, 20, 30] =
      .returns (35, with_encode_state sampleSession
        { nc_off := 3, nonce_counter := List.replicate 16 0,
          stream_block := List.replicate 16 6 },
        { calls := 2, wire := [0, 0, 0, 35] ++ ([12, 18, 24] ++ List.replicate 32 23) }) ∧
    varint_encode 35 = [35] := by
  decide

/-- C14 (amended): secure-channel frames carry a 32-bit length. For every session whose
local cipher key size is 16, 24 or 32 bytes, every plaintext with a frame `C || T`
shorter than 2^31 bytes, and every socket that takes the four length bytes in one call
and at least one byte in every call, the bytes `libp2p_secio_encrypted_write` puts on the
wire are the four-byte big-endian encoding of `len(C || T)` followed by `C || T`, the
output of `libp2p_secio_encrypt`; the return value is `len(C || T)`. -/
theorem encrypted_write_wire (hmac : Bytes → Bytes → Digest) (aes_ecb : Bytes → Bytes → Bytes)
    (behaviour : Nat → Nat → SocketReturn) (fuel : Nat) (session : SessionContext)
    (sock : WriteSocket) (plain : Bytes)
    (hk : session.local_stretched_key.cipher_size = 16 ∨
      session.local_stretched_key.cipher_size = 24 ∨
      session.local_stretched_key.cipher_size = 32)
    (hb : takes_some behaviour) (hfirst : ∃ n, behaviour sock.calls 4 = .bytes n ∧ 4 ≤ n)
    (hlen : plain.length + 32 < 2147483648) (hfuel : plain.length + 32 ≤ fuel) :
    ∃ session1 frame calls,
      libp2p_secio_encrypt hmac aes_ecb session plain = (1, session1, some frame) ∧
      frame.length = plain.length + 32 ∧
      libp2p_secio_encrypted_write hmac aes_ecb behaviour fuel session sock plain =
        .returns ((frame.length : Int), session1,
          { calls := calls, wire := sock.wire ++ htonl_bytes frame.length ++ frame }) ∧
      ntohl_bytes (htonl_bytes frame.length) = frame.length := by
  have hok := setkey_ok_of_size _ hk
  have henc := encrypt_eq hmac aes_ecb session plain hok
  have hclen : (encode_ciphertext aes_ecb session plain).length = plain.length :=
    crypt_ctr_length _ _ _ _
  have hflen : (encode_ciphertext aes_ecb session plain ++
      (hmac session.local_stretched_key.mac (encode_ciphertext aes_ecb session plain)).val).length =
      plain.length + 32 := by
    rw [List.length_append, hclen,
      (hmac session.local_stretched_key.mac (encode_ciphertext aes_ecb session plain)).property]
  obtain ⟨calls, hcalls⟩ := unencrypted_write_wire behaviour fuel sock
    (encode_ciphertext aes_ecb session plain ++
      (hmac session.local_stretched_key.mac (encode_ciphertext aes_ecb session plain)).val)
    hb hfirst (by omega) (by omega)
  refine ⟨_, _, calls, henc, hflen, ?_, ntohl_htonl _ (by omega)⟩
  simp only [libp2p_secio_encrypted_write, henc, hcalls]
  simp

theorem encrypted_write_wire_witness :
    (sampleSession.local_stretched_key.cipher_size = 16 ∨
      sampleSession.local_stretched_key.cipher_size = 24 ∨
      sampleSession.local_stretched_key.cipher_size = 32) ∧
    takes_some byteSocket ∧
    (∃ n, (fun k len => if k = 0 then SocketReturn.bytes len else byteSocket k len) 0 4 =
      .bytes n ∧ 4 ≤ n) ∧
    ∃ session1 frame calls,
      libp2p_secio_encrypt sampleHmac sampleEcb sampleSession [10, 20, 30] =
        (1, session1, some frame) ∧
      frame.length = ([10, 20, 30] : Bytes).length + 32 ∧
      libp2p_secio_encrypted_write sampleHmac sampleEcb
          (fun k len => if k = 0 then SocketReturn.bytes len else byteSocket k len) 35
          sampleSession { calls := 0, wire := [] } [10, 20, 30] =
        .returns ((frame.length : Int), session1,
          { calls := calls, wire := [] ++ htonl_bytes frame.length ++ frame }) ∧
      ntohl_bytes (htonl_bytes frame.length) = frame.length :=
  ⟨by decide, fun _ _ h => ⟨1, rfl, by decide, h⟩, ⟨4, rfl, by decide⟩,
   encrypted_write_wire sampleHmac sampleEcb
     (fun k len => if k = 0 then SocketReturn.bytes len else byteSocket k len) 35
     sampleSession { calls := 0, wire := [] } [10, 20, 30] (by decide)
     (fun k len h => by
       by_cases hk : k = 0
       · exact ⟨len, by simp [hk], h, Nat.le_refl _⟩
       · exact ⟨1, by simp [hk, byteSocket], by decide, h⟩)
     ⟨4, rfl, by decide⟩ (by decide) (by decide)⟩

/-- C15: `libp2p_secio_unencrypted_write` with a one-byte payload on a socket that takes
one byte per call. The size loop sends `size_as_char[0]` four times, so the wire carries
`00 00 00 00 07`, where the frame is `00 00 00 01 07`; the return value is 1. -/
theorem unencrypted_write_partial_size :
    takes_some byteSocket ∧
    libp2p_secio_unencrypted_write byteSocket 10 { calls := 0, wire := [] } [7] =
      .returns (1, { calls := 5, wire := [0, 0, 0, 0, 7] }) ∧
    htonl_bytes 1 ++ [7] = [0, 0, 0, 1, 7] ∧
    libp2p_secio_unencrypted_write wholeSocket 10 { calls := 0, wire := [] } [7] =
      .returns (1, { calls := 2, wire := [0, 0, 0, 1, 7] }) :=
  ⟨fun _ _ h => ⟨1, rfl, by decide, h⟩, by decide, by decide, by decide⟩

/-- C19: `libp2p_net_multistream_write` with a three-byte payload, without a secure
stream, on a socket that takes one byte per call. Each of the two `socket_write` calls is
made once: the wire carries the varint `03` and the first payload byte only, where the
frame is `03 01 02 03`; the return value is 2. -/
theorem multistream_write_partial :
    takes_some byteSocket ∧
    sampleSession.secure_stream = false ∧
    libp2p_net_multistream_write sampleHmac sampleEcb byteSocket 10 sampleSession
        { calls := 0, wire := [] } [1, 2, 3] =
      .returns (2, sampleSession, { calls := 2, wire := [3, 1] }) ∧
    varint_encode 3 ++ [1, 2, 3] = [3, 1, 2, 3] :=
  ⟨fun _ _ h => ⟨1, rfl, by decide, h⟩, by decide, by decide, by decide⟩

/-! ## Reads from the wire -/

theorem socket_read_whole (calls : Nat) (a rest : Bytes) :
    socket_read wholeSocket { calls := calls, pending := a ++ rest } a.length =
      (.bytes a.length, a, { calls := calls + 1, pending := rest }) := by
  simp [socket_read, wholeSocket]

theorem socket_read_whole_one (calls : Nat) (b : Nat) (rest : Bytes) :
    socket_read wholeSocket { calls := calls, pending := b :: rest } 1 =
      (.bytes 1, [b], { calls := calls + 1, pending := rest }) := by
  simp [socket_read, wholeSocket]

theorem socket_read_closed (calls len : Nat) :
    socket_read wholeSocket { calls := calls, pending := [] } len =
      (.bytes 0, [], { calls := calls + 1, pending := [] }) := by
  simp [socket_read, wholeSocket]

theorem write_at_nil (buf : Bytes) (offset : Nat) : write_at buf offset [] = buf := by
  simp [write_at]

theorem write_at_fresh_whole (uninit : Nat → Nat) (payload : Bytes) :
    write_at (fresh_buffer uninit payload.length) 0 payload = payload := by
  simp [write_at, fresh_buffer]

theorem size_loop_whole_read (uninit : Nat → Nat) (fuel calls b0 b1 b2 b3 : Nat) (rest : Bytes)
    (h10 : b0 ≠ 10) :
    unencrypted_read_size_loop wholeSocket (fuel + 4) 4 0 (fresh_buffer uninit 4)
        { calls := calls, pending := b0 :: b1 :: b2 :: b3 :: rest } =
      some (.fall ([b0, b1, b2, b3], { calls := calls + 4, pending := rest })) := by
  simp [unencrypted_read_size_loop, socket_read_whole_one, write_at, fresh_buffer,
    List.range_succ, h10]

theorem unencrypted_read_whole (uninit : Nat → Nat) (payload rest : Bytes) (calls fuel : Nat)
    (hfuel : 4 ≤ fuel) (hpos : 0 < payload.length) (hlt : payload.length < 4294967296)
    (h10 : payload.length / 16777216 % 256 ≠ 10) :
    libp2p_secio_unencrypted_read wholeSocket uninit fuel
        { calls := calls, pending := htonl_bytes payload.length ++ payload ++ rest } =
      .returns ((payload.length : Int), some payload,
        { calls := calls + 5, pending := rest }) := by
  obtain ⟨f, rfl⟩ : ∃ f, fuel = f + 4 := ⟨fuel - 4, by omega⟩
  have hsize := size_loop_whole_read uninit f calls (payload.length / 16777216 % 256)
    (payload.length / 65536 % 256) (payload.length / 256 % 256) (payload.length % 256)
    (payload ++ rest) h10
  have hn : ntohl_bytes [payload.length / 16777216 % 256, payload.length / 65536 % 256,
      payload.length / 256 % 256, payload.length % 256] = payload.length :=
    ntohl_htonl payload.length hlt
  have hne : ¬ payload.length = 0 := by omega
  have hdata : unencrypted_read_data_loop wholeSocket 0 (f + 4) payload.length
      (fresh_buffer uninit payload.length)
      { calls := calls + 4, pending := payload ++ rest } =
      some (.fall (payload, { calls := calls + 5, pending := rest })) := by
    simp [unencrypted_read_data_loop, socket_read_whole, write_at_fresh_whole]
  simp only [libp2p_secio_unencrypted_read, htonl_bytes, List.cons_append, List.nil_append,
    List.append_assoc, hsize, hn, hne, if_false, hdata]

theorem unencrypted_read_zero_length (uninit : Nat → Nat) (rest : Bytes) (calls fuel : Nat) :
    libp2p_secio_unencrypted_read wholeSocket uninit (fuel + 4)
        { calls := calls, pending := htonl_bytes 0 ++ rest } =
      .returns (0, none, { calls := calls + 4, pending := rest }) := by
  have hsize := size_loop_whole_read uninit fuel calls 0 0 0 0 rest (by decide)
  have hh : htonl_bytes 0 ++ rest = 0 :: 0 :: 0 :: 0 :: rest := rfl
  have hz : ntohl_bytes [0, 0, 0, 0] = 0 := rfl
  rw [hh]
  unfold libp2p_secio_unencrypted_read
  rw [hsize]
  simp only [hz, if_true]

/-- C16: `libp2p_secio_unencrypted_read` on the stream `00 00 00 02 07 08`, delivered
one byte per `socket_read` call, for every loop bound of at least 4. Both payload bytes
are stored at `ptr[0]`: the call returns 2 with a buffer whose first byte is `08` and
whose second byte was never written, where the payload is `07 08`. Delivered in one
piece the payload is read as sent. -/
theorem unencrypted_read_partial_payload (uninit : Nat → Nat) (fuel : Nat) :
    libp2p_secio_unencrypted_read byteSocket uninit (fuel + 4)
        { calls := 0, pending := [0, 0, 0, 2, 7, 8] } =
      .returns (2, some [8, uninit 1], { calls := 6, pending := [] }) ∧
    libp2p_secio_unencrypted_read wholeSocket uninit (fuel + 4)
        { calls := 0, pending := [0, 0, 0, 2, 7, 8] } =
      .returns (2, some [7, 8], { calls := 5, pending := [] }) := by
  have hz : ntohl_bytes [0, 0, 0, 2] = 2 := rfl
  constructor
  · have hsize : unencrypted_read_size_loop byteSocket (fuel + 4) 4 0 (fresh_buffer uninit 4)
        { calls := 0, pending := [0, 0, 0, 2, 7, 8] } =
        some (.fall ([0, 0, 0, 2], { calls := 4, pending := [7, 8] })) := by
      simp [unencrypted_read_size_loop, socket_read, byteSocket, write_at, fresh_buffer,
        List.range_succ]
    have hdata : unencrypted_read_data_loop byteSocket 0 (fuel + 4) 2 (fresh_buffer uninit 2)
        { calls := 4, pending := [7, 8] } =
        some (.fall ([8, uninit 1], { calls := 6, pending := [] })) := by
      simp [unencrypted_read_data_loop, socket_read, byteSocket, write_at, fresh_buffer,
        List.range_succ]
    unfold libp2p_secio_unencrypted_read
    rw [hsize]
    simp only [hz, hdata]
    simp
  · have hsize : unencrypted_read_size_loop wholeSocket (fuel + 4) 4 0 (fresh_buffer uninit 4)
        { calls := 0, pending := [0, 0, 0, 2, 7, 8] } =
        some (.fall ([0, 0, 0, 2], { calls := 4, pending := [7, 8] })) := by
      simp [unencrypted_read_size_loop, socket_read, wholeSocket, write_at, fresh_buffer,
        List.range_succ]
    have hdata : unencrypted_read_data_loop wholeSocket 0 (fuel + 4) 2 (fresh_buffer uninit 2)
        { calls := 4, pending := [7, 8] } =
        some (.fall ([7, 8], { calls := 5, pending := [] })) := by
      simp [unencrypted_read_data_loop, socket_read, wholeSocket, write_at, fresh_buffer,
        List.range_succ]
    unfold libp2p_secio_unencrypted_read
    rw [hsize]
    simp only [hz, hdata]
    simp

/-- C17 (as stated, refuted): a frame declaring 8 MiB + 1 bytes (`00 80 00 01`),
followed by that many bytes. `libp2p_secio_unencrypted_read` allocates the buffer, reads
the payload and returns 8388609. -/
theorem unencrypted_read_above_eight_mib :
    htonl_bytes 8388609 = [0, 128, 0, 1] ∧
    8388608 < (List.replicate 8388609 0 : Bytes).length ∧
    libp2p_secio_unencrypted_read wholeSocket sampleUninit 5
        { calls := 0, pending := htonl_bytes 8388609 ++ List.replicate 8388609 0 ++ [] } =
      .returns (8388609, some (List.replicate 8388609 0), { calls := 0 + 5, pending := [] }) := by
  have hlen : (List.replicate 8388609 0 : Bytes).length = 8388609 := List.length_replicate _ _
  have h := unencrypted_read_whole sampleUninit (List.replicate 8388609 0) [] 0 5 (by omega)
    (by rw [hlen]; omega) (by rw [hlen]; omega) (by rw [hlen]; decide)
  rw [hlen] at h
  exact ⟨by decide, by rw [hlen]; omega, h⟩

/-- C17 (amended): `libp2p_secio_unencrypted_read` applies no cap to the declared
length. It returns 0 without allocating when the declared length is 0; for every declared
length `n` with `0 < n < 2^31` whose first length byte is not `0x0A`, when the socket
delivers what is asked for, it allocates `n` bytes, reads the payload and returns `n`. -/
theorem unencrypted_read_no_cap (uninit : Nat → Nat) (payload rest : Bytes) (calls fuel : Nat)
    (hfuel : 4 ≤ fuel) (hpos : 0 < payload.length) (hlt : payload.length < 2147483648)
    (h10 : payload.length / 16777216 % 256 ≠ 10) :
    libp2p_secio_unencrypted_read wholeSocket uninit fuel
        { calls := calls, pending := htonl_bytes payload.length ++ payload ++ rest } =
      .returns ((payload.length : Int), some payload,
        { calls := calls + 5, pending := rest }) ∧
    libp2p_secio_unencrypted_read wholeSocket uninit fuel
        { calls := calls, pending := htonl_bytes 0 ++ rest } =
      .returns (0, none, { calls := calls + 4, pending := rest }) := by
  refine ⟨unencrypted_read_whole uninit payload rest calls fuel hfuel hpos (by omega) h10, ?_⟩
  obtain ⟨f, rfl⟩ : ∃ f, fuel = f + 4 := ⟨fuel - 4, by omega⟩
  exact unencrypted_read_zero_length uninit rest calls f

theorem unencrypted_read_no_cap_witness :
    4 ≤ 10 ∧ 0 < ([7, 8] : Bytes).length ∧ ([7, 8] : Bytes).length < 2147483648 ∧
    ([7, 8] : Bytes).length / 16777216 % 256 ≠ 10 ∧
    libp2p_secio_unencrypted_read wholeSocket sampleUninit 10
        { calls := 0, pending := htonl_bytes ([7, 8] : Bytes).length ++ [7, 8] ++ [9] } =
      .returns ((([7, 8] : Bytes).length : Int), some [7, 8], { calls := 0 + 5, pending := [9] }) ∧
    libp2p_secio_unencrypted_read wholeSocket sampleUninit 10
        { calls := 0, pending := htonl_bytes 0 ++ [9] } =
      .returns (0, none, { calls := 0 + 4, pending := [9] }) :=
  ⟨by decide, by decide, by decide, by decide,
   unencrypted_read_no_cap sampleUninit [7, 8] [9] 0 10 (by decide) (by decide) (by decide)
     (by decide)⟩

/-! ## Readers on a closed stream -/

theorem multistream_data_loop_spins (fuel : Nat) :
    ∀ (calls left : Nat) (buffer : Bytes), 0 < left →
      multistream_read_data_loop wholeSocket fuel left buffer { calls := calls, pending := [] } =
        none := by
  induction fuel with
  | zero => intro calls left buffer _; rfl
  | succ fuel ih =>
    intro calls left buffer h
    simp [multistream_read_data_loop, socket_read_closed, h, ih]

theorem unencrypted_data_loop_spins (fuel : Nat) :
    ∀ (calls left : Nat) (ptr : Bytes), 0 < left →
      unencrypted_read_data_loop wholeSocket 0 fuel left ptr { calls := calls, pending := [] } =
        none := by
  induction fuel with
  | zero => intro calls left ptr _; rfl
  | succ fuel ih =>
    intro calls left ptr h
    simp [unencrypted_read_data_loop, socket_read_closed, write_at_nil, h, ih]

theorem unencrypted_size_loop_spins (fuel : Nat) :
    ∀ (calls left read : Nat) (size : Bytes), 0 < left →
      unencrypted_read_size_loop wholeSocket fuel left read size
        { calls := calls, pending := [] } = none := by
  induction fuel with
  | zero => intro calls left read size _; rfl
  | succ fuel ih =>
    intro calls left read size h
    simp only [unencrypted_read_size_loop, socket_read_closed, write_at_nil, Nat.sub_zero,
      Nat.add_zero, h, if_true, ih, ite_self]

/-- C18: the readers on a stream the peer closes early, for every loop bound. With the
varint `05` and two of the five payload bytes on the stream,
`libp2p_net_multistream_read` does not return: its payload loop calls `socket_read`
again and again. `libp2p_secio_unencrypted_read` does not return either, neither when
the payload is cut short nor when the length prefix is. Only the varint loop of
`libp2p_net_multistream_read` returns 0 when `socket_read` returns 0. -/
theorem readers_spin_on_close (uninit : Nat → Nat) (fuel : Nat) :
    libp2p_net_multistream_read sampleHmac sampleEcb wholeSocket uninit fuel sampleSession
        { calls := 0, pending := [5, 1, 2] } = .unfinished ∧
    libp2p_secio_unencrypted_read wholeSocket uninit fuel
        { calls := 0, pending := [0, 0, 0, 5, 1, 2] } = .unfinished ∧
    libp2p_secio_unencrypted_read wholeSocket uninit fuel
        { calls := 0, pending := [0, 0] } = .unfinished ∧
    libp2p_net_multistream_read sampleHmac sampleEcb wholeSocket uninit (fuel + 1) sampleSession
        { calls := 0, pending := [] } =
      .returns (0, none, sampleSession, { calls := 1, pending := [] }) := by
  have hs : sampleSession.secure_stream = false := rfl
  refine ⟨?_, ?_, ?_, ?_⟩
  · cases fuel with
    | zero => simp [libp2p_net_multistream_read, hs, multistream_read_varint_loop]
    | succ f =>
      have hv : multistream_read_varint_loop wholeSocket (f + 1) []
          { calls := 0, pending := [5, 1, 2] } =
          some (.fall (5, { calls := 1, pending := [1, 2] })) := by
        simp [multistream_read_varint_loop, socket_read_whole_one, varint_decode]
      have hd : multistream_read_data_loop wholeSocket (f + 1) 5 []
          { calls := 1, pending := [1, 2] } = none := by
        simp [multistream_read_data_loop, socket_read, wholeSocket,
          multistream_data_loop_spins]
      simp [libp2p_net_multistream_read, hs, hv, hd]
  · have hz : ntohl_bytes [0, 0, 0, 5] = 5 := rfl
    rcases fuel with _ | _ | _ | _ | f
    · simp [libp2p_secio_unencrypted_read, unencrypted_read_size_loop]
    · simp [libp2p_secio_unencrypted_read, unencrypted_read_size_loop, socket_read_whole_one,
        write_at, fresh_buffer, List.range_succ]
    · simp [libp2p_secio_unencrypted_read, unencrypted_read_size_loop, socket_read_whole_one,
        write_at, fresh_buffer, List.range_succ]
    · simp [libp2p_secio_unencrypted_read, unencrypted_read_size_loop, socket_read_whole_one,
        write_at, fresh_buffer, List.range_succ]
    · have hsize := size_loop_whole_read uninit f 0 0 0 0 5 [1, 2] (by decide)
      have hd : unencrypted_read_data_loop wholeSocket 0 (f + 4) 5 (fresh_buffer uninit 5)
          { calls := 0 + 4, pending := [1, 2] } = none := by
        simp [unencrypted_read_data_loop, socket_read, wholeSocket,
          unencrypted_data_loop_spins]
      unfold libp2p_secio_unencrypted_read
      rw [hsize]
      simp only [hz, hd]
      simp
  · rcases fuel with _ | _ | f
    · simp [libp2p_secio_unencrypted_read, unencrypted_read_size_loop]
    · simp [libp2p_secio_unencrypted_read, unencrypted_read_size_loop, socket_read_whole_one,
        write_at, fresh_buffer, List.range_succ]
    · have hsize : unencrypted_read_size_loop wholeSocket (f + 2) 4 0 (fresh_buffer uninit 4)
          { calls := 0, pending := [0, 0] } = none := by
        simp [unencrypted_read_size_loop, socket_read_whole_one, write_at, fresh_buffer,
          List.range_succ, unencrypted_size_loop_spins]
      unfold libp2p_secio_unencrypted_read
      rw [hsize]
  · simp [libp2p_net_multistream_read, hs, multistream_read_varint_loop, socket_read_closed]

/-! ## Zero-length frames -/

/-- C20 (as stated, refuted): `libp2p_net_multistream_write` with an empty payload returns
0 and puts nothing on the wire; and on a stream that carries a frame of length 0 (the
single byte `00`) `libp2p_net_multistream_read` returns 0 without a payload, the same as
on a closed stream. -/
theorem multistream_zero_length_frame :
    libp2p_net_multistream_write sampleHmac sampleEcb wholeSocket 10 sampleSession
        { calls := 0, wire := [] } [] =
      .returns (0, sampleSession, { calls := 0, wire := [] }) ∧
    libp2p_net_multistream_read sampleHmac sampleEcb wholeSocket sampleUninit 10 sampleSession
        { calls := 0, pending := [0] } =
      .returns (0, none, sampleSession, { calls := 1, pending := [] }) ∧
    libp2p_net_multistream_read sampleHmac sampleEcb wholeSocket sampleUninit 10 sampleSession
        { calls := 0, pending := [] } =
      .returns (0, none, sampleSession, { calls := 1, pending := [] }) := by
  decide

/-- C20 (amended): zero-length frames are not carried by the Frame Transport.
`libp2p_net_multistream_write` with an empty payload writes nothing and returns 0; and
on the plaintext path, with a socket that delivers at least one byte per call, a frame
whose varint length is 0 makes `libp2p_net_multistream_read` return 0 without a payload,
the value it returns for a read error. -/
theorem multistream_empty_payload (hmac : Bytes → Bytes → Digest)
    (aes_ecb : Bytes → Bytes → Bytes) (wbehaviour rbehaviour : Nat → Nat → SocketReturn)
    (uninit : Nat → Nat) (fuel : Nat) (session : SessionContext) (wsock : WriteSocket)
    (calls : Nat) (rest : Bytes) (hs : session.secure_stream = false)
    (hb : takes_some rbehaviour) :
    libp2p_net_multistream_write hmac aes_ecb wbehaviour fuel session wsock [] =
      .returns (0, session, wsock) ∧
    libp2p_net_multistream_read hmac aes_ecb rbehaviour uninit (fuel + 1) session
        { calls := calls, pending := 0 :: rest } =
      .returns (0, none, session, { calls := calls + 1, pending := rest }) := by
  constructor
  · simp [libp2p_net_multistream_write]
  · obtain ⟨n, hn, hpos, hle⟩ := hb calls 1 (by decide)
    have hn1 : n = 1 := by omega
    subst hn1
    have hread : socket_read rbehaviour { calls := calls, pending := 0 :: rest } 1 =
        (.bytes 1, [0], { calls := calls + 1, pending := rest }) := by
      simp [socket_read, hn]
    have hv : multistream_read_varint_loop rbehaviour (fuel + 1) []
        { calls := calls, pending := 0 :: rest } =
        some (.fall (0, { calls := calls + 1, pending := rest })) := by
      simp [multistream_read_varint_loop, hread, varint_decode]
    simp [libp2p_net_multistream_read, hs, hv]

theorem multistream_empty_payload_witness :
    sampleSession.secure_stream = false ∧ takes_some byteSocket ∧
    libp2p_net_multistream_write sampleHmac sampleEcb wholeSocket 3 sampleSession
        { calls := 0, wire := [9] } [] =
      .returns (0, sampleSession, { calls := 0, wire := [9] }) ∧
    libp2p_net_multistream_read sampleHmac sampleEcb byteSocket sampleUninit (3 + 1)
        sampleSession { calls := 0, pending := 0 :: [3, 1, 2, 3] } =
      .returns (0, none, sampleSession, { calls := 0 + 1, pending := [3, 1, 2, 3] }) :=
  ⟨rfl, fun _ _ h => ⟨1, rfl, by decide, h⟩,
   multistream_empty_payload sampleHmac sampleEcb wholeSocket byteSocket sampleUninit 3
     sampleSession { calls := 0, wire := [9] } 0 [3, 1, 2, 3] rfl
     (fun _ _ h => ⟨1, rfl, by decide, h⟩)⟩


/-! ## Recognising the secio identifier -/

theorem strstr_loop_ge (needle : Bytes) :
    ∀ (hs : Bytes) (offset r : Nat), strstr_loop needle hs offset = some r → offset ≤ r := by
  intro hs
  induction hs with
  | nil =>
    intro offset r h
    simp only [strstr_loop] at h
    split_ifs at h
    simp only [Option.some.injEq] at h
    omega
  | cons c rest ih =>
    intro offset r h
    simp only [strstr_loop] at h
    split_ifs at h
    · simp only [Option.some.injEq] at h
      omega
    · have := ih (offset + 1) r h
      omega

theorem strstr_loop_here (needle : Bytes) (hs : Bytes) (offset : Nat) :
    strstr_loop needle hs offset = some offset ↔ hs.take needle.length = needle := by
  cases hs with
  | nil =>
    simp only [strstr_loop, List.take_nil]
    constructor
    · intro h
      split_ifs at h with hn
      exact hn.symm
    · intro h
      simp [h.symm]
  | cons c rest =>
    simp only [strstr_loop]
    constructor
    · intro h
      split_ifs at h with hn
      · exact hn
      · have := strstr_loop_ge needle rest (offset + 1) offset h
        omega
    · intro h
      simp [h]

theorem take_takeWhile_ne_zero (needle : Bytes) (hn : ∀ x ∈ needle, x ≠ 0) :
    ∀ buf : Bytes, (buf.takeWhile (fun c => c ≠ 0)).take needle.length = needle ↔
      buf.take needle.length = needle := by
  induction needle with
  | nil => intro buf; simp
  | cons x xs ih =>
    intro buf
    have hx : x ≠ 0 := hn x (List.mem_cons_self x xs)
    have hxs : ∀ y ∈ xs, y ≠ 0 := fun y hy => hn y (List.mem_cons_of_mem x hy)
    cases buf with
    | nil => simp
    | cons b bs =>
      by_cases hb : b = 0
      · have h1 : (b :: bs).takeWhile (fun c => decide (c ≠ 0)) = [] := by
          simp [List.takeWhile_cons, hb]
        rw [h1]
        simp only [List.length_cons, List.take_succ_cons, List.cons.injEq, List.take_nil]
        constructor
        · intro h; exact absurd h (by simp)
        · intro h; exact absurd (hb ▸ h.1).symm hx
      · have h1 : (b :: bs).takeWhile (fun c => decide (c ≠ 0)) =
            b :: bs.takeWhile (fun c => decide (c ≠ 0)) := by
          simp [List.takeWhile_cons, hb]
        rw [h1]
        simp only [List.length_cons, List.take_succ_cons, List.cons.injEq]
        rw [ih hxs bs]

theorem strstr_at_start (haystack needle : Bytes) (hn : ∀ x ∈ needle, x ≠ 0) :
    strstr haystack needle = some 0 ↔ haystack.take needle.length = needle := by
  unfold strstr
  rw [strstr_loop_here, take_takeWhile_ne_zero needle hn]

/-- C22: `libp2p_secio_can_handle` returns 1 exactly when the payload has at least 11
bytes and its first 11 bytes are "/ipfs/secio"; for every other payload, one that is too
short or holds the identifier only at a later offset, it returns 0. -/
theorem can_handle_iff_identifier_first (incoming : Bytes) :
    (libp2p_secio_can_handle incoming = 1 ↔
      11 ≤ incoming.length ∧ incoming.take 11 = secio_identifier) ∧
    (¬(11 ≤ incoming.length ∧ incoming.take 11 = secio_identifier) →
      libp2p_secio_can_handle incoming = 0) := by
  have hn : ∀ x ∈ secio_identifier, x ≠ 0 := by decide
  have hlen : secio_identifier.length = 11 := by decide
  have hs := strstr_at_start incoming secio_identifier hn
  rw [hlen] at hs
  unfold libp2p_secio_can_handle
  by_cases hshort : incoming.length < 11
  · simp only [hshort, if_true]
    constructor
    · constructor
      · intro h; exact absurd h (by decide)
      · intro h; omega
    · intro _; trivial
  · simp only [hshort, if_false]
    have hge : 11 ≤ incoming.length := by omega
    cases hr : strstr incoming secio_identifier with
    | none =>
      have hne : ¬ incoming.take 11 = secio_identifier := by
        intro h; rw [hs.2 h] at hr; exact absurd hr (by simp)
      simp [hne]
    | some result =>
      by_cases hz : result = 0
      · subst hz
        have := hs.1 hr
        simp [this, hge]
      · have hne : ¬ incoming.take 11 = secio_identifier := by
          intro h
          rw [hs.2 h] at hr
          simp only [Option.some.injEq] at hr
          exact hz hr.symm
        simp [hz, hne]

/-! ## MAC and cipher preparation -/

theorem strcmp_loop_eq_zero : ∀ a b : List Char, strcmp_loop a b = 0 ↔ a = b
  | [], [] => by simp [strcmp_loop]
  | [], _ :: _ => by simp [strcmp_loop]
  | _ :: _, [] => by simp [strcmp_loop]
  | a :: s1, b :: s2 => by
    simp only [strcmp_loop, List.cons.injEq]
    split_ifs with h1 h2
    · simp [h1, strcmp_loop_eq_zero s1 s2]
    · simp [h1]
    · simp [h1]

theorem strcmp_eq_zero (a b : String) : strcmp a b = 0 ↔ a = b := by
  unfold strcmp
  rw [strcmp_loop_eq_zero]
  constructor
  · intro h; exact String.ext h
  · intro h; rw [h]

/-- C27: for a session whose chosen hash is "SHA256", `libp2p_secio_make_mac_and_cipher`
returns 0 when the chosen cipher is "AES-128" and 1 for every other cipher name,
"AES-256" and "Blowfish" among them; the stretched key, and with it `mac_size`, is left
as it was. -/
theorem make_mac_and_cipher_cipher_test (session : SessionContext) (key : StretchedKey)
    (cipher : String) :
    libp2p_secio_make_mac_and_cipher (session.choosing "SHA256" cipher) key =
      (if cipher = "AES-128" then 0 else 1, key) ∧
    libp2p_secio_make_mac_and_cipher (session.choosing "SHA256" "AES-128") key = (0, key) ∧
    libp2p_secio_make_mac_and_cipher (session.choosing "SHA256" "AES-256") key = (1, key) ∧
    libp2p_secio_make_mac_and_cipher (session.choosing "SHA256" "Blowfish") key = (1, key) := by
  have h1 : strcmp "SHA256" "SHA1" ≠ 0 := by decide
  have h2 : strcmp "SHA256" "SHA512" ≠ 0 := by decide
  have h3 : strcmp "SHA256" "SHA256" = 0 := by decide
  have hgen : ∀ cipher : String,
      libp2p_secio_make_mac_and_cipher (session.choosing "SHA256" cipher) key =
        (if cipher = "AES-128" then 0 else 1, key) := by
    intro cipher
    simp only [libp2p_secio_make_mac_and_cipher, SessionContext.choosing, h1, h2, h3, if_true,
      if_false, ne_eq, strcmp_eq_zero]
    by_cases ha : cipher = "AES-128"
    · subst ha
      simp
    · simp [ha]
  refine ⟨hgen cipher, ?_, ?_, ?_⟩
  · rw [hgen]; rfl
  · rw [hgen]; rfl
  · rw [hgen]; rfl

/-! ## Handshake: the signed corpus and the remote ephemeral key -/

theorem fresh_buffer_length (uninit : Nat → Nat) (n : Nat) :
    (fresh_buffer uninit n).length = n := by
  simp [fresh_buffer]

theorem write_at_after (front rest chunk : Bytes) (offset : Nat) (ho : offset = front.length)
    (hc : chunk.length ≤ rest.length) :
    write_at (front ++ rest) offset chunk = (front ++ chunk) ++ rest.drop chunk.length := by
  subst ho
  unfold write_at
  rw [List.take_left, List.drop_append]

theorem three_copies (buf x y z : Bytes) (hb : buf.length = y.length + x.length + z.length) :
    memcpy (memcpy (memcpy buf 0 x x.length) x.length y y.length) (y.length + x.length) z
      z.length = x ++ y ++ z := by
  unfold memcpy
  rw [List.take_length, List.take_length, List.take_length]
  have e1 : write_at buf 0 x = x ++ buf.drop x.length := by
    have := write_at_after [] buf x 0 rfl (by omega)
    simpa using this
  rw [e1]
  have e2 : write_at (x ++ buf.drop x.length) x.length y =
      (x ++ y) ++ (buf.drop x.length).drop y.length :=
    write_at_after x (buf.drop x.length) y x.length rfl (by rw [List.length_drop]; omega)
  rw [e2]
  have e3 : write_at ((x ++ y) ++ (buf.drop x.length).drop y.length) (y.length + x.length) z =
      ((x ++ y) ++ z) ++ ((buf.drop x.length).drop y.length).drop z.length :=
    write_at_after (x ++ y) _ z (y.length + x.length) (by rw [List.length_append]; omega)
      (by rw [List.length_drop, List.length_drop]; omega)
  rw [e3]
  have e4 : ((buf.drop x.length).drop y.length).drop z.length = [] := by
    apply List.eq_nil_of_length_eq_zero
    rw [List.length_drop, List.length_drop, List.length_drop]
    omega
  rw [e4, List.append_nil]

theorem sign_buffer_eq (uninit : Nat → Nat) (out inb key : Bytes) (hk : key ≠ []) :
    handshake_sign_buffer uninit out inb key = out ++ inb ++ key.drop 1 := by
  have hl : 0 < key.length := List.length_pos.2 hk
  have hd : (key.drop 1).length = key.length - 1 := by rw [List.length_drop]
  unfold handshake_sign_buffer
  simp only []
  rw [← hd]
  apply three_copies
  rw [fresh_buffer_length, hd]
  omega

theorem verify_buffer_eq (uninit : Nat → Nat) (inb out key : Bytes) (hk : key ≠ []) :
    handshake_verify_buffer uninit inb out key = inb ++ out ++ key.drop 1 := by
  have hl : 0 < key.length := List.length_pos.2 hk
  have hd : (key.drop 1).length = key.length - 1 := by rw [List.length_drop]
  unfold handshake_verify_buffer
  simp only []
  rw [← hd]
  have := three_copies (fresh_buffer uninit (inb.length + out.length + key.length - 1)) inb out
    (key.drop 1) (by rw [fresh_buffer_length, hd]; omega)
  rw [Nat.add_comm out.length inb.length] at this
  exact this

theorem exchange_epubkey_eq (uninit : Nat → Nat) (key : Bytes) :
    handshake_exchange_epubkey uninit key = key.drop 1 := by
  have hd : (key.drop 1).length = key.length - 1 := by rw [List.length_drop]
  unfold handshake_exchange_epubkey memcpy
  simp only []
  rw [← hd, List.take_length]
  have := write_at_after [] (fresh_buffer uninit (key.drop 1).length) (key.drop 1) 0 rfl
    (by rw [fresh_buffer_length])
  simp only [List.nil_append] at this
  rw [this]
  have e : (fresh_buffer uninit (key.drop 1).length).drop (key.drop 1).length = [] := by
    apply List.eq_nil_of_length_eq_zero
    rw [List.length_drop, fresh_buffer_length]
    omega
  rw [e, List.append_nil]

theorem remote_ephemeral_public_key_eq (uninit : Nat → Nat) (epubkey : Bytes) :
    handshake_remote_ephemeral_public_key uninit epubkey =
      (epubkey.length % 256) :: epubkey := by
  unfold handshake_remote_ephemeral_public_key memcpy
  simp only []
  rw [List.take_length]
  have h1 : write_at (fresh_buffer uninit (epubkey.length + 1)) 0 [epubkey.length % 256] =
      [epubkey.length % 256] ++ (fresh_buffer uninit (epubkey.length + 1)).drop 1 := by
    have := write_at_after [] (fresh_buffer uninit (epubkey.length + 1))
      [epubkey.length % 256] 0 rfl (by rw [fresh_buffer_length]; simp)
    simpa using this
  rw [h1]
  have h2 := write_at_after [epubkey.length % 256]
    ((fresh_buffer uninit (epubkey.length + 1)).drop 1) epubkey 1 rfl
    (by rw [List.length_drop, fresh_buffer_length]; omega)
  rw [h2]
  have e : ((fresh_buffer uninit (epubkey.length + 1)).drop 1).drop epubkey.length = [] := by
    apply List.eq_nil_of_length_eq_zero
    rw [List.length_drop, List.length_drop, fresh_buffer_length]
    omega
  rw [e, List.append_nil]
  rfl

/-- C23: the corpus a side signs is the corpus its peer verifies. When side A, with
propose bytes `a`, has read the propose bytes `b` of side B, and its ephemeral public
key `key` is not empty, the buffer A signs is `a`, then `b`, then `key` without its
first byte; and side B, who has read `a` as the remote propose bytes and has received
the `epubkey` A sent, builds byte for byte the same buffer for the verification. -/
theorem signed_corpus_is_verified_corpus (uninit_a uninit_b : Nat → Nat) (a b key : Bytes)
    (hk : key ≠ []) :
    handshake_sign_buffer uninit_a a b key = a ++ b ++ key.drop 1 ∧
    handshake_verify_buffer uninit_b a b
        (handshake_remote_ephemeral_public_key uninit_b
          (handshake_exchange_epubkey uninit_a key)) =
      handshake_sign_buffer uninit_a a b key := by
  refine ⟨sign_buffer_eq uninit_a a b key hk, ?_⟩
  rw [sign_buffer_eq uninit_a a b key hk, exchange_epubkey_eq, remote_ephemeral_public_key_eq,
    verify_buffer_eq uninit_b a b _ (by simp)]
  rfl

theorem signed_corpus_is_verified_corpus_witness :
    ([4, 9, 8, 7] : Bytes) ≠ [] ∧
    (handshake_sign_buffer sampleUninit [1, 2, 3] [5, 6] [4, 9, 8, 7] =
        [1, 2, 3] ++ [5, 6] ++ ([4, 9, 8, 7] : Bytes).drop 1 ∧
      handshake_verify_buffer (fun _ => 85) [1, 2, 3] [5, 6]
          (handshake_remote_ephemeral_public_key (fun _ => 85)
            (handshake_exchange_epubkey sampleUninit [4, 9, 8, 7])) =
        handshake_sign_buffer sampleUninit [1, 2, 3] [5, 6] [4, 9, 8, 7]) :=
  ⟨by decide,
   signed_corpus_is_verified_corpus sampleUninit (fun _ => 85) [1, 2, 3] [5, 6] [4, 9, 8, 7]
     (by decide)⟩

/-- C24 (as stated, refuted): for the 65-byte encoding that starts with 0x04, sent without
its first byte, the remote ephemeral public key the receiver stores starts with 64, the
size of what was received, and so differs from the encoding. -/
theorem remote_ephemeral_key_starts_with_size :
    handshake_remote_ephemeral_public_key sampleUninit
        (handshake_exchange_epubkey sampleUninit (4 :: List.replicate 64 7)) =
      64 :: List.replicate 64 7 ∧
    handshake_remote_ephemeral_public_key sampleUninit
        (handshake_exchange_epubkey sampleUninit (4 :: List.replicate 64 7)) ≠
      4 :: List.replicate 64 7 := by
  rw [exchange_epubkey_eq, remote_ephemeral_public_key_eq]
  decide

/-- C24 (amended): for every ephemeral public key encoding `key` that is not empty, when
the sender transmits it without its first byte, the remote ephemeral public key the
receiver stores has `epubkey_size + 1` bytes: the size of what it received, modulo 256,
followed by what it received. It equals `key` exactly when the first byte of `key` is
the number of bytes that follow it, modulo 256. -/
theorem remote_ephemeral_key_reconstruction (uninit_a uninit_b : Nat → Nat) (key : Bytes)
    (hk : key ≠ []) :
    handshake_remote_ephemeral_public_key uninit_b (handshake_exchange_epubkey uninit_a key) =
      ((key.length - 1) % 256) :: key.drop 1 ∧
    (handshake_remote_ephemeral_public_key uninit_b (handshake_exchange_epubkey uninit_a key)).length
      = (handshake_exchange_epubkey uninit_a key).length + 1 ∧
    (handshake_remote_ephemeral_public_key uninit_b (handshake_exchange_epubkey uninit_a key) =
        key ↔ key.headD 0 = (key.length - 1) % 256) := by
  rw [exchange_epubkey_eq, remote_ephemeral_public_key_eq, List.length_drop]
  refine ⟨rfl, by simp, ?_⟩
  cases key with
  | nil => exact absurd rfl hk
  | cons first rest =>
    simp only [List.length_cons, Nat.add_sub_cancel, List.drop_succ_cons, List.drop_zero,
      List.cons.injEq, and_true, List.headD_cons]
    constructor <;> intro h <;> exact h.symm

theorem remote_ephemeral_key_reconstruction_witness :
    ([3, 9, 8, 7] : Bytes) ≠ [] ∧
    (handshake_remote_ephemeral_public_key (fun _ => 85)
        (handshake_exchange_epubkey sampleUninit [3, 9, 8, 7]) =
      ((([3, 9, 8, 7] : Bytes).length - 1) % 256) :: ([3, 9, 8, 7] : Bytes).drop 1 ∧
    (handshake_remote_ephemeral_public_key (fun _ => 85)
        (handshake_exchange_epubkey sampleUninit [3, 9, 8, 7])).length
      = (handshake_exchange_epubkey sampleUninit [3, 9, 8, 7]).length + 1 ∧
    (handshake_remote_ephemeral_public_key (fun _ => 85)
        (handshake_exchange_epubkey sampleUninit [3, 9, 8, 7]) = [3, 9, 8, 7] ↔
      ([3, 9, 8, 7] : Bytes).headD 0 = (([3, 9, 8, 7] : Bytes).length - 1) % 256)) :=
  ⟨by decide,
   remote_ephemeral_key_reconstruction sampleUninit (fun _ => 85) [3, 9, 8, 7] (by decide)⟩

/-! ## Handshake: the directional keys of the two sides -/

/-- C28: directional keys pair up across the two sides. For two sessions that stretch
the same shared secret with the same supported cipher, the key step succeeds on both;
when their orders are `o` and `-o` with `o` other than 0, the local stretched key of
each is the remote stretched key of the other; when both orders are 0, both take `k2` as
local key and `k1` as remote key, so that the pairing holds only if `k1` and `k2` are the
same key. -/
theorem directional_keys_pair_up (hmac : Bytes → Bytes → Digest) (a b : SessionContext)
    (secret : Bytes) (o : Int) (i c : Nat)
    (ha : stretch_keys_cipher_sizes a.chosen_cipher = some (i, c))
    (hb : b.chosen_cipher = a.chosen_cipher) :
    ∃ k1 k2 a1 b1 a0 b0,
      libp2p_secio_stretch_keys hmac a.chosen_cipher a.chosen_hash secret =
        (1, some k1, some k2) ∧
      libp2p_secio_stretch_keys hmac b.chosen_cipher b.chosen_hash secret =
        (1, some k1, some k2) ∧
      handshake_stretch_keys hmac o a secret = some a1 ∧
      handshake_stretch_keys hmac (-o) b secret = some b1 ∧
      (o ≠ 0 → a1.local_stretched_key = b1.remote_stretched_key ∧
        a1.remote_stretched_key = b1.local_stretched_key) ∧
      handshake_stretch_keys hmac 0 a secret = some a0 ∧
      handshake_stretch_keys hmac 0 b secret = some b0 ∧
      a0.local_stretched_key = k2 ∧ a0.remote_stretched_key = k1 ∧
      b0.local_stretched_key = k2 ∧ b0.remote_stretched_key = k1 ∧
      (a0.local_stretched_key = b0.remote_stretched_key ↔ k1 = k2) := by
  have hka := stretch_keys_eq hmac a.chosen_cipher a.chosen_hash secret i c ha
  have hkb := stretch_keys_eq hmac b.chosen_cipher b.chosen_hash secret i c (by rw [hb]; exact ha)
  obtain ⟨k1, k2, hk1, hk2⟩ : ∃ k1 k2,
      libp2p_secio_stretch_keys hmac a.chosen_cipher a.chosen_hash secret =
        (1, some k1, some k2) ∧
      libp2p_secio_stretch_keys hmac b.chosen_cipher b.chosen_hash secret =
        (1, some k1, some k2) := ⟨_, _, hka, hkb⟩
  have key : ∀ (order : Int) (s : SessionContext),
      libp2p_secio_stretch_keys hmac s.chosen_cipher s.chosen_hash secret =
        (1, some k1, some k2) →
      handshake_stretch_keys hmac order s secret =
        some (if order > 0 then
          { s with local_stretched_key := k1, remote_stretched_key := k2 }
        else { s with local_stretched_key := k2, remote_stretched_key := k1 }) := by
    intro order s hs
    by_cases hp : order > 0 <;> simp [handshake_stretch_keys, hs, hp]
  refine ⟨k1, k2, _, _, _, _, hk1, hk2, key o a hk1, key (-o) b hk2, ?_, key 0 a hk1,
    key 0 b hk2, ?_, ?_, ?_, ?_, ?_⟩
  · intro ho
    by_cases hp : o > 0
    · have hn : ¬ (-o > 0) := by omega
      simp [hp, hn]
    · have hn : -o > 0 := by omega
      simp [hp, hn]
  · simp
  · simp
  · simp
  · simp
  · simp only [gt_iff_lt, lt_self_iff_false, if_false]
    exact eq_comm

theorem directional_keys_pair_up_witness :
    stretch_keys_cipher_sizes sampleSession.chosen_cipher = some (16, 16) ∧
    sampleSession.chosen_cipher = sampleSession.chosen_cipher ∧
    ∃ k1 k2 a1 b1 a0 b0,
      libp2p_secio_stretch_keys mixHmac sampleSession.chosen_cipher sampleSession.chosen_hash
        [1, 2, 3] = (1, some k1, some k2) ∧
      libp2p_secio_stretch_keys mixHmac sampleSession.chosen_cipher sampleSession.chosen_hash
        [1, 2, 3] = (1, some k1, some k2) ∧
      handshake_stretch_keys mixHmac 1 sampleSession [1, 2, 3] = some a1 ∧
      handshake_stretch_keys mixHmac (-1) sampleSession [1, 2, 3] = some b1 ∧
      ((1 : Int) ≠ 0 → a1.local_stretched_key = b1.remote_stretched_key ∧
        a1.remote_stretched_key = b1.local_stretched_key) ∧
      handshake_stretch_keys mixHmac 0 sampleSession [1, 2, 3] = some a0 ∧
      handshake_stretch_keys mixHmac 0 sampleSession [1, 2, 3] = some b0 ∧
      a0.local_stretched_key = k2 ∧ a0.remote_stretched_key = k1 ∧
      b0.local_stretched_key = k2 ∧ b0.remote_stretched_key = k1 ∧
      (a0.local_stretched_key = b0.remote_stretched_key ↔ k1 = k2) :=
  ⟨by decide, rfl,
   directional_keys_pair_up mixHmac sampleSession sampleSession [1, 2, 3] 1 16 16 (by decide)
     rfl⟩

theorem order_zero_keys_do_not_pair :
    ∃ a0 b0,
      handshake_stretch_keys mixHmac 0 sampleSession [1, 2, 3] = some a0 ∧
      handshake_stretch_keys mixHmac 0 sampleSession [1, 2, 3] = some b0 ∧
      a0.local_stretched_key ≠ b0.remote_stretched_key := by
  refine ⟨(handshake_stretch_keys mixHmac 0 sampleSession [1, 2, 3]).getD sampleSession,
    (handshake_stretch_keys mixHmac 0 sampleSession [1, 2, 3]).getD sampleSession, ?_, ?_, ?_⟩
  · decide
  · decide
  · decide

/-! ## Multistream negotiation -/

theorem strncmp_identifier (b : Bytes) (hb : ∀ x ∈ b, x ≠ 0) :
    ∀ a : Bytes,
      (strncmp a b b.length = some 0 ↔ a.take b.length = b) ∧
      (strncmp a b b.length = none ↔ a.length < b.length ∧ a = b.take a.length) := by
  induction b with
  | nil => intro a; simp [strncmp]
  | cons y ys ih =>
    intro a
    have hy : y ≠ 0 := hb y (List.mem_cons_self y ys)
    have hys : ∀ x ∈ ys, x ≠ 0 := fun x hx => hb x (List.mem_cons_of_mem y hx)
    cases a with
    | nil => simp [strncmp]
    | cons x xs =>
      simp only [List.length_cons, strncmp, List.headD_cons, ne_eq, List.tail_cons,
        List.take_succ_cons, List.cons.injEq, Nat.add_lt_add_iff_right]
      by_cases hxy : x = y
      · subst hxy
        simp only [not_true_eq_false, if_false, hy, true_and]
        exact ih hys xs
      · simp only [hxy, not_false_eq_true, if_true, false_and, iff_false, Option.some.injEq,
          reduceCtorEq, not_false_eq_true, and_false, and_true]
        omega

theorem negotiate_reads_past_short_response :
    libp2p_net_multistream_read sampleHmac sampleEcb wholeSocket sampleUninit 5 sampleSession
        ⟨0, [18] ++ protocolID.take 18⟩ =
      .returns (18, some (protocolID.take 18), sampleSession, ⟨2, []⟩) ∧
    strncmp (protocolID.take 18) protocolID protocolID.length = none ∧
    libp2p_net_multistream_negotiate sampleHmac sampleEcb wholeSocket wholeSocket sampleUninit 5
        sampleSession ⟨0, []⟩ ⟨0, [18] ++ protocolID.take 18⟩ = .undefined := by
  refine ⟨?_, ?_, ?_⟩
  · decide
  · decide
  · decide

theorem keeps_refl (st : HandshakeState) : st.keeps st := ⟨rfl, rfl, fun h => h⟩

theorem keeps_trans (a b c : HandshakeState) (h1 : a.keeps b) (h2 : b.keeps c) : a.keeps c :=
  ⟨h2.1.trans h1.1, h2.2.1.trans h1.2.1, fun h => h2.2.2 (h1.2.2 h)⟩

theorem memcpy_length (buf src : Bytes) (n : Nat) (h : n ≤ buf.length) :
    (memcpy buf 0 src n).length = buf.length := by
  unfold memcpy write_at
  simp only [List.take_zero, List.nil_append, List.length_append, List.length_take,
    List.length_drop, Nat.zero_add]
  omega

theorem store_through_ids (peerstore : List Libp2pPeer) (new_peer : Bool)
    (remote_peer : Libp2pPeer) :
    (store_through peerstore new_peer remote_peer).map Libp2pPeer.id =
      peerstore.map Libp2pPeer.id := by
  unfold store_through
  split_ifs
  · rfl
  · rw [List.map_map]
    apply List.map_congr_left
    intro p _
    simp only [Function.comp]
    split_ifs with h
    · exact h.symm
    · rfl

theorem encrypt_keeps (hmac : Bytes → Bytes → Digest) (aes_ecb : Bytes → Bytes → Bytes)
    (session : SessionContext) (plain : Bytes) :
    (libp2p_secio_encrypt hmac aes_ecb session plain).2.1.secure_stream =
        session.secure_stream ∧
    (libp2p_secio_encrypt hmac aes_ecb session plain).2.1.local_nonce = session.local_nonce := by
  simp only [libp2p_secio_encrypt]
  split_ifs <;> exact ⟨rfl, rfl⟩

theorem decrypt_keeps (hmac : Bytes → Bytes → Digest) (aes_ecb : Bytes → Bytes → Bytes)
    (session : SessionContext) (incoming : Bytes) (r : Int) (session1 : SessionContext)
    (out : Option Bytes)
    (h : libp2p_secio_decrypt hmac aes_ecb session incoming = some (r, session1, out)) :
    session1.secure_stream = session.secure_stream ∧
    session1.local_nonce = session.local_nonce := by
  simp only [libp2p_secio_decrypt] at h
  split_ifs at h <;> simp only [Option.some.injEq, Prod.mk.injEq, reduceCtorEq] at h <;>
    obtain ⟨_, h2, _⟩ := h <;> subst h2 <;> simp

theorem encrypted_write_keeps (hmac : Bytes → Bytes → Digest) (aes_ecb : Bytes → Bytes → Bytes)
    (behaviour : Nat → Nat → SocketReturn) (fuel : Nat) (session : SessionContext)
    (sock : WriteSocket) (bytes : Bytes) (r : Int) (session1 : SessionContext)
    (sock1 : WriteSocket)
    (h : libp2p_secio_encrypted_write hmac aes_ecb behaviour fuel session sock bytes =
      .returns (r, session1, sock1)) :
    session1.secure_stream = session.secure_stream ∧
    session1.local_nonce = session.local_nonce := by
  have hk := encrypt_keeps hmac aes_ecb session bytes
  unfold libp2p_secio_encrypted_write at h
  split at h
  · rename_i retVal s1 buffer heq
    rw [heq] at hk
    split_ifs at h
    · simp only [Outcome.returns.injEq, Prod.mk.injEq] at h
      obtain ⟨_, h2, _⟩ := h
      subst h2
      exact hk
    · split at h
      · simp only [Outcome.returns.injEq, Prod.mk.injEq] at h
        obtain ⟨_, h2, _⟩ := h
        subst h2
        exact hk
      · exact absurd h (by simp)
      · exact absurd h (by simp)
  · rename_i x s1 heq
    rw [heq] at hk
    simp only [Outcome.returns.injEq, Prod.mk.injEq] at h
    obtain ⟨_, h2, _⟩ := h
    subst h2
    exact hk

theorem encrypted_read_keeps (hmac : Bytes → Bytes → Digest) (aes_ecb : Bytes → Bytes → Bytes)
    (behaviour : Nat → Nat → SocketReturn) (uninit : Nat → Nat) (fuel : Nat)
    (session : SessionContext) (sock : ReadSocket) (r : Int) (results : Option Bytes)
    (session1 : SessionContext) (sock1 : ReadSocket)
    (h : libp2p_secio_encrypted_read hmac aes_ecb behaviour uninit fuel session sock =
      .returns (r, results, session1, sock1)) :
    session1.secure_stream = session.secure_stream ∧
    session1.local_nonce = session.local_nonce := by
  unfold libp2p_secio_encrypted_read at h
  split at h
  · exact absurd h (by simp)
  · exact absurd h (by simp)
  · split_ifs at h
    simp only [Outcome.returns.injEq, Prod.mk.injEq] at h
    obtain ⟨_, _, h2, _⟩ := h
    subst h2
    exact ⟨rfl, rfl⟩
  · split_ifs at h
    · simp only [Outcome.returns.injEq, Prod.mk.injEq] at h
      obtain ⟨_, _, h2, _⟩ := h
      subst h2
      exact ⟨rfl, rfl⟩
    · split at h
      · exact absurd h (by simp)
      · rename_i retVal s1 bytes heq
        simp only [Outcome.returns.injEq, Prod.mk.injEq] at h
        obtain ⟨_, _, h2, _⟩ := h
        subst h2
        exact decrypt_keeps hmac aes_ecb session _ _ _ _ heq

theorem handshake_propose_keeps (c : Collaborators)
    (wbehaviour rbehaviour : Nat → Nat → SocketReturn) (uninit : Nat → Nat) (fuel : Nat)
    (private_key : RsaPrivateKey) (st : HandshakeState)
    (out : LoopExit HandshakeState (HandshakeLocals × HandshakeState))
    (h : handshake_propose c wbehaviour rbehaviour uninit fuel private_key st = .returns out) :
    match out with
    | .ret st1 => st.keeps st1
    | .fall r => st.keeps r.2 := by
  have hlen : st.session.local_nonce.length = 16 →
      (memcpy st.session.local_nonce 0 c.random 16).length = 16 := by
    intro h16
    rw [memcpy_length _ _ _ (by omega), h16]
  simp only [handshake_propose] at h
  repeat' split at h
  all_goals first
    | (simp only [Outcome.returns.injEq] at h
       subst h
       exact ⟨rfl, rfl, hlen⟩)
    | cases h

theorem get_peer_none_iff (peerstore : List Libp2pPeer) (id : String) :
    libp2p_peerstore_get_peer peerstore id = none ↔ id ∉ peerstore.map Libp2pPeer.id := by
  unfold libp2p_peerstore_get_peer
  rw [List.find?_eq_none]
  simp only [decide_eq_true_eq, List.mem_map, not_exists, not_and]

theorem handshake_peer_keeps (locals : HandshakeLocals) (st : HandshakeState) :
    st.keeps (handshake_peer locals st).2 ∧
    (handshake_peer locals st).2.session = st.session ∧
    ((handshake_peer locals st).1.new_peer = true →
      (handshake_peer locals st).1.remote_peer.id ∉ st.peerstore.map Libp2pPeer.id) := by
  cases hg : libp2p_peerstore_get_peer st.peerstore st.session.remote_peer_id with
  | none =>
    simp only [handshake_peer, hg]
    refine ⟨⟨rfl, ?_, fun h => h⟩, trivial, ?_⟩
    · rw [store_through_ids]
    intro _
    have hn := (get_peer_none_iff _ _).1 hg
    split_ifs with hl
    · exact hn
    · have he : st.session.remote_peer_id = "" := by
        apply String.ext
        apply List.eq_nil_of_length_eq_zero
        have : st.session.remote_peer_id.length = 0 := by omega
        exact this
      rw [he] at hn
      exact hn
  | some remote_peer =>
    simp only [handshake_peer, hg]
    refine ⟨⟨rfl, ?_, fun h => h⟩, trivial, ?_⟩
    · rw [store_through_ids]
    intro h
    exact absurd h (by simp)

theorem handshake_select_keeps (sha256 : Bytes → Digest) (locals : HandshakeLocals)
    (st : HandshakeState) (out : LoopExit HandshakeState (HandshakeLocals × HandshakeState))
    (h : handshake_select sha256 locals st = .returns out) :
    match out with
    | .ret st1 => st.keeps st1
    | .fall r => st.keeps r.2 ∧ r.1.new_peer = locals.new_peer ∧
        r.1.remote_peer = locals.remote_peer := by
  simp only [handshake_select] at h
  repeat' split at h
  all_goals first
    | (simp only [Outcome.returns.injEq] at h
       subst h
       first
         | exact ⟨rfl, rfl, fun h => h⟩
         | exact ⟨⟨rfl, rfl, fun h => h⟩, rfl, rfl⟩)
    | cases h

theorem handshake_exchange_keeps (c : Collaborators)
    (wbehaviour rbehaviour : Nat → Nat → SocketReturn) (uninit : Nat → Nat) (fuel : Nat)
    (private_key : RsaPrivateKey) (locals : HandshakeLocals) (st : HandshakeState)
    (out : LoopExit HandshakeState HandshakeState)
    (h : handshake_exchange c wbehaviour rbehaviour uninit fuel private_key locals st =
      .returns out) :
    match out with
    | .ret st1 => st.keeps st1
    | .fall st1 => st.keeps st1 := by
  simp only [handshake_exchange] at h
  repeat' split at h
  all_goals first
    | (simp only [Outcome.returns.injEq] at h
       subst h
       first
         | exact ⟨rfl, rfl, fun h => h⟩
         | exact ⟨rfl, store_through_ids _ _ _, fun h => h⟩)
    | cases h

theorem handshake_stretch_keys_keeps (hmac : Bytes → Bytes → Digest) (order : Int)
    (session session1 : SessionContext) (shared_key : Bytes)
    (h : handshake_stretch_keys hmac order session shared_key = some session1) :
    session1.secure_stream = session.secure_stream ∧
    session1.local_nonce = session.local_nonce := by
  unfold handshake_stretch_keys at h
  repeat' split at h
  all_goals first
    | (simp only [Option.some.injEq] at h
       subst h
       exact ⟨rfl, rfl⟩)
    | cases h

theorem handshake_keys_keeps (hmac : Bytes → Bytes → Digest) (locals : HandshakeLocals)
    (st : HandshakeState) (out : LoopExit HandshakeState HandshakeState)
    (h : handshake_keys hmac locals st = .returns out) :
    match out with
    | .ret st1 => st.keeps st1
    | .fall st1 => st.keeps st1 := by
  cases hs : handshake_stretch_keys hmac locals.order st.session st.session.shared_key with
  | none =>
    simp only [handshake_keys, hs, Outcome.returns.injEq] at h
    subst h
    exact keeps_refl st
  | some session =>
    have hk := handshake_stretch_keys_keeps hmac _ _ _ _ hs
    simp only [handshake_keys, hs] at h
    repeat' split at h
    all_goals
      simp only [Outcome.returns.injEq] at h
      subst h
      exact ⟨hk.1, rfl, fun h => by rw [hk.2]; exact h⟩

theorem bytes_compare_loop_eq_zero (a b : Bytes) :
    ∀ n i, libp2p_secio_bytes_compare_loop a b i n = 0 ↔
      ∀ j, i ≤ j → j < i + n → a.getD j 0 = b.getD j 0 := by
  intro n
  induction n with
  | zero =>
    intro i
    simp only [libp2p_secio_bytes_compare_loop, true_iff]
    intro j h1 h2
    omega
  | succ n ih =>
    intro i
    simp only [libp2p_secio_bytes_compare_loop]
    split_ifs with h1 h2
    · constructor
      · intro h; exact absurd h (by decide)
      · intro h
        have := h i (Nat.le_refl i) (by omega)
        omega
    · constructor
      · intro h; exact absurd h (by decide)
      · intro h
        have := h i (Nat.le_refl i) (by omega)
        omega
    · rw [ih (i + 1)]
      constructor
      · intro h j hj1 hj2
        by_cases he : j = i
        · subst he; omega
        · exact h j (by omega) (by omega)
      · intro h j hj1 hj2
        exact h j (by omega) (by omega)

theorem bytes_compare_sixteen (a b : Bytes) (ha : a.length = 16) (hb : b.length = 16) :
    libp2p_secio_bytes_compare a b 16 = 0 ↔ a = b := by
  unfold libp2p_secio_bytes_compare
  rw [show (16 : Int).toNat = 16 from rfl, bytes_compare_loop_eq_zero]
  constructor
  · intro h
    apply List.ext_getElem (by rw [ha, hb])
    intro n h1 h2
    have := h n (Nat.zero_le n) (by omega)
    rw [List.getD_eq_getElem _ _ h1, List.getD_eq_getElem _ _ h2] at this
    exact this
  · intro h j _ _
    rw [h]

theorem handshake_liveness_keeps (hmac : Bytes → Bytes → Digest)
    (aes_ecb : Bytes → Bytes → Bytes) (wbehaviour rbehaviour : Nat → Nat → SocketReturn)
    (uninit : Nat → Nat) (fuel : Nat) (st : HandshakeState)
    (out : LoopExit HandshakeState HandshakeState)
    (h : handshake_liveness hmac aes_ecb wbehaviour rbehaviour uninit fuel st = .returns out) :
    match out with
    | .ret st1 => st.keeps st1
    | .fall st1 => st.keeps st1 := by
  cases hw : libp2p_secio_encrypted_write hmac aes_ecb wbehaviour fuel st.session st.wsock
      (st.session.remote_nonce.take 16) with
  | unfinished => simp only [handshake_liveness, hw, reduceCtorEq] at h
  | undefined => simp only [handshake_liveness, hw, reduceCtorEq] at h
  | returns w =>
    obtain ⟨written, session1, wsock1⟩ := w
    have hk1 := encrypted_write_keeps hmac aes_ecb wbehaviour fuel _ _ _ _ _ _ hw
    cases hr : libp2p_secio_encrypted_read hmac aes_ecb rbehaviour uninit fuel session1
        st.rsock with
    | unfinished =>
      simp only [handshake_liveness, hw, hr] at h
      split_ifs at h
      simp only [Outcome.returns.injEq] at h
      subst h
      exact ⟨hk1.1, rfl, fun h => by rw [hk1.2]; exact h⟩
    | undefined =>
      simp only [handshake_liveness, hw, hr] at h
      split_ifs at h
      simp only [Outcome.returns.injEq] at h
      subst h
      exact ⟨hk1.1, rfl, fun h => by rw [hk1.2]; exact h⟩
    | returns r =>
      obtain ⟨bytes_read, results, session2, rsock1⟩ := r
      have hk2 := encrypted_read_keeps hmac aes_ecb rbehaviour uninit fuel _ _ _ _ _ _ hr
      simp only [handshake_liveness, hw, hr] at h
      split_ifs at h
      all_goals
        simp only [Outcome.returns.injEq] at h
        subst h
        first
          | exact ⟨hk1.1, rfl, fun h => by rw [hk1.2]; exact h⟩
          | exact ⟨hk2.1.trans hk1.1, rfl, fun h => by rw [hk2.2, hk1.2]; exact h⟩

theorem handshake_liveness_fall (hmac : Bytes → Bytes → Digest)
    (aes_ecb : Bytes → Bytes → Bytes) (wbehaviour rbehaviour : Nat → Nat → SocketReturn)
    (uninit : Nat → Nat) (fuel : Nat) (st st1 : HandshakeState)
    (h : handshake_liveness hmac aes_ecb wbehaviour rbehaviour uninit fuel st =
      .returns (.fall st1)) :
    ∃ written session1 wsock1 bytes_read results rsock1,
      libp2p_secio_encrypted_write hmac aes_ecb wbehaviour fuel st.session st.wsock
          (st.session.remote_nonce.take 16) = .returns (written, session1, wsock1) ∧
      0 < written ∧
      libp2p_secio_encrypted_read hmac aes_ecb rbehaviour uninit fuel session1 st.rsock =
          .returns (bytes_read, results, st1.session, rsock1) ∧
      0 < bytes_read ∧
      (results.getD []).length = 16 ∧
      libp2p_secio_bytes_compare (results.getD []) st1.session.local_nonce 16 = 0 ∧
      st1.wsock = wsock1 ∧ st1.rsock = rsock1 := by
  cases hw : libp2p_secio_encrypted_write hmac aes_ecb wbehaviour fuel st.session st.wsock
      (st.session.remote_nonce.take 16) with
  | unfinished => simp only [handshake_liveness, hw, reduceCtorEq] at h
  | undefined => simp only [handshake_liveness, hw, reduceCtorEq] at h
  | returns w =>
    obtain ⟨written, session1, wsock1⟩ := w
    cases hr : libp2p_secio_encrypted_read hmac aes_ecb rbehaviour uninit fuel session1
        st.rsock with
    | unfinished =>
      simp only [handshake_liveness, hw, hr] at h
      split_ifs at h
      simp only [Outcome.returns.injEq, reduceCtorEq] at h
    | undefined =>
      simp only [handshake_liveness, hw, hr] at h
      split_ifs at h
      simp only [Outcome.returns.injEq, reduceCtorEq] at h
    | returns r =>
      obtain ⟨bytes_read, results, session2, rsock1⟩ := r
      simp only [handshake_liveness, hw, hr] at h
      split_ifs at h with h1 h2 h3 h4
      all_goals simp only [Outcome.returns.injEq, reduceCtorEq, LoopExit.fall.injEq] at h
      subst h
      refine ⟨written, session1, wsock1, bytes_read, results, rsock1, rfl, by omega, hr,
        by omega, ?_, ?_, rfl, rfl⟩
      · exact not_not.1 h3
      · exact not_not.1 h4

theorem handshake_before_liveness_keeps (sha256 : Bytes → Digest)
    (hmac : Bytes → Bytes → Digest) (c : Collaborators)
    (wbehaviour rbehaviour : Nat → Nat → SocketReturn) (uninit : Nat → Nat) (fuel : Nat)
    (private_key : RsaPrivateKey) (st : HandshakeState)
    (out : LoopExit HandshakeState (HandshakeLocals × HandshakeState))
    (h : handshake_before_liveness sha256 hmac c wbehaviour rbehaviour uninit fuel private_key
      st = .returns out) :
    match out with
    | .ret st1 => st.keeps st1
    | .fall r => st.keeps r.2 ∧
        (r.1.new_peer = true → r.1.remote_peer.id ∉ st.peerstore.map Libp2pPeer.id) := by
  simp only [handshake_before_liveness] at h
  cases h1 : handshake_propose c wbehaviour rbehaviour uninit fuel private_key st with
  | unfinished => simp only [h1, Outcome.step, reduceCtorEq] at h
  | undefined => simp only [h1, Outcome.step, reduceCtorEq] at h
  | returns o1 =>
    have k1 := handshake_propose_keeps _ _ _ _ _ _ _ _ h1
    cases o1 with
    | ret s =>
      simp only [h1, Outcome.step, Outcome.returns.injEq] at h
      subst h
      exact k1
    | fall r1 =>
      have kp := handshake_peer_keeps r1.1 r1.2
      have k1p := keeps_trans _ _ _ k1 kp.1
      cases h2 : handshake_select sha256 (handshake_peer r1.1 r1.2).1
          (handshake_peer r1.1 r1.2).2 with
      | unfinished => simp only [h1, h2, Outcome.step, reduceCtorEq] at h
      | undefined => simp only [h1, h2, Outcome.step, reduceCtorEq] at h
      | returns o2 =>
        have k2 := handshake_select_keeps _ _ _ _ h2
        cases o2 with
        | ret s =>
          simp only [h1, h2, Outcome.step, Outcome.returns.injEq] at h
          subst h
          exact keeps_trans _ _ _ k1p k2
        | fall r2 =>
          have k12 := keeps_trans _ _ _ k1p k2.1
          cases h3 : handshake_exchange c wbehaviour rbehaviour uninit fuel private_key r2.1
              r2.2 with
          | unfinished => simp only [h1, h2, h3, Outcome.step, reduceCtorEq] at h
          | undefined => simp only [h1, h2, h3, Outcome.step, reduceCtorEq] at h
          | returns o3 =>
            have k3 := handshake_exchange_keeps _ _ _ _ _ _ _ _ _ h3
            cases o3 with
            | ret s =>
              simp only [h1, h2, h3, Outcome.step, Outcome.returns.injEq] at h
              subst h
              exact keeps_trans _ _ _ k12 k3
            | fall st3 =>
              have k13 := keeps_trans _ _ _ k12 k3
              cases h4 : handshake_keys hmac r2.1 st3 with
              | unfinished => simp only [h1, h2, h3, h4, Outcome.step, reduceCtorEq] at h
              | undefined => simp only [h1, h2, h3, h4, Outcome.step, reduceCtorEq] at h
              | returns o4 =>
                have k4 := handshake_keys_keeps _ _ _ _ h4
                cases o4 with
                | ret s =>
                  simp only [h1, h2, h3, h4, Outcome.step, Outcome.returns.injEq] at h
                  subst h
                  exact keeps_trans _ _ _ k13 k4
                | fall st4 =>
                  simp only [h1, h2, h3, h4, Outcome.step, Outcome.returns.injEq] at h
                  subst h
                  refine ⟨keeps_trans _ _ _ k13 k4, ?_⟩
                  intro hn
                  have hnew : (handshake_peer r1.1 r1.2).1.new_peer = true := by
                    rw [← k2.2.1]; exact hn
                  have := kp.2.2 hnew
                  rw [k1.2.1] at this
                  rw [k2.2.2]
                  exact this

theorem handshake_cases (sha256 : Bytes → Digest) (hmac : Bytes → Bytes → Digest)
    (aes_ecb : Bytes → Bytes → Bytes) (c : Collaborators)
    (wbehaviour rbehaviour : Nat → Nat → SocketReturn) (uninit : Nat → Nat) (fuel : Nat)
    (local_session : SessionContext) (private_key : RsaPrivateKey)
    (peerstore : List Libp2pPeer) (wsock : WriteSocket) (rsock : ReadSocket) (ret : Int)
    (st1 : HandshakeState)
    (h : libp2p_secio_handshake sha256 hmac aes_ecb c wbehaviour rbehaviour uninit fuel
      local_session private_key peerstore wsock rsock = .returns (ret, st1)) :
    (ret = 0 ∧ (HandshakeState.mk local_session peerstore wsock rsock).keeps st1) ∨
    (ret = 1 ∧ ∃ locals st4 st5,
      handshake_before_liveness sha256 hmac c wbehaviour rbehaviour uninit fuel private_key
        (HandshakeState.mk local_session peerstore wsock rsock) = .returns (.fall (locals, st4)) ∧
      (HandshakeState.mk local_session peerstore wsock rsock).keeps st4 ∧
      (locals.new_peer = true → locals.remote_peer.id ∉ peerstore.map Libp2pPeer.id) ∧
      handshake_liveness hmac aes_ecb wbehaviour rbehaviour uninit fuel st4 =
        .returns (.fall st5) ∧
      st1 = handshake_finish locals st5) := by
  simp only [libp2p_secio_handshake] at h
  cases hb : handshake_before_liveness sha256 hmac c wbehaviour rbehaviour uninit fuel
      private_key (HandshakeState.mk local_session peerstore wsock rsock) with
  | unfinished => simp only [hb, Outcome.step, reduceCtorEq] at h
  | undefined => simp only [hb, Outcome.step, reduceCtorEq] at h
  | returns o =>
    have kb := handshake_before_liveness_keeps _ _ _ _ _ _ _ _ _ _ hb
    cases o with
    | ret s =>
      simp only [hb, Outcome.step, Outcome.returns.injEq, Prod.mk.injEq] at h
      obtain ⟨hr, hs⟩ := h
      subst hs
      exact Or.inl ⟨hr.symm, kb⟩
    | fall r =>
      cases h5 : handshake_liveness hmac aes_ecb wbehaviour rbehaviour uninit fuel r.2 with
      | unfinished => simp only [hb, h5, Outcome.step, reduceCtorEq] at h
      | undefined => simp only [hb, h5, Outcome.step, reduceCtorEq] at h
      | returns o5 =>
        have k5 := handshake_liveness_keeps _ _ _ _ _ _ _ _ h5
        cases o5 with
        | ret s =>
          simp only [hb, h5, Outcome.step, Outcome.returns.injEq, Prod.mk.injEq] at h
          obtain ⟨hr, hs⟩ := h
          subst hs
          exact Or.inl ⟨hr.symm, keeps_trans _ _ _ kb.1 k5⟩
        | fall st5 =>
          simp only [hb, h5, Outcome.step, Outcome.returns.injEq, Prod.mk.injEq] at h
          obtain ⟨hr, hs⟩ := h
          exact Or.inr ⟨hr.symm, r.1, r.2, st5, rfl, kb.1, kb.2, h5, hs.symm⟩

/-! ## Handshake: liveness check and peer insertion -/

theorem sample_handshake_succeeds :
    sampleHandshake sampleRemoteStream =
      .returns (1, (sampleHandshake sampleRemoteStream).state) ∧
    (sampleHandshake sampleRemoteStream).state.session.secure_stream = true ∧
    (sampleHandshake sampleRemoteStream).state.peerstore =
      [{ id := "QmBob", connection_type := .CONNECTION_TYPE_CONNECTED }] := by
  refine ⟨?_, ?_, ?_⟩
  · decide
  · decide
  · decide

theorem sample_remote_side_sends_stream :
    (libp2p_secio_handshake mixSha mixHmac sampleEcb remoteCollaborators wholeSocket
      wholeSocket sampleUninit 8 sampleSession remotePrivateKey [] ⟨0, []⟩
      ⟨0, (sampleHandshake sampleRemoteStream).state.wsock.wire⟩).state.wsock.wire =
      sampleRemoteStream ∧
    (libp2p_secio_handshake mixSha mixHmac sampleEcb remoteCollaborators wholeSocket
      wholeSocket sampleUninit 8 sampleSession remotePrivateKey [] ⟨0, []⟩
      ⟨0, (sampleHandshake sampleRemoteStream).state.wsock.wire⟩).state.peerstore =
      [{ id := "QmAlice", connection_type := .CONNECTION_TYPE_CONNECTED }] := by
  refine ⟨?_, ?_⟩
  · decide
  · decide

theorem sample_handshake_forged_signature :
    sampleHandshake forgedRemoteStream =
      .returns (0, (sampleHandshake forgedRemoteStream).state) ∧
    (sampleHandshake forgedRemoteStream).state.session.remote_peer_id = "QmBob" ∧
    (sampleHandshake forgedRemoteStream).state.session.secure_stream = false ∧
    (sampleHandshake forgedRemoteStream).state.peerstore = [] := by
  refine ⟨?_, ?_, ?_, ?_⟩
  · decide
  · decide
  · decide
  · decide

theorem sample_handshake_tampered_nonce :
    sampleHandshake tamperedRemoteStream =
      .returns (0, (sampleHandshake tamperedRemoteStream).state) ∧
    (sampleHandshake tamperedRemoteStream).state.rsock.pending = [] ∧
    (sampleHandshake tamperedRemoteStream).state.session.secure_stream = false ∧
    (sampleHandshake tamperedRemoteStream).state.peerstore = [] := by
  refine ⟨?_, ?_, ?_, ?_⟩
  · decide
  · decide
  · decide
  · decide

theorem handshake_returns_one_after_check (sha256 : Bytes → Digest) (hmac : Bytes → Bytes → Digest)
    (aes_ecb : Bytes → Bytes → Bytes) (c : Collaborators)
    (wbehaviour rbehaviour : Nat → Nat → SocketReturn) (uninit : Nat → Nat) (fuel : Nat)
    (local_session : SessionContext) (private_key : RsaPrivateKey)
    (peerstore : List Libp2pPeer) (wsock : WriteSocket) (rsock : ReadSocket) (ret : Int)
    (st1 : HandshakeState)
    (hn : local_session.local_nonce.length = 16)
    (h : libp2p_secio_handshake sha256 hmac aes_ecb c wbehaviour rbehaviour uninit fuel
      local_session private_key peerstore wsock rsock = .returns (ret, st1)) :
    (ret = 0 ∨ ret = 1) ∧
    (ret = 0 → st1.session.secure_stream = local_session.secure_stream) ∧
    (ret = 1 → st1.session.secure_stream = true ∧
      ∃ (st4 : HandshakeState) (written : Int) (session1 : SessionContext) (bytes_read : Int)
          (session2 : SessionContext),
        st4.session.secure_stream = local_session.secure_stream ∧
        libp2p_secio_encrypted_write hmac aes_ecb wbehaviour fuel st4.session st4.wsock
            (st4.session.remote_nonce.take 16) = .returns (written, session1, st1.wsock) ∧
        0 < written ∧
        libp2p_secio_encrypted_read hmac aes_ecb rbehaviour uninit fuel session1 st4.rsock =
            .returns (bytes_read, some st1.session.local_nonce, session2, st1.rsock) ∧
        0 < bytes_read ∧
        st1.session.local_nonce = session2.local_nonce ∧
        st1.session.local_nonce.length = 16) := by
  rcases handshake_cases sha256 hmac aes_ecb c wbehaviour rbehaviour uninit fuel local_session
    private_key peerstore wsock rsock ret st1 h with
    ⟨hr, hk⟩ | ⟨hr, locals, st4, st5, _, hk, _, hl, hf⟩
  · refine ⟨Or.inl hr, fun _ => hk.1, fun h1 => ?_⟩
    rw [hr] at h1
    exact absurd h1 (by decide)
  · refine ⟨Or.inr hr, fun h0 => ?_, fun _ => ?_⟩
    · rw [hr] at h0
      exact absurd h0 (by decide)
    · have hk5 := handshake_liveness_keeps _ _ _ _ _ _ _ _ hl
      obtain ⟨written, session1, wsock1, bytes_read, results, rsock1, hw, hwp, hrd, hrp, hlen,
        hcmp, hws, hrs⟩ := handshake_liveness_fall _ _ _ _ _ _ _ _ hl
      have h16 : st5.session.local_nonce.length = 16 := hk5.2.2 (hk.2.2 hn)
      have heq : results.getD [] = st5.session.local_nonce :=
        (bytes_compare_sixteen _ _ hlen h16).1 hcmp
      have hsome : results = some st5.session.local_nonce := by
        cases results with
        | none => simp at hlen
        | some r => simp only [Option.getD_some] at heq; rw [heq]
      have hs1 : st1.session.local_nonce = st5.session.local_nonce := by
        rw [hf]; unfold handshake_finish; split_ifs <;> rfl
      have hs2 : st1.wsock = st5.wsock := by
        rw [hf]; unfold handshake_finish; split_ifs <;> rfl
      have hs3 : st1.rsock = st5.rsock := by
        rw [hf]; unfold handshake_finish; split_ifs <;> rfl
      have hs4 : st1.session.secure_stream = true := by
        rw [hf]; unfold handshake_finish; split_ifs <;> rfl
      refine ⟨hs4, st4, written, session1, bytes_read, st5.session, hk.1, ?_, hwp, ?_, hrp, hs1,
        ?_⟩
      · rw [hs2, hws]; exact hw
      · rw [hs1, hs3, hrs, ← hsome]; exact hrd
      · rw [hs1]; exact h16

theorem liveness_value (hmac : Bytes → Bytes → Digest) (aes_ecb : Bytes → Bytes → Bytes)
    (wbehaviour rbehaviour : Nat → Nat → SocketReturn) (uninit : Nat → Nat) (fuel : Nat)
    (st4 : HandshakeState) (written : Int) (session1 : SessionContext) (wsock1 : WriteSocket)
    (bytes_read : Int) (results : Option Bytes) (session2 : SessionContext)
    (rsock1 : ReadSocket)
    (hw : libp2p_secio_encrypted_write hmac aes_ecb wbehaviour fuel st4.session st4.wsock
      (st4.session.remote_nonce.take 16) = .returns (written, session1, wsock1))
    (hr : libp2p_secio_encrypted_read hmac aes_ecb rbehaviour uninit fuel session1 st4.rsock =
      .returns (bytes_read, results, session2, rsock1))
    (h16 : session2.local_nonce.length = 16) :
    handshake_liveness hmac aes_ecb wbehaviour rbehaviour uninit fuel st4 =
      .returns
        (if 0 < written then
          (if 0 < bytes_read ∧ results = some session2.local_nonce then
            .fall (HandshakeState.mk session2 st4.peerstore wsock1 rsock1)
          else .ret (HandshakeState.mk session2 st4.peerstore wsock1 rsock1))
        else .ret (HandshakeState.mk session1 st4.peerstore wsock1 st4.rsock)) := by
  simp only [handshake_liveness, hw, hr]
  by_cases h1 : written ≤ 0
  · have h1n : ¬ 0 < written := by omega
    simp only [h1, h1n, if_true, if_false]
  · have h1p : 0 < written := by omega
    simp only [h1, h1p, if_true, if_false]
    by_cases h2 : bytes_read ≤ 0
    · have h2n : ¬ 0 < bytes_read := by omega
      simp only [h2, h2n, if_true, false_and, if_false]
    · have h2p : 0 < bytes_read := by omega
      simp only [h2, h2p, if_false, true_and]
      by_cases h3 : results = some session2.local_nonce
      · have hc := (bytes_compare_sixteen session2.local_nonce session2.local_nonce h16 h16).2 rfl
        simp only [h3, Option.getD_some, h16, ne_eq, not_true_eq_false, if_false, hc, if_true]
      · simp only [h3, if_false]
        by_cases h4 : (results.getD []).length = 16
        · have hne : results.getD [] ≠ session2.local_nonce := by
            intro he
            apply h3
            cases results with
            | none => simp at h4
            | some r => simp only [Option.getD_some] at he; rw [he]
          have hc : libp2p_secio_bytes_compare (results.getD []) session2.local_nonce 16 ≠ 0 :=
            fun hz => hne ((bytes_compare_sixteen _ _ h4 h16).1 hz)
          simp only [h4, ne_eq, not_true_eq_false, if_false, hc, not_false_eq_true, if_true]
        · simp only [ne_eq, h4, not_false_eq_true, if_true]

theorem sample_handshake_wrong_nonce :
    sampleHandshake wrongNonceRemoteStream =
      .returns (0, (sampleHandshake wrongNonceRemoteStream).state) ∧
    (sampleHandshake wrongNonceRemoteStream).state.rsock.pending = [] ∧
    (sampleHandshake wrongNonceRemoteStream).state.session.secure_stream = false ∧
    (sampleHandshake wrongNonceRemoteStream).state.peerstore = [] := by
  refine ⟨?_, ?_, ?_, ?_⟩
  · decide
  · decide
  · decide
  · decide

/-- The liveness check on a frame that `libp2p_secio_encrypted_read` hands back. When
the steps of `libp2p_secio_handshake` before the check have fallen through, on a session
whose local nonce buffer has 16 bytes, the secure stream is not yet installed. If the
encrypted write of the remote nonce and the encrypted read that follows return, the
handshake returns 0 and leaves the secure stream as it was unless the write returned more
than 0, the read returned more than 0 and the frame read and decrypted is exactly the 16
bytes of the local nonce; else it returns 1 with the secure stream installed. -/
theorem handshake_liveness_outcome (sha256 : Bytes → Digest) (hmac : Bytes → Bytes → Digest)
    (aes_ecb : Bytes → Bytes → Bytes) (c : Collaborators)
    (wbehaviour rbehaviour : Nat → Nat → SocketReturn) (uninit : Nat → Nat) (fuel : Nat)
    (local_session : SessionContext) (private_key : RsaPrivateKey)
    (peerstore : List Libp2pPeer) (wsock : WriteSocket) (rsock : ReadSocket)
    (locals : HandshakeLocals) (st4 : HandshakeState) (written : Int)
    (session1 : SessionContext) (wsock1 : WriteSocket) (bytes_read : Int)
    (results : Option Bytes) (session2 : SessionContext) (rsock1 : ReadSocket)
    (hn : local_session.local_nonce.length = 16)
    (hb : handshake_before_liveness sha256 hmac c wbehaviour rbehaviour uninit fuel private_key
      (HandshakeState.mk local_session peerstore wsock rsock) = .returns (.fall (locals, st4)))
    (hw : libp2p_secio_encrypted_write hmac aes_ecb wbehaviour fuel st4.session st4.wsock
      (st4.session.remote_nonce.take 16) = .returns (written, session1, wsock1))
    (hr : libp2p_secio_encrypted_read hmac aes_ecb rbehaviour uninit fuel session1 st4.rsock =
      .returns (bytes_read, results, session2, rsock1)) :
    st4.session.secure_stream = local_session.secure_stream ∧
    session2.local_nonce.length = 16 ∧
    (¬(0 < written ∧ 0 < bytes_read ∧ results = some session2.local_nonce) →
      ∃ st1, libp2p_secio_handshake sha256 hmac aes_ecb c wbehaviour rbehaviour uninit fuel
          local_session private_key peerstore wsock rsock = .returns (0, st1) ∧
        st1.session.secure_stream = local_session.secure_stream) ∧
    ((0 < written ∧ 0 < bytes_read ∧ results = some session2.local_nonce) →
      ∃ st1, libp2p_secio_handshake sha256 hmac aes_ecb c wbehaviour rbehaviour uninit fuel
          local_session private_key peerstore wsock rsock = .returns (1, st1) ∧
        st1 = handshake_finish locals (HandshakeState.mk session2 st4.peerstore wsock1 rsock1) ∧
        st1.session.secure_stream = true) := by
  have kb := handshake_before_liveness_keeps _ _ _ _ _ _ _ _ _ _ hb
  have hk1 := encrypted_write_keeps hmac aes_ecb wbehaviour fuel _ _ _ _ _ _ hw
  have hk2 := encrypted_read_keeps hmac aes_ecb rbehaviour uninit fuel _ _ _ _ _ _ hr
  have h16 : session2.local_nonce.length = 16 := by
    rw [hk2.2, hk1.2]; exact kb.1.2.2 hn
  have hv := liveness_value hmac aes_ecb wbehaviour rbehaviour uninit fuel st4 written session1
    wsock1 bytes_read results session2 rsock1 hw hr h16
  refine ⟨kb.1.1, h16, ?_, ?_⟩
  · intro hnot
    by_cases h1 : 0 < written
    · have h2 : ¬(0 < bytes_read ∧ results = some session2.local_nonce) :=
        fun hh => hnot ⟨h1, hh⟩
      refine ⟨HandshakeState.mk session2 st4.peerstore wsock1 rsock1, ?_, ?_⟩
      · simp only [libp2p_secio_handshake, hb, Outcome.step, hv, h1, h2, if_true, if_false]
      · exact (hk2.1.trans hk1.1).trans kb.1.1
    · refine ⟨HandshakeState.mk session1 st4.peerstore wsock1 st4.rsock, ?_, ?_⟩
      · simp only [libp2p_secio_handshake, hb, Outcome.step, hv, h1, if_false]
      · exact hk1.1.trans kb.1.1
  · intro hyes
    refine ⟨_, ?_, rfl, ?_⟩
    · simp only [libp2p_secio_handshake, hb, Outcome.step, hv, hyes.1, hyes.2.1, hyes.2.2,
        if_true, and_self]
    · unfold handshake_finish
      split_ifs <;> rfl

theorem handshake_liveness_outcome_sample :
    sampleSession.local_nonce.length = 16 ∧
    handshake_before_liveness mixSha mixHmac sampleCollaborators wholeSocket wholeSocket
        sampleUninit 8 samplePrivateKey
        (HandshakeState.mk sampleSession [] ⟨0, []⟩ ⟨0, wrongNonceRemoteStream⟩) =
      .returns (.fall (wrongNonceStart.1, wrongNonceStart.2)) ∧
    libp2p_secio_encrypted_write mixHmac sampleEcb wholeSocket 8 wrongNonceStart.2.session
        wrongNonceStart.2.wsock (wrongNonceStart.2.session.remote_nonce.take 16) =
      .returns (48, wrongNonceWrite.2.1, wrongNonceWrite.2.2) ∧
    libp2p_secio_encrypted_read mixHmac sampleEcb wholeSocket sampleUninit 8
        wrongNonceWrite.2.1 wrongNonceStart.2.rsock =
      .returns (16, some (List.replicate 16 9), wrongNonceRead.2.2.1, wrongNonceRead.2.2.2) ∧
    (wrongNonceStart.2.session.secure_stream = sampleSession.secure_stream ∧
     wrongNonceRead.2.2.1.local_nonce.length = 16 ∧
     (¬((0 : Int) < 48 ∧ (0 : Int) < 16 ∧
        some (List.replicate 16 9) = some wrongNonceRead.2.2.1.local_nonce) →
      ∃ st1, libp2p_secio_handshake mixSha mixHmac sampleEcb sampleCollaborators wholeSocket
          wholeSocket sampleUninit 8 sampleSession samplePrivateKey [] ⟨0, []⟩
          ⟨0, wrongNonceRemoteStream⟩ = .returns (0, st1) ∧
        st1.session.secure_stream = sampleSession.secure_stream) ∧
     (((0 : Int) < 48 ∧ (0 : Int) < 16 ∧
        some (List.replicate 16 9) = some wrongNonceRead.2.2.1.local_nonce) →
      ∃ st1, libp2p_secio_handshake mixSha mixHmac sampleEcb sampleCollaborators wholeSocket
          wholeSocket sampleUninit 8 sampleSession samplePrivateKey [] ⟨0, []⟩
          ⟨0, wrongNonceRemoteStream⟩ = .returns (1, st1) ∧
        st1 = handshake_finish wrongNonceStart.1
          (HandshakeState.mk wrongNonceRead.2.2.1 wrongNonceStart.2.peerstore
            wrongNonceWrite.2.2 wrongNonceRead.2.2.2) ∧
        st1.session.secure_stream = true)) ∧
    ¬((0 : Int) < 48 ∧ (0 : Int) < 16 ∧
      some (List.replicate 16 9) = some wrongNonceRead.2.2.1.local_nonce) :=
  ⟨by decide, by decide, by decide, by decide,
   handshake_liveness_outcome mixSha mixHmac sampleEcb sampleCollaborators wholeSocket wholeSocket
     sampleUninit 8 sampleSession samplePrivateKey [] ⟨0, []⟩ ⟨0, wrongNonceRemoteStream⟩
     wrongNonceStart.1 wrongNonceStart.2 48 wrongNonceWrite.2.1 wrongNonceWrite.2.2 16
     (some (List.replicate 16 9)) wrongNonceRead.2.2.1 wrongNonceRead.2.2.2 (by decide)
     (by decide) (by decide) (by decide),
   by decide⟩

/-- C25: the liveness check on a third frame of fewer than 32 bytes. For every session,
`libp2p_secio_decrypt` has no defined behaviour on a frame of at most 31 bytes: it
computes `incoming_size - 32` without a test. In the sample handshake on a remote stream
whose third frame has five bytes, the steps before the check fall through, the frame
`01 02 03 04 05` is read whole, which is not the local nonce, and the handshake does not
return 0: `libp2p_secio_encrypted_read` hands the frame to `libp2p_secio_decrypt`, and
the handshake has no defined behaviour. -/
theorem handshake_liveness_short_frame (hmac : Bytes → Bytes → Digest)
    (aes_ecb : Bytes → Bytes → Bytes) (session : SessionContext) (frame : Bytes) :
    libp2p_secio_decrypt hmac aes_ecb session (frame.take 31) = none ∧
    handshake_before_liveness mixSha mixHmac sampleCollaborators wholeSocket wholeSocket
        sampleUninit 8 samplePrivateKey
        (HandshakeState.mk sampleSession [] ⟨0, []⟩ ⟨0, shortFrameRemoteStream⟩) =
      .returns (.fall (shortFrameStart.1, shortFrameStart.2)) ∧
    shortFrameStart.2.rsock = ⟨10, [0, 0, 0, 5, 1, 2, 3, 4, 5]⟩ ∧
    shortFrameStart.2.session.local_nonce = List.replicate 16 3 ∧
    libp2p_secio_unencrypted_read wholeSocket sampleUninit 8 shortFrameStart.2.rsock =
      .returns (5, some [1, 2, 3, 4, 5], ⟨15, []⟩) ∧
    libp2p_secio_encrypted_read hmac aes_ecb wholeSocket sampleUninit 8 session
      shortFrameStart.2.rsock = .undefined ∧
    handshake_liveness mixHmac sampleEcb wholeSocket wholeSocket sampleUninit 8
      shortFrameStart.2 = .undefined ∧
    libp2p_secio_handshake mixSha mixHmac sampleEcb sampleCollaborators wholeSocket wholeSocket
      sampleUninit 8 sampleSession samplePrivateKey [] ⟨0, []⟩ ⟨0, shortFrameRemoteStream⟩ =
      .undefined := by
  have hread : libp2p_secio_unencrypted_read wholeSocket sampleUninit 8 shortFrameStart.2.rsock =
      .returns (5, some [1, 2, 3, 4, 5], ⟨15, []⟩) := by decide
  have hdec : ∀ (s : SessionContext) (f : Bytes),
      libp2p_secio_decrypt hmac aes_ecb s (f.take 31) = none := by
    intro s f
    have hlt : (f.take 31).length < 32 := by
      rw [List.length_take]; omega
    simp only [libp2p_secio_decrypt, hlt, if_true]
  refine ⟨hdec session frame, by decide, by decide, by decide, hread, ?_, by decide, by decide⟩
  have h5 := hdec session [1, 2, 3, 4, 5]
  have e5 : ([1, 2, 3, 4, 5] : Bytes).take 31 = [1, 2, 3, 4, 5] := by decide
  rw [e5] at h5
  have hpos : ¬ ((5 : Int) ≤ 0) := by decide
  simp only [libp2p_secio_encrypted_read, hread, h5, hpos, if_false]

/-- C26: a failed handshake never inserts a peer. A run of `libp2p_secio_handshake`
returns 0 or 1. After a run that returns 0 the peer-store keeps its peers under the same
ids as before, in the same number and order: `libp2p_peerstore_add_peer` was not called,
and a peer id that was unknown before, such as that of a peer made speculatively, is
still unknown. After a run that returns 1 the peer-store holds the same ids, followed by
the id of the remote peer when that peer was new, in which case its id was unknown
before. -/
theorem failed_handshake_inserts_no_peer (sha256 : Bytes → Digest)
    (hmac : Bytes → Bytes → Digest) (aes_ecb : Bytes → Bytes → Bytes) (c : Collaborators)
    (wbehaviour rbehaviour : Nat → Nat → SocketReturn) (uninit : Nat → Nat) (fuel : Nat)
    (local_session : SessionContext) (private_key : RsaPrivateKey)
    (peerstore : List Libp2pPeer) (wsock : WriteSocket) (rsock : ReadSocket) (ret : Int)
    (st1 : HandshakeState)
    (h : libp2p_secio_handshake sha256 hmac aes_ecb c wbehaviour rbehaviour uninit fuel
      local_session private_key peerstore wsock rsock = .returns (ret, st1)) :
    (ret = 0 ∨ ret = 1) ∧
    (ret = 0 → st1.peerstore.map Libp2pPeer.id = peerstore.map Libp2pPeer.id) ∧
    (ret = 0 → ∀ id, libp2p_peerstore_get_peer peerstore id = none →
      libp2p_peerstore_get_peer st1.peerstore id = none) ∧
    (ret = 1 → ∃ (new_peer : Bool) (remote_peer : Libp2pPeer) (before : List Libp2pPeer),
      before.map Libp2pPeer.id = peerstore.map Libp2pPeer.id ∧
      st1.peerstore =
        (if new_peer then libp2p_peerstore_add_peer before remote_peer else before) ∧
      (new_peer = true → libp2p_peerstore_get_peer peerstore remote_peer.id = none)) := by
  rcases handshake_cases sha256 hmac aes_ecb c wbehaviour rbehaviour uninit fuel local_session
    private_key peerstore wsock rsock ret st1 h with
    ⟨hr, hk⟩ | ⟨hr, locals, st4, st5, _, hk, hnew, hl, hf⟩
  · refine ⟨Or.inl hr, fun _ => hk.2.1, fun _ id hg => ?_, fun h1 => ?_⟩
    · rw [get_peer_none_iff] at hg ⊢
      rw [hk.2.1]
      exact hg
    · rw [hr] at h1
      exact absurd h1 (by decide)
  · have hk5 := handshake_liveness_keeps _ _ _ _ _ _ _ _ hl
    have h0 : ¬ ret = 0 := by rw [hr]; decide
    refine ⟨Or.inr hr, fun h => absurd h h0, fun h => absurd h h0, fun _ => ?_⟩
    refine ⟨locals.new_peer, locals.remote_peer, st5.peerstore, ?_, ?_, ?_⟩
    · rw [hk5.2.1, hk.2.1]
    · rw [hf]
      unfold handshake_finish
      split_ifs <;> rfl
    · intro hn
      rw [get_peer_none_iff]
      exact hnew hn

theorem failed_handshake_inserts_no_peer_witness :
    libp2p_secio_handshake mixSha mixHmac sampleEcb sampleCollaborators wholeSocket wholeSocket
        sampleUninit 8 sampleSession samplePrivateKey [] ⟨0, []⟩ ⟨0, forgedRemoteStream⟩ =
      .returns (0, (sampleHandshake forgedRemoteStream).state) ∧
    (((0 : Int) = 0 ∨ (0 : Int) = 1) ∧
     ((0 : Int) = 0 →
        (sampleHandshake forgedRemoteStream).state.peerstore.map Libp2pPeer.id =
          ([] : List Libp2pPeer).map Libp2pPeer.id) ∧
     ((0 : Int) = 0 → ∀ id, libp2p_peerstore_get_peer [] id = none →
        libp2p_peerstore_get_peer (sampleHandshake forgedRemoteStream).state.peerstore id =
          none) ∧
     ((0 : Int) = 1 → ∃ (new_peer : Bool) (remote_peer : Libp2pPeer) (before : List Libp2pPeer),
        before.map Libp2pPeer.id = ([] : List Libp2pPeer).map Libp2pPeer.id ∧
        (sampleHandshake forgedRemoteStream).state.peerstore =
          (if new_peer then libp2p_peerstore_add_peer before remote_peer else before) ∧
        (new_peer = true → libp2p_peerstore_get_peer [] remote_peer.id = none))) :=
  ⟨by decide,
   failed_handshake_inserts_no_peer mixSha mixHmac sampleEcb sampleCollaborators wholeSocket
     wholeSocket sampleUninit 8 sampleSession samplePrivateKey [] ⟨0, []⟩
     ⟨0, forgedRemoteStream⟩ 0 (sampleHandshake forgedRemoteStream).state (by decide)⟩

end Libp2p
